import Mathlib

/-!
# sql-extractor: the canonicalization engine and its orchestrator

A shallow embedding of `internal/extract/extract.go`, `internal/models/models.go`
and `sql_extractor.go`.

* The syntax tree of the SQL front end (`pingcap/tidb/pkg/parser/ast`) is the
  inductive type `Node`: one constructor per node kind that `ExtractVisitor.Enter`
  has a case for, plus `Node.other` for every kind that reaches the default branch.
* The visitor's mutable fields are the record `ExtractVisitor`; a handler is a
  function from visitor state to visitor state, and `child.Accept(v)` is the
  application of the child's visit to the state.
* `v.params` is a Go slice.  During one traversal it is only appended to, so the
  handlers work on the list of its elements; the backing arrays, which outlive a
  traversal because the visitor is pooled, are modelled in `Heap` and used by
  `extractOneStmt` and `Extract`.
* `logError` and the `fmt.Printf` of `handleValueExpr` only print to standard
  output; standard output is not part of the state.
-/

namespace SqlExtractor

/-! ## models.go -/

/-- SQLOpType of `models.go`: the closed set of operation kinds. -/
inductive SQLOpType where
  | SQLOperationUnknown
  | SQLOperationSelect
  | SQLOperationInsert
  | SQLOperationUpdate
  | SQLOperationDelete
  | SQLOperationExplain
  | SQLOperationShow
  deriving DecidableEq, Repr

/-- The string constant behind each operation kind. -/
def SQLOpType.String : SQLOpType → String
  | .SQLOperationUnknown => "UNKNOWN"
  | .SQLOperationSelect => "SELECT"
  | .SQLOperationInsert => "INSERT"
  | .SQLOperationUpdate => "UPDATE"
  | .SQLOperationDelete => "DELETE"
  | .SQLOperationExplain => "EXPLAIN"
  | .SQLOperationShow => "SHOW"

/-- TableInfo of `models.go`. -/
structure TableInfo where
  templatizedSchema : String
  templatizedTableName : String
  schema : String
  tableName : String
  deriving DecidableEq, Repr

/-- NewTableInfo called without arguments. -/
def NewTableInfo : TableInfo := ⟨"", "", "", ""⟩

/-! ## Literal values -/

/-- A float64 literal.  Floating-point formatting is outside the model: the value
carries the text that the `%f` verb of `fmt` prints for it. -/
structure GoFloat where
  bits : Nat
  verbF : String
  deriving DecidableEq, Repr

/-- The dynamic value of a literal node (`ValueExpr.GetValue()`, of Go type `any`).
`other` stands for every dynamic type that `handleValueExpr` sends to its default
case (byte strings, bit literals, ...) and carries the text printed by `%v`. -/
inductive Value where
  | nil
  | int64 (i : Int)
  | uint64 (n : Nat)
  | float64 (f : GoFloat)
  | string (s : String)
  | decimal (text : String)
  | other (typeName : String) (verbV : String)
  deriving DecidableEq, Repr

/-! ## The syntax tree of the front end -/

/-- Operators of the front end (`opcode.Op`). -/
inductive Op where
  | LogicAnd | LeftShift | RightShift | LogicOr | GE | LE | EQ | NE | LT | GT
  | Plus | Minus | And | Or | Mod | Xor | Div | Mul | Not | Not2 | BitNeg | IntDiv
  | LogicXor | NullEQ | In | Like | Case | Regexp | IsNull | IsTruth | IsFalsity
  deriving DecidableEq, Repr

/-- Modelled from the spec: the front end's name table behind `Op.String()`, which is
not under src/.  The spec fixes `=` eq, `>` gt, `>=` ge, `<` lt, `<=` le, `!=` and
`<>` ne, `+` plus, `-` minus, `*` mul; the repository's tests fix `and`, `not`.  The
operator `!` (Not2) has its own spelling as name. -/
def Op.String : Op → String
  | .LogicAnd => "and" | .LeftShift => "leftshift" | .RightShift => "rightshift"
  | .LogicOr => "or" | .GE => "ge" | .LE => "le" | .EQ => "eq" | .NE => "ne"
  | .LT => "lt" | .GT => "gt" | .Plus => "plus" | .Minus => "minus"
  | .And => "bitand" | .Or => "bitor" | .Mod => "mod" | .Xor => "bitxor"
  | .Div => "div" | .Mul => "mul" | .Not => "not" | .Not2 => "!"
  | .BitNeg => "bitneg" | .IntDiv => "intdiv" | .LogicXor => "xor"
  | .NullEQ => "nulleq" | .In => "in" | .Like => "like" | .Case => "case"
  | .Regexp => "regexp" | .IsNull => "isnull" | .IsTruth => "istrue"
  | .IsFalsity => "isfalse"

/-- JoinType of the front end: `CrossJoin = iota + 1`, `LeftJoin`, `RightJoin`; the
zero value is what a `Join` carries on which the front end sets no type: one without a
right operand, and a natural or straight join. -/
inductive JoinType where
  | zero | CrossJoin | LeftJoin | RightJoin
  deriving DecidableEq, Repr

/-- ShowStmtType of the front end; `other` is every kind without a case in
`handleShowStmt`. -/
inductive ShowStmtType where
  | ShowCreateTable | ShowCreateDatabase | ShowDatabases | ShowTables | ShowColumns
  | ShowIndex | ShowStatus | ShowVariables | ShowProcessList | ShowTableStatus
  | ShowWarnings | ShowErrors | other (code : Nat)
  deriving DecidableEq, Repr

/-- ColumnName of the front end (the `.O` spellings of schema, table and name). -/
structure ColumnName where
  Schema : String
  Table : String
  Name : String
  deriving DecidableEq, Repr

/-- SelectField of the front end, over the type of its expression: `WildCard` holds
the schema and table of a wildcard field when it is not nil, `Expr` is nil exactly
for wildcard fields. -/
structure SelectField (α : Type) where
  WildCard : Option (String × String)
  Expr : Option α
  AsName : String

/-- The syntax tree.  A field of interface type, or of a pointer type that the
visitor reaches through `Accept`, is a `Node`; `Option` is a field that may be nil.
Clause wrappers that the handlers only look through (`FieldList`, `TableRefsClause`,
`GroupByClause`, `HavingClause`, `OrderByClause`, `DeleteTableList`) are the `Option`
around their content. -/
inductive Node where
  | ColumnNameExpr (Name : ColumnName)
  | ValueExpr (value : Value)
  | BinaryOperationExpr (op : Op) (L R : Node)
  | TableName (Schema Name : String)
  | SelectStmt (Distinct : Bool) (Fields : Option (List (SelectField Node)))
      (From : Option (Option Node)) (Where : Option Node)
      (GroupBy : Option (List Node)) (Having : Option (Option Node))
      (OrderBy : Option (List Node)) (Limit : Option Node)
  | InsertStmt (IgnoreErr : Bool) (Table : Option Node) (Columns : List String)
      (Lists : Option (List (List Node))) (Select : Option Node)
      (OnDuplicate : Option (List Node))
  | UpdateStmt (TableRefs : Option (Option Node)) (List_ : List Node)
      (Where : Option Node) (Order : Option (List Node)) (Limit : Option Node)
  | DeleteStmt (Tables : Option (List Node)) (TableRefs : Option (Option Node))
      (Where : Option Node) (Order : Option (List Node)) (Limit : Option Node)
  | ExplainStmt (Analyze : Bool) (Format : String) (Stmt : Option Node)
  | ShowStmt (Tp : ShowStmtType) (Table : Option (String × String)) (DBName : String)
      (IfNotExists Full : Bool) (Pattern : Option Node) (Where : Option Node)
      (Limit : Option Node)
  | TableSource (Source : Node) (AsName : String)
  | Join (Left Right : Option Node) (Tp : JoinType) (On : Option Node)
  | OnCondition (Expr : Node)
  | PatternInExpr (Expr : Node) (List_ : List Node) (isNot : Bool) (Sel : Option Node)
  | PatternLikeOrIlikeExpr (Expr Pattern : Node) (isNot : Bool)
  | BetweenExpr (Expr Left Right : Node) (isNot : Bool)
  | ParenthesesExpr (Expr : Node)
  | CaseExpr (Value : Option Node) (WhenClauses : List (Node × Node))
      (ElseClause : Option Node)
  | CompareSubqueryExpr (L : Node) (op : Op) (R : Node) (All : Bool)
  | FuncCallExpr (FnName : String) (Args : List Node)
  | AggregateFuncExpr (F : String) (Args : List Node) (Distinct : Bool)
  | UnaryOperationExpr (op : Op) (V : Node)
  | TimeUnitExpr (Unit : String)
  | ByItem (Expr : Node) (Desc : Bool)
  | Limit (Count : Node) (Offset : Option Node)
  | Assignment (Column : ColumnName) (Expr : Node)
  | ValuesExpr (Column : Node)
  | SubqueryExpr (Query : Node)
  | IsNullExpr (Expr : Node) (isNot : Bool)
  | ExistsSubqueryExpr (Sel : Node) (isNot : Bool)
  | DefaultExpr (Name : Option String)
  | other (kind : String) (children : List Node)

/-! ## The visitor -/

/-- ExtractVisitor: the mutable fields of the visitor.  `params` is the list of the
elements of the Go slice `v.params`. -/
structure ExtractVisitor where
  builder : String
  params : List Value
  inAggrFunc : Bool
  tableInfos : List TableInfo
  opType : SQLOpType
  deriving DecidableEq, Repr

/-- The effect of visiting a node (`node.Accept(v)`) on the visitor. -/
abbrev Visit := ExtractVisitor → ExtractVisitor

/-- The call `v.builder.WriteString(s)`. -/
def ExtractVisitor.WriteString (v : ExtractVisitor) (s : String) : ExtractVisitor :=
  { v with builder := v.builder ++ s }

/-- The statement `v.params = append(v.params, x)`. -/
def ExtractVisitor.appendParam (v : ExtractVisitor) (x : Value) : ExtractVisitor :=
  { v with params := v.params ++ [x] }

/-- The guard at the head of every statement handler: the operation kind is set only
while it is still unknown. -/
def ExtractVisitor.setOpType (v : ExtractVisitor) (op : SQLOpType) : ExtractVisitor :=
  if v.opType = .SQLOperationUnknown then { v with opType := op } else v

/-- logError prints one line to standard output and changes nothing else. -/
def logError (_details : String) (v : ExtractVisitor) : ExtractVisitor := v

/-- A Go loop `for idx, item := range items` whose body writes `sep` when `idx > 0`
and then visits the item. -/
def forEachSep (sep : String) : List Visit → Visit
  | [], v => v
  | f :: rest, v => rest.foldl (fun acc g => g (acc.WriteString sep)) (f v)

/-- The visit of an optional child: `if child != nil` around `child.Accept(v)`. -/
def visitOpt : Option Visit → Visit
  | none, v => v
  | some f, v => f v

/-! ### Shard-suffix normalizer -/

/-- The constant tablePlaceholder. -/
def tablePlaceholder : String := "?"

/-- The value of a string of decimal digits, none when a character is not a digit. -/
def parseDigits : List Char → Option Nat
  | [] => some 0
  | cs => cs.foldl
      (fun acc c => match acc with
        | none => none
        | some n => if c.isDigit then some (n * 10 + (c.toNat - 48)) else none)
      (some 0)

/-- The library call `strconv.Atoi` on a 64-bit platform: an optional sign, at least
one decimal digit, nothing else, and a value that fits in an int64; none is a non-nil
error. -/
def Atoi (s : String) : Option Int :=
  let body : Bool × List Char :=
    match s.toList with
    | '-' :: r => (true, r)
    | '+' :: r => (false, r)
    | r => (false, r)
  if body.2 = [] then none
  else
    match parseDigits body.2 with
    | none => none
    | some n =>
      if body.1 then (if n ≤ 2 ^ 63 then some (-(n : Int)) else none)
      else (if n < 2 ^ 63 then some (n : Int) else none)

/-- The library call `strings.Join(parts, "_")`. -/
def joinUnderscore (parts : List (List Char)) : List Char :=
  ['_'].intercalate parts

/-- The method templateTable. -/
def templateTable (table : String) : String :=
  if table = "" ∨ ¬ '_' ∈ table.toList then table
  else
    let parts := table.toList.splitOn '_'
    match Atoi (String.mk (parts.getLastD [])) with
    | some _ => String.mk (joinUnderscore parts.dropLast) ++ "_" ++ tablePlaceholder
    | none => table

/-! ### Handlers

Each handler takes the fields of its node, with every child that it visits given as
the visit of that child, and where the handler inspects the dynamic type of a child
also the child itself. -/

/-- The method handleColumnNameExpr. -/
def handleColumnNameExpr (Name : ColumnName) (v : ExtractVisitor) : ExtractVisitor :=
  let schema := if Name.Schema ≠ "" then Name.Schema ++ "." else ""
  let table := if Name.Table ≠ "" then Name.Table ++ "." else ""
  v.WriteString (schema ++ table ++ Name.Name)

/-- The text written for a literal inside an aggregate function, by dynamic type. -/
def valueText : Value → String
  | .int64 i => toString i
  | .uint64 n => toString n
  | .float64 f => f.verbF
  | .string s => "'" ++ s ++ "'"
  | .decimal t => t
  | .nil => "<nil>"
  | .other _ t => t

/-- The method handleValueExpr. -/
def handleValueExpr (value : Value) (v : ExtractVisitor) : ExtractVisitor :=
  if v.inAggrFunc then v.WriteString (valueText value)
  else (v.WriteString "?").appendParam value

/-- The method handleBinaryOperationExpr. -/
def handleBinaryOperationExpr (op : Op) (L R : Visit) (v : ExtractVisitor) :
    ExtractVisitor :=
  R ((L v).WriteString (" " ++ op.String ++ " "))

/-- The method handleTableName. -/
def handleTableName (Schema Name : String) (v : ExtractVisitor) : ExtractVisitor :=
  let t0 := NewTableInfo
  let r : ExtractVisitor × TableInfo :=
    if Schema ≠ "" then
      ((v.WriteString (templateTable Schema)).WriteString ".",
        { t0 with schema := Schema, templatizedSchema := templateTable Schema })
    else (v, t0)
  let t := { r.2 with tableName := Name, templatizedTableName := templateTable Name }
  { r.1.WriteString (templateTable Name) with tableInfos := v.tableInfos ++ [t] }

/-- The visit of one field of the SELECT list: a wildcard is written with its schema
and table; otherwise the expression is visited and a non-empty alias follows ` AS `.
A field with neither (never built by the front end) dereferences nil in Go; here it
writes nothing. -/
def selectFieldVisit (f : SelectField Visit) : Visit := fun v =>
  match f.WildCard with
  | some (schema, table) =>
    let v := if schema ≠ "" then (v.WriteString schema).WriteString "." else v
    let v := if table ≠ "" then (v.WriteString table).WriteString "." else v
    v.WriteString "*"
  | none =>
    let v := visitOpt f.Expr v
    if f.AsName ≠ "" then (v.WriteString " AS ").WriteString f.AsName else v

/-- A clause that is a keyword followed by a list of items separated by `, `. -/
def listClause (keyword : String) : Option (List Visit) → Visit
  | none, v => v
  | some items, v => forEachSep ", " items (v.WriteString keyword)

/-- A clause that is a keyword followed by one expression. -/
def exprClause (keyword : String) : Option Visit → Visit
  | none, v => v
  | some e, v => e (v.WriteString keyword)

/-- The table clause `if refs != nil && refs.TableRefs != nil` of UPDATE and DELETE. -/
def tableRefsVisit : Option (Option Visit) → Visit
  | some (some j), v => j v
  | _, v => v

/-- The method handleSelectStmt. -/
def handleSelectStmt (Distinct : Bool) (Fields : Option (List (SelectField Visit)))
    (From : Option (Option Visit)) (Where : Option Visit)
    (GroupBy : Option (List Visit)) (Having : Option (Option Visit))
    (OrderBy : Option (List Visit)) (Limit : Option Visit)
    (v : ExtractVisitor) : ExtractVisitor :=
  let v := v.setOpType .SQLOperationSelect
  let v := v.WriteString "SELECT "
  let v := if Distinct then v.WriteString "DISTINCT " else v
  let v := match Fields with
    | some fs => forEachSep ", " (fs.map selectFieldVisit) v
    | none => v
  let v := match From with
    | some refs => visitOpt refs (v.WriteString " FROM ")
    | none => v
  let v := exprClause " WHERE " Where v
  let v := listClause " GROUP BY " GroupBy v
  let v := match Having with
    | some (some e) => e (v.WriteString " HAVING ")
    | _ => v
  let v := listClause " ORDER BY " OrderBy v
  visitOpt Limit v

/-- The method handleInsertStmt. -/
def handleInsertStmt (IgnoreErr : Bool) (Table : Option Visit) (Columns : List String)
    (Lists : Option (List (List Visit))) (Select : Option Visit)
    (OnDuplicate : Option (List Visit)) (v : ExtractVisitor) : ExtractVisitor :=
  let v := v.setOpType .SQLOperationInsert
  let v := v.WriteString "INSERT "
  let v := if IgnoreErr then v.WriteString "IGNORE " else v
  let v := v.WriteString "INTO "
  let v := visitOpt Table v
  let v := if 0 < Columns.length then
      (forEachSep ", " (Columns.map (fun c w => w.WriteString c))
        (v.WriteString " (")).WriteString ")"
    else v
  let v := match Lists with
    | some lists =>
      forEachSep ", "
        (lists.map (fun l w => (forEachSep ", " l (w.WriteString "(")).WriteString ")"))
        (v.WriteString " VALUES ")
    | none =>
      match Select with
      | some s => s (v.WriteString " ")
      | none => v
  listClause " ON DUPLICATE KEY UPDATE " OnDuplicate v

/-- The method handleUpdateStmt. -/
def handleUpdateStmt (TableRefs : Option (Option Visit)) (List_ : List Visit)
    (Where : Option Visit) (Order : Option (List Visit)) (Limit : Option Visit)
    (v : ExtractVisitor) : ExtractVisitor :=
  let v := v.setOpType .SQLOperationUpdate
  let v := v.WriteString "UPDATE "
  let v := tableRefsVisit TableRefs v
  let v := forEachSep ", " List_ (v.WriteString " SET ")
  let v := exprClause " WHERE " Where v
  let v := listClause " ORDER BY " Order v
  visitOpt Limit v

/-- The method handleDeleteStmt. -/
def handleDeleteStmt (Tables : Option (List Visit)) (TableRefs : Option (Option Visit))
    (Where : Option Visit) (Order : Option (List Visit)) (Limit : Option Visit)
    (v : ExtractVisitor) : ExtractVisitor :=
  let v := v.setOpType .SQLOperationDelete
  let v := v.WriteString "DELETE "
  let v := match Tables with
    | some ts => (forEachSep ", " ts v).WriteString " "
    | none => v
  let v := v.WriteString "FROM "
  let v := tableRefsVisit TableRefs v
  let v := exprClause " WHERE " Where v
  let v := listClause " ORDER BY " Order v
  visitOpt Limit v

/-- The method handleExplainStmt. -/
def handleExplainStmt (Analyze : Bool) (Format : String) (Stmt : Option Visit)
    (v : ExtractVisitor) : ExtractVisitor :=
  let v := v.setOpType .SQLOperationExplain
  let v := v.WriteString "EXPLAIN "
  let v := if Analyze then v.WriteString "ANALYZE " else v
  let v := if Format ≠ "" then
      ((v.WriteString "FORMAT = ").WriteString Format).WriteString " "
    else v
  visitOpt Stmt v

/-- The type test `n.(*test_driver.ValueExpr)`, with the literal's value. -/
def Node.asValueExpr : Node → Option Value
  | .ValueExpr value => some value
  | _ => none

/-- The type test `n.(*ast.TimeUnitExpr)`, with the text of `Unit.String()`. -/
def Node.asTimeUnitExpr : Node → Option String
  | .TimeUnitExpr u => some u
  | _ => none

/-- The method handleTableSource: every case of the type switch on the source visits
the source; a SELECT source is wrapped in parentheses. -/
def handleTableSource (Source : Node) (acceptSource : Visit) (AsName : String)
    (v : ExtractVisitor) : ExtractVisitor :=
  let v := match Source with
    | .TableName _ _ => acceptSource v
    | .SelectStmt _ _ _ _ _ _ _ _ => (acceptSource (v.WriteString "(")).WriteString ")"
    | .Join _ _ _ _ => acceptSource v
    | _ => acceptSource (logError "TableSource.Source type" v)
  if AsName ≠ "" then (v.WriteString " AS ").WriteString AsName else v

/-- The table joinTypeMap, with the fallback of handleJoin for a missing key. -/
def joinKeyword : JoinType → String
  | .LeftJoin => " LEFT JOIN "
  | .RightJoin => " RIGHT JOIN "
  | .CrossJoin => " CROSS JOIN "
  | .zero => " JOIN "

/-- The method handleJoin. -/
def handleJoin (Left Right : Option Visit) (Tp : JoinType) (On : Option Visit)
    (v : ExtractVisitor) : ExtractVisitor :=
  let v := visitOpt Left v
  match Right with
  | some r => exprClause " ON " On (r (v.WriteString (joinKeyword Tp)))
  | none => v

/-- The pattern of a LIKE: a literal pattern is replaced by a placeholder and its
value recorded, any other pattern is visited. -/
def patternVisit (Pattern : Node) (acceptPattern : Visit) (v : ExtractVisitor) :
    ExtractVisitor :=
  match Pattern.asValueExpr with
  | some value => (v.WriteString "?").appendParam value
  | none => acceptPattern v

/-- The method handlePatternLikeOrIlikeExpr. -/
def handlePatternLikeOrIlikeExpr (Expr : Visit) (Pattern : Node) (acceptPattern : Visit)
    (isNot : Bool) (v : ExtractVisitor) : ExtractVisitor :=
  let v := Expr v
  let v := if isNot then v.WriteString " NOT" else v
  patternVisit Pattern acceptPattern (v.WriteString " LIKE ")

/-- The body of the loop of handlePatternInExpr for one list item: a placeholder is
written for every item, a value is recorded only for a literal item. -/
def inListItem (item : Node) : Visit := fun v =>
  let v := v.WriteString "?"
  match item.asValueExpr with
  | some value => v.appendParam value
  | none => v

/-- The method handlePatternInExpr. -/
def handlePatternInExpr (Expr : Visit) (List_ : List Node) (isNot : Bool)
    (Sel : Option Visit) (v : ExtractVisitor) : ExtractVisitor :=
  let v := Expr v
  let v := if isNot then v.WriteString " NOT" else v
  let v := v.WriteString " IN ("
  let v := forEachSep ", " (List_.map inListItem) v
  let v := visitOpt Sel v
  v.WriteString ")"

/-- The method handleBetweenExpr. -/
def handleBetweenExpr (Expr Left Right : Visit) (isNot : Bool) (v : ExtractVisitor) :
    ExtractVisitor :=
  let v := Expr v
  let v := if isNot then v.WriteString "NOT " else v
  let v := Left (v.WriteString " BETWEEN ")
  Right (v.WriteString " AND ")

/-- The method handleByItem. -/
def handleByItem (Expr : Visit) (Desc : Bool) (v : ExtractVisitor) : ExtractVisitor :=
  let v := Expr v
  if Desc then v.WriteString " DESC" else v

/-- The method handleValuesExpr. -/
def handleValuesExpr (Column : Visit) (v : ExtractVisitor) : ExtractVisitor :=
  (Column (v.WriteString "VALUES(")).WriteString ")"

/-- The method handleLimit. -/
def handleLimit (Count : Visit) (Offset : Option Visit) (v : ExtractVisitor) :
    ExtractVisitor :=
  let v := v.WriteString " LIMIT "
  let v := match Offset with
    | some o => (o v).WriteString ", "
    | none => v
  Count v

/-- The method handleSubqueryExpr. -/
def handleSubqueryExpr (Query : Visit) (v : ExtractVisitor) : ExtractVisitor :=
  (Query (v.WriteString "(")).WriteString ")"

/-- The method handleOnCondition. -/
def handleOnCondition (Expr : Visit) (v : ExtractVisitor) : ExtractVisitor := Expr v

/-- The method handleAssignment. -/
def handleAssignment (Column : ColumnName) (Expr : Visit) (v : ExtractVisitor) :
    ExtractVisitor :=
  Expr ((handleColumnNameExpr Column v).WriteString " eq ")

/-- The method handleAggregateFuncExpr. -/
def handleAggregateFuncExpr (F : String) (Args : List Visit) (Distinct : Bool)
    (v : ExtractVisitor) : ExtractVisitor :=
  let v := (v.WriteString F).WriteString "("
  let v := if Distinct then v.WriteString "DISTINCT " else v
  (forEachSep ", " Args v).WriteString ")"

/-- The method handleCaseExpr. -/
def handleCaseExpr (Value : Option Visit) (WhenClauses : List (Visit × Visit))
    (ElseClause : Option Visit) (v : ExtractVisitor) : ExtractVisitor :=
  let v := v.WriteString "CASE"
  let v := exprClause " " Value v
  let v := WhenClauses.foldl
    (fun acc w => w.2 ((w.1 (acc.WriteString " WHEN ")).WriteString " THEN ")) v
  let v := exprClause " ELSE " ElseClause v
  v.WriteString " END"

/-- The method handleParenthesesExpr. -/
def handleParenthesesExpr (Expr : Visit) (v : ExtractVisitor) : ExtractVisitor :=
  (Expr (v.WriteString "(")).WriteString ")"

/-- The loop of handleFuncCallExpr from argument `i` on: `prev` is `Args[i-1]` (none
when `i = 0`), the list holds `Args[i:]` with the visit of each argument. -/
def funcCallArgs : Option Node → List (Node × Visit) → Visit
  | _, [], v => v
  | prev, (arg, acceptArg) :: rest, v =>
    let v := match prev with
      | none => v
      | some p =>
        if ¬ arg.asTimeUnitExpr.isSome ∨ ¬ p.asValueExpr.isSome then v.WriteString ", "
        else v
    let nextIsTimeUnit : Bool := match rest with
      | (next, _) :: _ => next.asTimeUnitExpr.isSome
      | [] => false
    match arg.asTimeUnitExpr with
    | some interval =>
      let v := match prev with
        | some p =>
          (match p.asValueExpr with
            | some value => v.appendParam value
            | none => v)
        | none => v
      funcCallArgs (some arg) rest
        (((v.WriteString "INTERVAL ").WriteString "? ").WriteString interval)
    | none =>
      if arg.asValueExpr.isSome ∧ nextIsTimeUnit then funcCallArgs (some arg) rest v
      else funcCallArgs (some arg) rest (acceptArg v)

/-- The method handleFuncCallExpr. -/
def handleFuncCallExpr (FnName : String) (Args : List (Node × Visit))
    (v : ExtractVisitor) : ExtractVisitor :=
  (funcCallArgs none Args ((v.WriteString FnName).WriteString "(")).WriteString ")"

/-- The method handleUnaryOperationExpr. -/
def handleUnaryOperationExpr (op : Op) (V : Visit) (v : ExtractVisitor) :
    ExtractVisitor :=
  V ((v.WriteString op.String).WriteString " ")

/-- The method handleIsNullExpr. -/
def handleIsNullExpr (Expr : Visit) (isNot : Bool) (v : ExtractVisitor) :
    ExtractVisitor :=
  let v := Expr v
  if isNot then v.WriteString " IS NOT NULL" else v.WriteString " IS NULL"

/-- The method handleExistsSubqueryExpr. -/
def handleExistsSubqueryExpr (Sel : Visit) (isNot : Bool) (v : ExtractVisitor) :
    ExtractVisitor :=
  let v := if isNot then v.WriteString "NOT " else v
  (Sel (v.WriteString "EXISTS (")).WriteString ")"

/-- The method handleDefaultExpr; `Name` is the text of `node.Name.String()`. -/
def handleDefaultExpr (Name : Option String) (v : ExtractVisitor) : ExtractVisitor :=
  let v := v.WriteString "DEFAULT"
  match Name with
  | some n => (v.WriteString " ").WriteString n
  | none => v

/-- The method handleTimeUnitExpr writes nothing. -/
def handleTimeUnitExpr (_Unit : String) (v : ExtractVisitor) : ExtractVisitor := v

/-- The method handleCompareSubqueryExpr. -/
def handleCompareSubqueryExpr (L : Visit) (op : Op) (R : Visit) (All : Bool)
    (v : ExtractVisitor) : ExtractVisitor :=
  let v := ((L v).WriteString " ").WriteString op.String
  let v := if All then v.WriteString " ALL" else v.WriteString " ANY"
  (R (v.WriteString "(")).WriteString ")"

/-- The method appendTableName: the raw schema and name, no normalization and no
table reference. -/
def appendTableName (table : String × String) (v : ExtractVisitor) : ExtractVisitor :=
  let v := if table.1 ≠ "" then (v.WriteString table.1).WriteString "." else v
  v.WriteString table.2

/-- The method appendPatternAndWhere; `Pattern` is `node.Pattern.Pattern` when
`node.Pattern` is not nil. -/
def appendPatternAndWhere (Pattern : Option (Node × Visit)) (Where : Option Visit)
    (v : ExtractVisitor) : ExtractVisitor :=
  let v := match Pattern with
    | some (p, acceptP) => patternVisit p acceptP (v.WriteString " LIKE ")
    | none => v
  exprClause " WHERE " Where v

/-- The method handleShowStmt with the handlers of the individual SHOW kinds. -/
def handleShowStmt (Tp : ShowStmtType) (Table : Option (String × String))
    (DBName : String) (IfNotExists Full : Bool) (Pattern : Option (Node × Visit))
    (Where : Option Visit) (Limit : Option Visit) (v : ExtractVisitor) :
    ExtractVisitor :=
  let v := v.setOpType .SQLOperationShow
  let v := v.WriteString "SHOW "
  let tableName : Visit := fun w => match Table with
    | some t => appendTableName t w
    | none => w
  let fromDB : Visit := fun w =>
    if DBName ≠ "" then (w.WriteString " FROM ").WriteString DBName else w
  match Tp with
  | .ShowCreateTable => tableName (v.WriteString "CREATE TABLE ")
  | .ShowCreateDatabase =>
    let v := v.WriteString "CREATE DATABASE "
    let v := if DBName ≠ "" then v.WriteString DBName else v
    if IfNotExists then v.WriteString " IF NOT EXISTS" else v
  | .ShowDatabases => appendPatternAndWhere Pattern Where (v.WriteString "DATABASES")
  | .ShowTables => appendPatternAndWhere Pattern Where (fromDB (v.WriteString "TABLES"))
  | .ShowColumns =>
    appendPatternAndWhere Pattern Where (tableName (v.WriteString "COLUMNS FROM "))
  | .ShowIndex => tableName (v.WriteString "INDEX FROM ")
  | .ShowStatus => appendPatternAndWhere Pattern Where (v.WriteString "STATUS")
  | .ShowVariables => appendPatternAndWhere Pattern Where (v.WriteString "VARIABLES")
  | .ShowProcessList =>
    let v := if Full then v.WriteString "FULL " else v
    v.WriteString "PROCESSLIST"
  | .ShowTableStatus =>
    appendPatternAndWhere Pattern Where (fromDB (v.WriteString "TABLE STATUS"))
  | .ShowWarnings => visitOpt Limit (v.WriteString "WARNINGS")
  | .ShowErrors => visitOpt Limit (v.WriteString "ERRORS")
  | .other _ => logError "Unhandled ShowStmt type" v

/-! ### Enter, Leave and the front end's Accept -/

/-- The method Leave returns its node unchanged and touches no field. -/
def Leave (v : ExtractVisitor) : ExtractVisitor := v

/-- The second result of Enter, `return n, true` (the only return statement reached
for a node that is not nil): the front end is told to skip the children. -/
def enterSkipChildren : Bool := true

/-- The front end's generic descent into a list of children, in order. -/
def visitAll (children : List Visit) (v : ExtractVisitor) : ExtractVisitor :=
  children.foldl (fun acc f => f acc) v

mutual
/-- The call `n.Accept(v)`.  The front end's Accept calls `v.Enter(n)`, and when Enter
answers skipChildren it goes straight to `v.Leave`; otherwise it visits the children
of `n` first.  Each arm is the case of Enter's type switch for that kind of node;
Enter answers skipChildren on all of them, so for the kinds with a handler the arm is
the handler followed by Leave (the identity).  The last arm is the default branch. -/
def Accept : Node → Visit
  | .ColumnNameExpr Name, v => handleColumnNameExpr Name v
  | .ValueExpr value, v => handleValueExpr value v
  | .BinaryOperationExpr op L R, v =>
    handleBinaryOperationExpr op (Accept L) (Accept R) v
  | .TableName Schema Name, v => handleTableName Schema Name v
  | .SelectStmt Distinct Fields From Where GroupBy Having OrderBy Limit, v =>
    handleSelectStmt Distinct
      (match Fields with
        | some fs => some (acceptFields fs)
        | none => none)
      (match From with
        | some (some j) => some (some (Accept j))
        | some none => some none
        | none => none)
      (match Where with
        | some e => some (Accept e)
        | none => none)
      (match GroupBy with
        | some l => some (acceptList l)
        | none => none)
      (match Having with
        | some (some e) => some (some (Accept e))
        | some none => some none
        | none => none)
      (match OrderBy with
        | some l => some (acceptList l)
        | none => none)
      (match Limit with
        | some e => some (Accept e)
        | none => none) v
  | .InsertStmt IgnoreErr Table Columns Lists Select OnDuplicate, v =>
    handleInsertStmt IgnoreErr
      (match Table with
        | some e => some (Accept e)
        | none => none)
      Columns
      (match Lists with
        | some ls => some (acceptLists ls)
        | none => none)
      (match Select with
        | some e => some (Accept e)
        | none => none)
      (match OnDuplicate with
        | some l => some (acceptList l)
        | none => none) v
  | .UpdateStmt TableRefs List_ Where Order Limit, v =>
    handleUpdateStmt
      (match TableRefs with
        | some (some j) => some (some (Accept j))
        | some none => some none
        | none => none)
      (acceptList List_)
      (match Where with
        | some e => some (Accept e)
        | none => none)
      (match Order with
        | some l => some (acceptList l)
        | none => none)
      (match Limit with
        | some e => some (Accept e)
        | none => none) v
  | .DeleteStmt Tables TableRefs Where Order Limit, v =>
    handleDeleteStmt
      (match Tables with
        | some l => some (acceptList l)
        | none => none)
      (match TableRefs with
        | some (some j) => some (some (Accept j))
        | some none => some none
        | none => none)
      (match Where with
        | some e => some (Accept e)
        | none => none)
      (match Order with
        | some l => some (acceptList l)
        | none => none)
      (match Limit with
        | some e => some (Accept e)
        | none => none) v
  | .ExplainStmt Analyze Format Stmt, v =>
    handleExplainStmt Analyze Format
      (match Stmt with
        | some e => some (Accept e)
        | none => none) v
  | .ShowStmt Tp Table DBName IfNotExists Full Pattern Where Limit, v =>
    handleShowStmt Tp Table DBName IfNotExists Full
      (match Pattern with
        | some p => some (p, Accept p)
        | none => none)
      (match Where with
        | some e => some (Accept e)
        | none => none)
      (match Limit with
        | some e => some (Accept e)
        | none => none) v
  | .TableSource Source AsName, v => handleTableSource Source (Accept Source) AsName v
  | .Join Left Right Tp On, v =>
    handleJoin
      (match Left with
        | some e => some (Accept e)
        | none => none)
      (match Right with
        | some e => some (Accept e)
        | none => none)
      Tp
      (match On with
        | some e => some (Accept e)
        | none => none) v
  | .OnCondition Expr, v => handleOnCondition (Accept Expr) v
  | .PatternInExpr Expr List_ isNot Sel, v =>
    handlePatternInExpr (Accept Expr) List_ isNot
      (match Sel with
        | some e => some (Accept e)
        | none => none) v
  | .PatternLikeOrIlikeExpr Expr Pattern isNot, v =>
    handlePatternLikeOrIlikeExpr (Accept Expr) Pattern (Accept Pattern) isNot v
  | .BetweenExpr Expr Left Right isNot, v =>
    handleBetweenExpr (Accept Expr) (Accept Left) (Accept Right) isNot v
  | .ParenthesesExpr Expr, v => handleParenthesesExpr (Accept Expr) v
  | .CaseExpr Value WhenClauses ElseClause, v =>
    handleCaseExpr
      (match Value with
        | some e => some (Accept e)
        | none => none)
      (acceptWhens WhenClauses)
      (match ElseClause with
        | some e => some (Accept e)
        | none => none) v
  | .CompareSubqueryExpr L op R All, v =>
    handleCompareSubqueryExpr (Accept L) op (Accept R) All v
  | .FuncCallExpr FnName Args, v => handleFuncCallExpr FnName (acceptArgs Args) v
  | .AggregateFuncExpr F Args Distinct, v =>
    let old := v.inAggrFunc
    { handleAggregateFuncExpr F (acceptList Args) Distinct { v with inAggrFunc := true }
      with inAggrFunc := old }
  | .UnaryOperationExpr op V, v => handleUnaryOperationExpr op (Accept V) v
  | .TimeUnitExpr Unit, v => handleTimeUnitExpr Unit v
  | .ByItem Expr Desc, v => handleByItem (Accept Expr) Desc v
  | .Limit Count Offset, v =>
    handleLimit (Accept Count)
      (match Offset with
        | some e => some (Accept e)
        | none => none) v
  | .Assignment Column Expr, v => handleAssignment Column (Accept Expr) v
  | .ValuesExpr Column, v => handleValuesExpr (Accept Column) v
  | .SubqueryExpr Query, v => handleSubqueryExpr (Accept Query) v
  | .IsNullExpr Expr isNot, v => handleIsNullExpr (Accept Expr) isNot v
  | .ExistsSubqueryExpr Sel isNot, v => handleExistsSubqueryExpr (Accept Sel) isNot v
  | .DefaultExpr Name, v => handleDefaultExpr Name v
  | .other kind children, v =>
    let entered := logError ("Enter ast.Node type: " ++ kind) v
    if enterSkipChildren then Leave entered
    else Leave (visitAll (acceptList children) entered)
/-- The visits of the nodes of a list. -/
def acceptList : List Node → List Visit
  | [] => []
  | n :: ns => Accept n :: acceptList ns
/-- The arguments of a function call, each with its visit. -/
def acceptArgs : List Node → List (Node × Visit)
  | [] => []
  | n :: ns => (n, Accept n) :: acceptArgs ns
/-- The visits of the rows of a VALUES list. -/
def acceptLists : List (List Node) → List (List Visit)
  | [] => []
  | l :: ls => acceptList l :: acceptLists ls
/-- The fields of a SELECT list with their expressions replaced by their visits. -/
def acceptFields : List (SelectField Node) → List (SelectField Visit)
  | [] => []
  | ⟨w, e, a⟩ :: fs =>
    ⟨w, (match e with
      | some x => some (Accept x)
      | none => none), a⟩ :: acceptFields fs
/-- The WHEN clauses of a CASE with both expressions replaced by their visits. -/
def acceptWhens : List (Node × Node) → List (Visit × Visit)
  | [] => []
  | (c, r) :: ws => (Accept c, Accept r) :: acceptWhens ws
end

/-! ## Go errors -/

/-- A Go error value: `errors.New(text)`, the result of `fmt.Errorf` with one `%w`
verb (its formatted text and the wrapped error), or an error made by the front end. -/
inductive GoError where
  | errorString (text : String)
  | wrapError (msg : String) (err : GoError)
  | external (text : String)
  deriving DecidableEq, Repr

/-- The method `Error()`. -/
def GoError.Error : GoError → String
  | .errorString text => text
  | .wrapError msg _ => msg
  | .external text => text

/-- The function `errors.Unwrap`. -/
def GoError.Unwrap : GoError → Option GoError
  | .wrapError _ err => some err
  | _ => none

/-- The call `fmt.Errorf("error processing statement %d: %w", n, err)`. -/
def errorProcessingStatement (n : Nat) (err : GoError) : GoError :=
  .wrapError ("error processing statement " ++ toString n ++ ": " ++ err.Error) err

/-! ## Slices, backing arrays and the visitor pool -/

/-- The constant paramsMaxCount. -/
def paramsMaxCount : Nat := 64

/-- A slice header of Go type `[]any`: backing array, length, capacity. -/
structure Slice where
  arr : Nat
  len : Nat
  cap : Nat
  deriving DecidableEq, Repr

/-- The backing arrays allocated so far, by number; each is as long as its capacity. -/
abbrev Heap := List (List Value)

/-- The elements a slice shows in a heap. -/
def Heap.read (h : Heap) (s : Slice) : List Value :=
  (h.getD s.arr []).take s.len

/-- The call `make([]any, 0, n)`: a fresh array of nil interfaces. -/
def Heap.make (h : Heap) (n : Nat) : Heap × Slice :=
  (h ++ [List.replicate n Value.nil], ⟨h.length, 0, n⟩)

/-- The built-in `append(s, x)`: while the length is below the capacity the element
is stored in place in the backing array, which every other slice of that array sees;
a full slice is copied to a fresh array.  The capacity of the fresh array is chosen by
the Go runtime (at least the new length, rounded up to an allocation size class); twice
the old capacity stands for it here, and only statements with more than paramsMaxCount
parameters reach this branch. -/
def Heap.append (h : Heap) (s : Slice) (x : Value) : Heap × Slice :=
  if s.len < s.cap then
    (h.set s.arr ((h.getD s.arr []).set s.len x), { s with len := s.len + 1 })
  else
    let newcap := if s.cap = 0 then 1 else 2 * s.cap
    (h ++ [h.read s ++ [x] ++ List.replicate (newcap - (s.len + 1)) Value.nil],
      ⟨h.length, s.len + 1, newcap⟩)

/-- A run of appends, in order. -/
def Heap.appendAll (h : Heap) (s : Slice) : List Value → Heap × Slice
  | [] => (h, s)
  | x :: xs => Heap.appendAll (h.append s x).1 (h.append s x).2 xs

/-- An ExtractVisitor object as it sits in the pool: the fields of the visitor with
`params` as the slice header it really is. -/
structure PooledVisitor where
  builder : String
  params : Slice
  inAggrFunc : Bool
  tableInfos : List TableInfo
  opType : SQLOpType
  deriving DecidableEq, Repr

/-- What `sync.Pool.Get` can hand out: the pool is typed `any`, and extractOneStmt
checks the dynamic type of what it gets. -/
inductive PoolItem where
  | visitor (v : PooledVisitor)
  | foreign (typeName : String)
  deriving DecidableEq, Repr

/-- The extract.Extractor: the items its pool holds and the backing arrays of the
parameter slices of its visitors.  `parseCalls` records the inputs handed to
`e.parser.Parse`, most recent first. -/
structure Extractor where
  pool : List PoolItem
  heap : Heap
  parseCalls : List String
  deriving DecidableEq, Repr

/-- The constructor NewExtractor: an empty pool. -/
def NewExtractor : Extractor := ⟨[], [], []⟩

/-- The `New` function of the pool: a visitor with an empty builder, a parameter
slice of length 0 and capacity paramsMaxCount, and operation kind unknown. -/
def Extractor.poolNew (e : Extractor) : PoolItem × Extractor :=
  let r := e.heap.make paramsMaxCount
  (.visitor ⟨"", r.2, false, [], .SQLOperationUnknown⟩, { e with heap := r.1 })

/-- The call `e.pool.Get()`.  sync.Pool selects an arbitrary item of the pool, removes
and returns it, and may also ignore the pool and call New: `choice` is that selection,
`some i` for the item at position `i` (`some 0` is the item put back last), `none` or
a position beyond the pool for New. -/
def Extractor.poolGet (e : Extractor) (choice : Option Nat) : PoolItem × Extractor :=
  match choice with
  | none => e.poolNew
  | some i =>
    match e.pool.get? i with
    | some item => (item, { e with pool := e.pool.eraseIdx i })
    | none => e.poolNew

/-- The call `e.pool.Put(v)`. -/
def Extractor.poolPut (e : Extractor) (item : PoolItem) : Extractor :=
  { e with pool := item :: e.pool }

/-- The key function that extractOneStmt passes to UniqBy. -/
def tableKey (t : TableInfo) : String :=
  if t.schema = "" then t.tableName else t.schema ++ "." ++ t.tableName

/-- The loop of UniqBy: `seen` holds the keys met so far. -/
def uniqByAux {α : Type} (key : α → String) : List String → List α → List α
  | _, [] => []
  | seen, x :: xs =>
    if key x ∈ seen then uniqByAux key seen xs
    else x :: uniqByAux key (key x :: seen) xs

/-- Modelled from the spec: `slices.UniqBy` of the ziwi library, which is not under
src/: the elements in order, without those whose key an earlier element has
("deduplicated by qualified name, preserving first-seen order"). -/
def UniqBy {α : Type} (xs : List α) (key : α → String) : List α :=
  uniqByAux key [] xs

/-- The five results of extractOneStmt.  `params` is a slice header: its elements
are read from the heap. -/
structure StmtOutput where
  template : String
  tableInfos : Option (List TableInfo)
  params : Option Slice
  opType : SQLOpType
  err : Option GoError
  deriving DecidableEq, Repr

/-- The method extractOneStmt.  The visitor taken from the pool is run over the
statement; the appends it made to `v.params` are carried out on the backing array of
the pooled slice; the results are taken (`v.params` as the slice header it is), and
the deferred function then resets the visitor, reslicing `v.params` to length 0 over
the same array, and puts it back. -/
def extractOneStmt (e : Extractor) (choice : Option Nat) (stmt : Node) :
    Extractor × StmtOutput :=
  let got := e.poolGet choice
  match got.1 with
  | .foreign _ =>
    (got.2, ⟨"", none, none, .SQLOperationUnknown,
      some (.errorString "failed to get ExtractVisitor from pool")⟩)
  | .visitor pv =>
    let v0 : ExtractVisitor :=
      ⟨pv.builder, got.2.heap.read pv.params, pv.inAggrFunc, pv.tableInfos, pv.opType⟩
    let v := Leave (Accept stmt v0)
    let mem := got.2.heap.appendAll pv.params (v.params.drop v0.params.length)
    let out : StmtOutput :=
      ⟨v.builder, some (UniqBy v.tableInfos tableKey), some mem.2, v.opType, none⟩
    let reset : PooledVisitor :=
      ⟨"", { mem.2 with len := 0 }, false, [], .SQLOperationUnknown⟩
    (({ got.2 with heap := mem.1 }).poolPut (.visitor reset), out)

/-- The five results of Extract; `none` is a nil slice, respectively a nil error. -/
structure ExtractOutput where
  templates : Option (List String)
  tableInfos : Option (List (List TableInfo))
  params : Option (List Slice)
  opTypes : Option (List SQLOpType)
  err : Option GoError
  deriving DecidableEq, Repr

/-- The return statement `return nil, nil, nil, nil, err`. -/
def ExtractOutput.failure (err : GoError) : ExtractOutput :=
  ⟨none, none, none, none, some err⟩

/-- The loop of Extract from statement `idx` on, with the four result slices built so
far.  `sched idx` is the pool's selection when statement `idx` asks for a visitor. -/
def extractLoop (sched : Nat → Option Nat) :
    Nat → List Node → Extractor → List String → List (List TableInfo) → List Slice →
      List SQLOpType → Extractor × ExtractOutput
  | _, [], e, ts, tis, ps, ops => (e, ⟨some ts, some tis, some ps, some ops, none⟩)
  | idx, stmt :: rest, e, ts, tis, ps, ops =>
    let r := extractOneStmt e (sched idx) stmt
    match r.2.err with
    | some err => (r.1, ExtractOutput.failure (errorProcessingStatement (idx + 1) err))
    | none =>
      extractLoop sched (idx + 1) rest r.1 (ts ++ [r.2.template])
        (tis ++ [r.2.tableInfos.getD []]) (ps ++ [r.2.params.getD ⟨0, 0, 0⟩])
        (ops ++ [r.2.opType])

/-- The extractor after `e.parser.Parse(sql, "", "")` has been called. -/
def Extractor.afterParse (e : Extractor) (sql : String) : Extractor :=
  { e with parseCalls := sql :: e.parseCalls }

/-- The method Extract of the internal extractor.  `Parse` is the front end
(`e.parser.Parse`): the statements it splits the input into and its error. -/
def Extract (Parse : String → List Node × Option GoError) (sched : Nat → Option Nat)
    (e : Extractor) (sql : String) : Extractor × ExtractOutput :=
  if sql = "" then (e, ExtractOutput.failure (.errorString "empty SQL statement"))
  else
    let parsed := Parse sql
    let e1 := e.afterParse sql
    match parsed.2 with
    | some err => (e1, ExtractOutput.failure err)
    | none =>
      if parsed.1.length = 0 then
        (e1, ExtractOutput.failure (.errorString "no valid SQL statements found"))
      else extractLoop sched 0 parsed.1 e1 [] [] [] []

/-- The parameter lists a caller sees in the results of Extract: the elements of each
returned slice, read when Extract has returned. -/
def paramsOf (r : Extractor × ExtractOutput) : Option (List (List Value)) :=
  r.2.params.map (fun ps => ps.map r.1.heap.read)

/-- The parameter list a caller sees in the results of extractOneStmt. -/
def stmtParams (r : Extractor × StmtOutput) : Option (List Value) :=
  r.2.params.map r.1.heap.read

/-- The results of extractOneStmt for the statements of a batch, one after the other:
the loop of Extract starts at index `idx` in state `e`, and each statement runs in the
state the one before it left. -/
def outputsFrom (sched : Nat → Option Nat) : Nat → Extractor → List Node → List StmtOutput
  | _, _, [] => []
  | idx, e, stmt :: rest =>
    (extractOneStmt e (sched idx) stmt).2 ::
      outputsFrom sched (idx + 1) (extractOneStmt e (sched idx) stmt).1 rest

/-! ## What the claims speak about -/

/-- The number of placeholder tokens `?` in a template. -/
def countPlaceholders (template : String) : Nat :=
  template.toList.count '?'

mutual
/-- The values of the literal value nodes of a tree that lie outside the arguments of
aggregate functions, in the order in which the statement is written out (the order
in which the handlers go through the children of a node). -/
def literalValues : Node → List Value
  | .ColumnNameExpr _ => []
  | .ValueExpr value => [value]
  | .BinaryOperationExpr _ L R => literalValues L ++ literalValues R
  | .TableName _ _ => []
  | .SelectStmt _ Fields From Where GroupBy Having OrderBy Limit =>
    (match Fields with
      | some fs => literalValuesFields fs
      | none => [])
    ++ (match From with
      | some (some j) => literalValues j
      | _ => [])
    ++ (match Where with
      | some e => literalValues e
      | none => [])
    ++ (match GroupBy with
      | some l => literalValuesList l
      | none => [])
    ++ (match Having with
      | some (some e) => literalValues e
      | _ => [])
    ++ (match OrderBy with
      | some l => literalValuesList l
      | none => [])
    ++ (match Limit with
      | some e => literalValues e
      | none => [])
  | .InsertStmt _ Table _ Lists Select OnDuplicate =>
    (match Table with
      | some e => literalValues e
      | none => [])
    ++ (match Lists with
      | some ls => literalValuesLists ls
      | none => [])
    ++ (match Select with
      | some e => literalValues e
      | none => [])
    ++ (match OnDuplicate with
      | some l => literalValuesList l
      | none => [])
  | .UpdateStmt TableRefs List_ Where Order Limit =>
    (match TableRefs with
      | some (some j) => literalValues j
      | _ => [])
    ++ literalValuesList List_
    ++ (match Where with
      | some e => literalValues e
      | none => [])
    ++ (match Order with
      | some l => literalValuesList l
      | none => [])
    ++ (match Limit with
      | some e => literalValues e
      | none => [])
  | .DeleteStmt Tables TableRefs Where Order Limit =>
    (match Tables with
      | some l => literalValuesList l
      | none => [])
    ++ (match TableRefs with
      | some (some j) => literalValues j
      | _ => [])
    ++ (match Where with
      | some e => literalValues e
      | none => [])
    ++ (match Order with
      | some l => literalValuesList l
      | none => [])
    ++ (match Limit with
      | some e => literalValues e
      | none => [])
  | .ExplainStmt _ _ Stmt =>
    (match Stmt with
      | some e => literalValues e
      | none => [])
  | .ShowStmt _ _ _ _ _ Pattern Where Limit =>
    (match Pattern with
      | some e => literalValues e
      | none => [])
    ++ (match Where with
      | some e => literalValues e
      | none => [])
    ++ (match Limit with
      | some e => literalValues e
      | none => [])
  | .TableSource Source _ => literalValues Source
  | .Join Left Right _ On =>
    (match Left with
      | some e => literalValues e
      | none => [])
    ++ (match Right with
      | some e => literalValues e
      | none => [])
    ++ (match On with
      | some e => literalValues e
      | none => [])
  | .OnCondition Expr => literalValues Expr
  | .PatternInExpr Expr List_ _ Sel =>
    literalValues Expr ++ literalValuesList List_
    ++ (match Sel with
      | some e => literalValues e
      | none => [])
  | .PatternLikeOrIlikeExpr Expr Pattern _ => literalValues Expr ++ literalValues Pattern
  | .BetweenExpr Expr Left Right _ =>
    literalValues Expr ++ literalValues Left ++ literalValues Right
  | .ParenthesesExpr Expr => literalValues Expr
  | .CaseExpr Value WhenClauses ElseClause =>
    (match Value with
      | some e => literalValues e
      | none => [])
    ++ literalValuesWhens WhenClauses
    ++ (match ElseClause with
      | some e => literalValues e
      | none => [])
  | .CompareSubqueryExpr L _ R _ => literalValues L ++ literalValues R
  | .FuncCallExpr _ Args => literalValuesList Args
  | .AggregateFuncExpr _ _ _ => []
  | .UnaryOperationExpr _ V => literalValues V
  | .TimeUnitExpr _ => []
  | .ByItem Expr _ => literalValues Expr
  | .Limit Count Offset =>
    (match Offset with
      | some e => literalValues e
      | none => [])
    ++ literalValues Count
  | .Assignment _ Expr => literalValues Expr
  | .ValuesExpr Column => literalValues Column
  | .SubqueryExpr Query => literalValues Query
  | .IsNullExpr Expr _ => literalValues Expr
  | .ExistsSubqueryExpr Sel _ => literalValues Sel
  | .DefaultExpr _ => []
  | .other _ children => literalValuesList children
/-- The literal values of a list of nodes, in order. -/
def literalValuesList : List Node → List Value
  | [] => []
  | n :: ns => literalValues n ++ literalValuesList ns
/-- The literal values of the rows of a VALUES list, in order. -/
def literalValuesLists : List (List Node) → List Value
  | [] => []
  | l :: ls => literalValuesList l ++ literalValuesLists ls
/-- The literal values of the fields of a SELECT list, in order. -/
def literalValuesFields : List (SelectField Node) → List Value
  | [] => []
  | ⟨_, e, _⟩ :: fs =>
    (match e with
      | some x => literalValues x
      | none => [])
    ++ literalValuesFields fs
/-- The literal values of the WHEN clauses of a CASE, in order. -/
def literalValuesWhens : List (Node × Node) → List Value
  | [] => []
  | (c, r) :: ws => literalValues c ++ literalValues r ++ literalValuesWhens ws
end

/-! ## Statement trees used below

Each is the tree the front end builds for the SQL text named in its comment. -/

/-- The column reference `name` without schema and table. -/
def column (name : String) : Node := .ColumnNameExpr ⟨"", "", name⟩

/-- The table reference clause `FROM name` over one table: a Join with only a left
operand, which is a TableSource over the TableName. -/
def fromTable (name : String) : Node :=
  .Join (some (.TableSource (.TableName "" name) "")) none .zero none

/-- The statement `SELECT * FROM t WHERE <cond>`. -/
def selectStarWhere (cond : Node) : Node :=
  .SelectStmt false (some [⟨some ("", ""), none, ""⟩]) (some (some (fromTable "t")))
    (some cond) none none none none

/-- The statement `SELECT <n>` for an integer literal. -/
def selectLiteral (n : Int) : Node :=
  .SelectStmt false (some [⟨none, some (.ValueExpr (.int64 n)), ""⟩]) none none none
    none none none

/-- The statement `SELECT * FROM t WHERE a IN (b, c)`. -/
def stmtInColumns : Node :=
  selectStarWhere (.PatternInExpr (column "a") [column "b", column "c"] false none)

/-- The statement `SELECT * FROM t WHERE a IN (b + 1)`. -/
def stmtInExpr : Node :=
  selectStarWhere (.PatternInExpr (column "a")
    [.BinaryOperationExpr .Plus (column "b") (.ValueExpr (.int64 1))] false none)

/-- The condition `name REGEXP '^A'`: a PatternRegexpExpr, a kind without a case in
Enter, with its two children. -/
def regexpCond : Node :=
  .other "*ast.PatternRegexpExpr" [column "name", .ValueExpr (.string "^A")]

/-- The statement `SELECT * FROM t WHERE name REGEXP '^A'`. -/
def stmtRegexp : Node := selectStarWhere regexpCond

/-- The statement `INSERT INTO users (name, age) VALUES ('Alice', 25)`. -/
def stmtInsertAlice : Node :=
  .InsertStmt false (some (fromTable "users")) ["name", "age"]
    (some [[.ValueExpr (.string "Alice"), .ValueExpr (.int64 25)]]) none none

/-- The statement `UPDATE users SET age = 26 WHERE name = 'Alice'`. -/
def stmtUpdateAlice : Node :=
  .UpdateStmt (some (some (fromTable "users")))
    [.Assignment ⟨"", "", "age"⟩ (.ValueExpr (.int64 26))]
    (some (.BinaryOperationExpr .EQ (column "name") (.ValueExpr (.string "Alice"))))
    none none

/-- The statement `DELETE FROM users WHERE name = 'Alice' AND age > 25`. -/
def stmtDeleteAlice : Node :=
  .DeleteStmt none (some (some (fromTable "users")))
    (some (.BinaryOperationExpr .LogicAnd
      (.BinaryOperationExpr .EQ (column "name") (.ValueExpr (.string "Alice")))
      (.BinaryOperationExpr .GT (column "age") (.ValueExpr (.int64 25)))))
    none none

/-- A front end that splits every input into the given statements, without error. -/
def parseTo (stmts : List Node) : String → List Node × Option GoError :=
  fun _ => (stmts, none)

/-- The pool selection of sync.Pool on one goroutine: Get hands back the visitor that
was put back last, and calls New while the pool is empty. -/
def reuseLast : Nat → Option Nat := fun _ => some 0

/-- The pool selection when sync.Pool has dropped every item that was put back (it may
drop a stored item at any time): each Get calls New. -/
def alwaysNew : Nat → Option Nat := fun _ => none

/-- A visitor as the pool's New makes it. -/
def freshVisitor : ExtractVisitor := ⟨"", [], false, [], .SQLOperationUnknown⟩

/-- The batch of TestTemplatizeSQL_MultipleStatements. -/
def batchAlice : List Node := [stmtInsertAlice, stmtUpdateAlice, stmtDeleteAlice]

/-- An extractor whose pool holds one item that is not a visitor. -/
def extractorWithForeign : Extractor := ⟨[.foreign "string"], [], []⟩

/-- A pool selection that calls New for the first statement and afterwards picks the
item in second position. -/
def pickSecondLater : Nat → Option Nat
  | 0 => none
  | _ => some 1

/-- The error extractOneStmt returns when the pool hands out something else than a
visitor. -/
def poolError : GoError := .errorString "failed to get ExtractVisitor from pool"

/-- The batch `SELECT 1; SELECT 2; SELECT 3`. -/
def batchABC : List Node := [selectLiteral 1, selectLiteral 2, selectLiteral 3]

/-- A front end that rejects every input with the given error. -/
def parseFails (err : GoError) : String → List Node × Option GoError :=
  fun _ => ([], some err)

/-- The value of a string of decimal digits. -/
def decimalValue (cs : List Char) : Nat :=
  cs.foldl (fun n c => n * 10 + (c.toNat - 48)) 0

/-- The final `_`-delimited segment of an identifier. -/
def lastSegment (table : String) : String :=
  String.mk ((table.toList.splitOn '_').getLastD [])

/-- The statement `SELECT SUM(name LIKE 'a%') FROM t`. -/
def stmtSumLike : Node :=
  .SelectStmt false
    (some [⟨none, some (.AggregateFuncExpr "SUM"
      [.PatternLikeOrIlikeExpr (column "name") (.ValueExpr (.string "a%")) false] false), ""⟩])
    (some (some (fromTable "t"))) none none none none none

/-- The aggregate `SUM(a IN (1, 2))`. -/
def aggrSumIn : Node :=
  .AggregateFuncExpr "SUM"
    [.PatternInExpr (column "a") [.ValueExpr (.int64 1), .ValueExpr (.int64 2)] false none]
    false

/-- The aggregate `MAX(DATE_ADD(d, INTERVAL 1 DAY))`. -/
def aggrMaxInterval : Node :=
  .AggregateFuncExpr "MAX"
    [.FuncCallExpr "DATE_ADD" [column "d", .ValueExpr (.int64 1), .TimeUnitExpr "DAY"]]
    false

/-- The references of a list without those whose key an earlier reference has;
`earlier` holds the references that come before the list. -/
def keepFirstSeen {α : Type} (key : α → String) : List α → List α → List α
  | _, [] => []
  | earlier, x :: xs =>
    if key x ∈ earlier.map key then keepFirstSeen key (earlier ++ [x]) xs
    else x :: keepFirstSeen key (earlier ++ [x]) xs

/-- The visitor when `stmt.Accept(v)` has returned in extractOneStmt, for the pooled
visitor `pv` taken in extractor state `e`. -/
def visitorAfter (e : Extractor) (pv : PooledVisitor) (stmt : Node) : ExtractVisitor :=
  Accept stmt ⟨pv.builder, e.heap.read pv.params, pv.inAggrFunc, pv.tableInfos, pv.opType⟩

/-- The statement `SELECT * FROM users AS u1 JOIN users AS u2`. -/
def stmtSelfJoin : Node :=
  .SelectStmt false (some [⟨some ("", ""), none, ""⟩])
    (some (some (.Join (some (.TableSource (.TableName "" "users") "u1"))
      (some (.TableSource (.TableName "" "users") "u2")) .CrossJoin none)))
    none none none none none

/-- What a visit may do to the visitor it starts from: the inside-aggregate flag is
the same afterwards, an operation kind that was set is the same afterwards, and the
template text, the parameter list and the collected table list are extended at their
end. -/
structure Frame (v w : ExtractVisitor) : Prop where
  inAggrFunc : w.inAggrFunc = v.inAggrFunc
  opType : v.opType ≠ .SQLOperationUnknown → w.opType = v.opType
  builder : ∃ s, w.builder = v.builder ++ s
  params : ∃ ps, w.params = v.params ++ ps
  tableInfos : ∃ ts, w.tableInfos = v.tableInfos ++ ts

/-- A visit that keeps the frame from every visitor. -/
def Framed (f : Visit) : Prop := ∀ v, Frame v (f v)

/-- An optional visit that, when present, keeps the frame. -/
abbrev OptFramed (o : Option Visit) : Prop := ∀ f, o = some f → Framed f

/-- A table clause whose visit, when present, keeps the frame. -/
abbrev OptOptFramed (o : Option (Option Visit)) : Prop := ∀ r, o = some r → OptFramed r

/-- A list of visits that all keep the frame. -/
abbrev ListFramed (fs : List Visit) : Prop := ∀ f ∈ fs, Framed f

/-- An optional list of visits that all keep the frame. -/
abbrev OptListFramed (o : Option (List Visit)) : Prop := ∀ fs, o = some fs → ListFramed fs

/-- The kind of a statement node, none for a node that is not a statement with a
handler. -/
def Node.stmtKind : Node → Option SQLOpType
  | .SelectStmt _ _ _ _ _ _ _ _ => some .SQLOperationSelect
  | .InsertStmt _ _ _ _ _ _ => some .SQLOperationInsert
  | .UpdateStmt _ _ _ _ _ => some .SQLOperationUpdate
  | .DeleteStmt _ _ _ _ _ => some .SQLOperationDelete
  | .ExplainStmt _ _ _ => some .SQLOperationExplain
  | .ShowStmt _ _ _ _ _ _ _ _ => some .SQLOperationShow
  | _ => none

/-- The statement `EXPLAIN SELECT * FROM t WHERE a IN (SELECT 1)`; the front end sets
the format `row` on an EXPLAIN that names none. -/
def stmtExplainSelect : Node :=
  .ExplainStmt false "row"
    (some (selectStarWhere (.PatternInExpr (column "a") [] false
      (some (.SubqueryExpr (selectLiteral 1))))))

/-- The visitor made by the pool's New on a new extractor. -/
def newPooledVisitor : PooledVisitor := ⟨"", ⟨0, 0, 64⟩, false, [], .SQLOperationUnknown⟩

/-- The visitor after the guard at the head of a statement handler: the operation kind
of a statement node is recorded when none is set yet; any other node changes nothing
on entry. -/
def enterState (n : Node) (v : ExtractVisitor) : ExtractVisitor :=
  match n.stmtKind with
  | some k => v.setOpType k
  | none => v

/-- Two visitors that differ only by what was there before: `b` has the text `B`, the
parameters `P` and the tables `T` in front of those of `a`, and the same inside-aggregate
flag. -/
structure Shift (B : String) (P : List Value) (T : List TableInfo) (a b : ExtractVisitor) :
    Prop where
  builder : b.builder = B ++ a.builder
  params : b.params = P ++ a.params
  tableInfos : b.tableInfos = T ++ a.tableInfos
  inAggrFunc : b.inAggrFunc = a.inAggrFunc

/-- A visit that does the same from two visitors that differ only by what was there
before. -/
def Shifts (f : Visit) : Prop :=
  ∀ (B : String) (P : List Value) (T : List TableInfo) (a b : ExtractVisitor),
    Shift B P T a b → Shift B P T (f a) (f b)

/-- An optional visit that, when present, does the same whatever was there before. -/
abbrev OptShifts (o : Option Visit) : Prop := ∀ f, o = some f → Shifts f

/-- A table clause whose visit, when present, does the same whatever was there before. -/
abbrev OptOptShifts (o : Option (Option Visit)) : Prop := ∀ r, o = some r → OptShifts r

/-- A list of visits that all do the same whatever was there before. -/
abbrev ListShifts (fs : List Visit) : Prop := ∀ f ∈ fs, Shifts f

/-- An optional list of visits that all do the same whatever was there before. -/
abbrev OptListShifts (o : Option (List Visit)) : Prop := ∀ fs, o = some fs → ListShifts fs

/-- A visitor that has written, recorded and collected nothing yet, with the given
inside-aggregate flag. -/
def blankVisitor (flag : Bool) : ExtractVisitor := ⟨"", [], flag, [], .SQLOperationUnknown⟩

/-- The text a visit writes when the inside-aggregate flag has the given value. -/
def written (f : Visit) (flag : Bool) : String := (f (blankVisitor flag)).builder

/-- The parameters a visit appends when the inside-aggregate flag has the given
value. -/
def recorded (f : Visit) (flag : Bool) : List Value := (f (blankVisitor flag)).params

/-- The table references a visit collects when the inside-aggregate flag has the given
value. -/
def collected (f : Visit) (flag : Bool) : List TableInfo :=
  (f (blankVisitor flag)).tableInfos

/-- The template text of a node: what visiting it writes. -/
def text (n : Node) (flag : Bool) : String := written (Accept n) flag

/-- The parameters of a node: what visiting it appends to the parameter list. -/
def parameters (n : Node) (flag : Bool) : List Value := recorded (Accept n) flag

/-- The table references of a node: what visiting it appends to the collected list. -/
def tables (n : Node) (flag : Bool) : List TableInfo := collected (Accept n) flag

/-- The condition `age NOT BETWEEN 1 AND 2`. -/
def condNotBetween : Node :=
  .BetweenExpr (column "age") (.ValueExpr (.int64 1)) (.ValueExpr (.int64 2)) true

/-- The table reference clause of `a NATURAL JOIN b`: the front end sets no join type
on a natural join, so the node carries the zero value. -/
def joinNatural : Node :=
  .Join (some (.TableSource (.TableName "" "a") ""))
    (some (.TableSource (.TableName "" "b") "")) .zero none

/-- One field of the SELECT list with its expression replaced by its visit, as
acceptFields does for every field of the list. -/
def acceptField (sf : SelectField Node) : SelectField Visit :=
  ⟨sf.WildCard, (match sf.Expr with
    | some x => some (Accept x)
    | none => none), sf.AsName⟩

/-- The template text of one field of the SELECT list. -/
def fieldText (sf : SelectField Node) (flag : Bool) : String :=
  written (selectFieldVisit (acceptField sf)) flag

/-- The parameters of one field of the SELECT list. -/
def fieldParameters (sf : SelectField Node) (flag : Bool) : List Value :=
  recorded (selectFieldVisit (acceptField sf)) flag

/-- The argument before position `len(args)` of an argument list that continues after
`args`: the last of `args`, or `prev` when `args` is empty. -/
def lastArg (prev : Option Node) : List (Node × Visit) → Option Node
  | [] => prev
  | x :: xs => lastArg (some x.1) xs

/-- The text the loop of handleFuncCallExpr writes for the arguments `args` when the
argument before them is `prev`. -/
def argsText (prev : Option Node) (args : List Node) (flag : Bool) : String :=
  written (funcCallArgs prev (acceptArgs args)) flag

/-- The parameters the loop of handleFuncCallExpr appends for the arguments `args` when
the argument before them is `prev`. -/
def argsParameters (prev : Option Node) (args : List Node) (flag : Bool) : List Value :=
  recorded (funcCallArgs prev (acceptArgs args)) flag

/-- Whether the first of the remaining arguments is a time unit (`nextIsTimeUnit` in
handleFuncCallExpr). -/
def headIsTimeUnit : List (Node × Visit) → Bool
  | (next, _) :: _ => next.asTimeUnitExpr.isSome
  | [] => false

/-- One iteration of the loop of handleFuncCallExpr, for the argument `arg` with the
argument `prev` before it. -/
def argStep (prev : Option Node) (arg : Node) (acceptArg : Visit) (nextIsTimeUnit : Bool)
    (v : ExtractVisitor) : ExtractVisitor :=
  let v := match prev with
    | none => v
    | some p =>
      if ¬ arg.asTimeUnitExpr.isSome ∨ ¬ p.asValueExpr.isSome then v.WriteString ", "
      else v
  match arg.asTimeUnitExpr with
  | some interval =>
    let v := match prev with
      | some p =>
        (match p.asValueExpr with
          | some value => v.appendParam value
          | none => v)
      | none => v
    ((v.WriteString "INTERVAL ").WriteString "? ").WriteString interval
  | none =>
    if arg.asValueExpr.isSome ∧ nextIsTimeUnit then v
    else acceptArg v

/-- The statement `SELECT * FROM users WHERE age > 18`. -/
def stmtAdults : Node :=
  .SelectStmt false (some [⟨some ("", ""), none, ""⟩]) (some (some (fromTable "users")))
    (some (.BinaryOperationExpr .GT (column "age") (.ValueExpr (.int64 18))))
    none none none none

/-! ## The package sqlextractor (sql_extractor.go) -/

/-- A byte slice (`[]byte`): each element is a number below 256. -/
abbrev Bytes := List Nat

/-- The conversion `[]byte(s)` of a text: its UTF-8 encoding. -/
def bytesOf (s : String) : Bytes :=
  s.toList.flatMap (fun c => (String.utf8EncodeChar c).map UInt8.toNat)

/-- One digit of the lower-case hexadecimal alphabet `0123456789abcdef`. -/
def hexDigit (n : Nat) : Char :=
  if n < 10 then Char.ofNat (48 + n) else Char.ofNat (87 + n)

/-- The library call `hex.EncodeToString`: two lower-case digits for every byte, the
high half first. -/
def EncodeToString (src : Bytes) : String :=
  String.mk (src.flatMap (fun b => [hexDigit (b / 16 % 16), hexDigit (b % 16)]))

namespace Public

/-- The struct Extractor of package sqlextractor; `none` is a nil slice. -/
structure Extractor where
  rawSQL : String
  templatedSQL : Option (List String)
  opType : Option (List SQLOpType)
  params : Option (List (List Value))
  tableInfos : Option (List (List TableInfo))
  hash : Option (List String)
  deriving DecidableEq, Repr

/-- The function NewExtractor of package sqlextractor. -/
def NewExtractor (sql : String) : Extractor := ⟨sql, some [], some [], some [], some [], some []⟩

/-- The method TemplatizedSQL. -/
def Extractor.TemplatizedSQL (e : Extractor) : Option (List String) := e.templatedSQL

/-- The loop `for i := range e.templatedSQL { e.hash[i] = f([]byte(e.templatedSQL[i])) }`
from index `i` on, for `n` more rounds. -/
def hashLoop (f : Bytes → String) (templates : List String) :
    Nat → Nat → List String → List String
  | _, 0, hash => hash
  | i, n + 1, hash => hashLoop f templates (i + 1) n (hash.set i (f (bytesOf (templates.getD i ""))))

/-- The method doHash.  `Sum256` is the library call `sha256.Sum256`, which returns the
32 bytes of the digest; `fn` is the variadic argument. -/
def Extractor.doHash (Sum256 : Bytes → Bytes) (e : Extractor) (fn : List (Bytes → String)) :
    Extractor :=
  let templates := e.templatedSQL.getD []
  let hash := List.replicate templates.length ""
  let fn := if fn.length = 0 then [fun s => EncodeToString (Sum256 s)] else fn
  match fn with
  | f :: _ => { e with hash := some (hashLoop f templates 0 templates.length hash) }
  | [] => { e with hash := some hash }

/-- The method TemplatizedSQLHash: the extractor afterwards and the slice returned. -/
def Extractor.TemplatizedSQLHash (Sum256 : Bytes → Bytes) (e : Extractor)
    (fn : List (Bytes → String)) : Extractor × Option (List String) :=
  let e := e.doHash Sum256 fn
  (e, e.hash)

end Public

/-- The method TableNameWithSchema of TableInfo. -/
def TableInfo.TableNameWithSchema (t : TableInfo) : String × Bool :=
  if t.schema ≠ "" then (t.schema ++ "." ++ t.tableName, true)
  else (t.tableName, false)

/-- The method TemplatizedTableNameWithSchema of TableInfo. -/
def TableInfo.TemplatizedTableNameWithSchema (t : TableInfo) : String × Bool :=
  if t.templatizedSchema ≠ "" then (t.templatizedSchema ++ "." ++ t.templatizedTableName, true)
  else (t.templatizedTableName, false)

/-- The text NewTableInfo panics with. -/
def invalidArgs : String :=
  "invalid args: len(args) should be 0 or 2, the first half are schemas, the second half are table names."

/-- The function NewTableInfo with its variadic argument; `error` is a panic with the
given value. -/
def NewTableInfoArgs (args : List String) : Except String TableInfo :=
  if args.length = 0 then .ok ⟨"", "", "", ""⟩
  else if args.length = 2 then
    .ok { templatizedSchema := "", templatizedTableName := "",
          schema := args.getD 0 "", tableName := args.getD 1 "" }
  else if args.length = 4 then
    .ok { schema := args.getD 0 "", tableName := args.getD 1 "",
          templatizedSchema := args.getD 2 "", templatizedTableName := args.getD 3 "" }
  else .error invalidArgs

/-- The statement `SELECT * FROM users JOIN orders`. -/
def stmtTwoTables : Node :=
  .SelectStmt false (some [⟨some ("", ""), none, ""⟩])
    (some (some (.Join (some (.TableSource (.TableName "" "users") ""))
      (some (.TableSource (.TableName "" "orders") "")) .CrossJoin none)))
    none none none none none

/-- The statement `SELECT * FROM a.b JOIN x`, where the first table has no schema and
the quoted name `a.b`, and the statement that differs from it by the second table being
the table `b` of schema `a`. -/
def stmtDottedName (second : Node) : Node :=
  .SelectStmt false (some [⟨some ("", ""), none, ""⟩])
    (some (some (.Join (some (.TableSource (.TableName "" "a.b") ""))
      (some (.TableSource second "")) .CrossJoin none)))
    none none none none none

namespace Public

/-- The method RawSQL. -/
def Extractor.RawSQL (e : Extractor) : String := e.rawSQL

/-- The method SetRawSQL. -/
def Extractor.SetRawSQL (e : Extractor) (sql : String) : Extractor := { e with rawSQL := sql }

/-- The method Params. -/
def Extractor.Params (e : Extractor) : Option (List (List Value)) := e.params

/-- The method TableInfos. -/
def Extractor.TableInfos (e : Extractor) : Option (List (List TableInfo)) := e.tableInfos

/-- The method OpType. -/
def Extractor.OpType (e : Extractor) : Option (List SQLOpType) := e.opType

/-- The method Extract of package sqlextractor: the four results of the internal
Extract, run on a new internal extractor, are assigned to the fields whether or not it
failed; the hashes are computed only when it succeeded.  The parameter lists are the
elements of the returned slices; nothing writes to their arrays once the internal
extractor is dropped. -/
def Extractor.Extract (Parse : String → List Node × Option GoError)
    (sched : Nat → Option Nat) (Sum256 : Bytes → Bytes) (e : Extractor) :
    Extractor × Option GoError :=
  let r := SqlExtractor.Extract Parse sched SqlExtractor.NewExtractor e.rawSQL
  let e := { e with templatedSQL := r.2.templates, tableInfos := r.2.tableInfos,
                    params := paramsOf r, opType := r.2.opTypes }
  match r.2.err with
  | some err => (e, some err)
  | none => (e.doHash Sum256 [], none)

end Public

/-- A front end that knows one statement: it parses `SELECT 1` and rejects every other
input. -/
def parseSelectOne : String → List Node × Option GoError :=
  fun sql =>
    if sql = "SELECT 1" then ([selectLiteral 1], none)
    else ([], some (.external "syntax error"))

/-- The statement `SHOW COLUMNS FROM t WHERE Field IN (SELECT name FROM u)`. -/
def stmtShowColumnsWhere : Node :=
  .ShowStmt .ShowColumns (some ("", "t")) "" false false none
    (some (.PatternInExpr (column "Field") [] false
      (some (.SubqueryExpr (.SelectStmt false (some [⟨none, some (column "name"), ""⟩])
        (some (some (fromTable "u"))) none none none none none)))))
    none

/-- The text appendTableName writes for a table: schema and name as they are. -/
def rawTableName (schema name : String) : String :=
  (if schema ≠ "" then schema ++ "." else "") ++ name

/-- The statement `DELETE u, r FROM users u INNER JOIN roles r ON u.id = r.user_id
WHERE u.id = 1`. -/
def stmtDeleteTargets : Node :=
  .DeleteStmt (some [.TableName "" "u", .TableName "" "r"])
    (some (some (.Join (some (.TableSource (.TableName "" "users") "u"))
      (some (.TableSource (.TableName "" "roles") "r")) .CrossJoin
      (some (.OnCondition (.BinaryOperationExpr .EQ (.ColumnNameExpr ⟨"", "u", "id"⟩)
        (.ColumnNameExpr ⟨"", "r", "user_id"⟩)))))))
    (some (.BinaryOperationExpr .EQ (.ColumnNameExpr ⟨"", "u", "id"⟩)
      (.ValueExpr (.int64 1))))
    none none

/-- A slice header that fits the heap: its backing array is allocated and as long as
the capacity, and the length is within the capacity. -/
def Heap.valid (h : Heap) (s : Slice) : Bool :=
  decide (s.arr < h.length) && decide ((h.getD s.arr []).length = s.cap) &&
    decide (s.len ≤ s.cap)

/-- The state in which the deferred function of extractOneStmt leaves the visitor:
builder empty, parameter slice of length 0, flag false, no tables, kind unknown. -/
def PooledVisitor.isReset (pv : PooledVisitor) : Bool :=
  decide (pv.builder = "") && decide (pv.params.len = 0) && !pv.inAggrFunc &&
    decide (pv.tableInfos = []) && decide (pv.opType = .SQLOperationUnknown)

/-- A pool item that is a reset visitor whose parameter slice fits the heap. -/
def PoolItem.clean (h : Heap) : PoolItem → Bool
  | .visitor pv => pv.isReset && h.valid pv.params
  | .foreign _ => false

/-- An extractor whose pool holds reset visitors only. -/
def Extractor.clean (e : Extractor) : Bool :=
  e.pool.all (PoolItem.clean e.heap)

/-- What the caller of extractOneStmt has in hand when it returns: template, tables,
the elements of the parameter slice, operation kind and error. -/
def stmtResults (r : Extractor × StmtOutput) :
    String × Option (List TableInfo) × Option (List Value) × SQLOpType × Option GoError :=
  (r.2.template, r.2.tableInfos, stmtParams r, r.2.opType, r.2.err)

/-! ## Theorems -/

/-- The default branch of Enter leaves every field of the visitor as it was, whatever
the children of the node are. -/
theorem accept_other (kind : String) (children : List Node) (v : ExtractVisitor) :
    Accept (.other kind children) v = v := by
  simp [Accept, enterSkipChildren, Leave, logError]

/-- When the loop of Extract ends with an error, its four result slices are nil. -/
theorem extractLoop_err_nil (sched : Nat → Option Nat) (stmts : List Node) :
    ∀ (idx : Nat) (e : Extractor) (ts : List String) (tis : List (List TableInfo))
      (ps : List Slice) (ops : List SQLOpType),
      (extractLoop sched idx stmts e ts tis ps ops).2.err ≠ none →
      (extractLoop sched idx stmts e ts tis ps ops).2.templates = none ∧
      (extractLoop sched idx stmts e ts tis ps ops).2.tableInfos = none ∧
      (extractLoop sched idx stmts e ts tis ps ops).2.params = none ∧
      (extractLoop sched idx stmts e ts tis ps ops).2.opTypes = none := by
  induction stmts with
  | nil => intro idx e ts tis ps ops h; simp [extractLoop] at h
  | cons stmt rest ih =>
    intro idx e ts tis ps ops h
    cases hr : (extractOneStmt e (sched idx) stmt).2.err with
    | some err => simp [extractLoop, hr, ExtractOutput.failure]
    | none =>
      simp only [extractLoop, hr] at h ⊢
      exact ih _ _ _ _ _ _ h

/-- When the loop of Extract ends without error, each result slice is what it held
before followed by the corresponding result of every statement, in batch order. -/
theorem extractLoop_ok (sched : Nat → Option Nat) (stmts : List Node) :
    ∀ (idx : Nat) (e : Extractor) (ts : List String) (tis : List (List TableInfo))
      (ps : List Slice) (ops : List SQLOpType),
      (extractLoop sched idx stmts e ts tis ps ops).2.err = none →
      (extractLoop sched idx stmts e ts tis ps ops).2.templates
        = some (ts ++ (outputsFrom sched idx e stmts).map (fun o => o.template)) ∧
      (extractLoop sched idx stmts e ts tis ps ops).2.tableInfos
        = some (tis ++ (outputsFrom sched idx e stmts).map (fun o => o.tableInfos.getD [])) ∧
      (extractLoop sched idx stmts e ts tis ps ops).2.params
        = some (ps ++ (outputsFrom sched idx e stmts).map (fun o => o.params.getD ⟨0, 0, 0⟩)) ∧
      (extractLoop sched idx stmts e ts tis ps ops).2.opTypes
        = some (ops ++ (outputsFrom sched idx e stmts).map (fun o => o.opType)) := by
  induction stmts with
  | nil => intro idx e ts tis ps ops _; simp [extractLoop, outputsFrom]
  | cons stmt rest ih =>
    intro idx e ts tis ps ops h
    cases hr : (extractOneStmt e (sched idx) stmt).2.err with
    | some err => simp [extractLoop, hr, ExtractOutput.failure] at h
    | none =>
      simp only [extractLoop, hr] at h ⊢
      have := ih _ _ _ _ _ _ h
      simpa [outputsFrom, List.append_assoc] using this

/-- When statement `k` of the batch is the first for which extractOneStmt returns an
error, the loop of Extract, started at index `idx`, ends with that error wrapped under
the number `idx + k + 1`. -/
theorem extractLoop_first_failure (sched : Nat → Option Nat) (stmts : List Node) :
    ∀ (idx : Nat) (e : Extractor) (ts : List String) (tis : List (List TableInfo))
      (ps : List Slice) (ops : List SQLOpType) (k : Nat) (o : StmtOutput) (cause : GoError),
      (outputsFrom sched idx e stmts)[k]? = some o → o.err = some cause →
      (∀ o' ∈ (outputsFrom sched idx e stmts).take k, o'.err = none) →
      (extractLoop sched idx stmts e ts tis ps ops).2
        = ExtractOutput.failure (errorProcessingStatement (idx + k + 1) cause) := by
  induction stmts with
  | nil => intro idx e ts tis ps ops k o cause hk; simp [outputsFrom] at hk
  | cons stmt rest ih =>
    intro idx e ts tis ps ops k o cause hk hc hbefore
    cases k with
    | zero =>
      simp only [outputsFrom, List.getElem?_cons_zero, Option.some.injEq] at hk
      have hr : (extractOneStmt e (sched idx) stmt).2.err = some cause := by rw [hk]; exact hc
      simp [extractLoop, hr]
    | succ k =>
      have h0 : (extractOneStmt e (sched idx) stmt).2.err = none :=
        hbefore _ (by simp [outputsFrom])
      simp only [outputsFrom, List.getElem?_cons_succ] at hk
      simp only [extractLoop, h0]
      have hrest : ∀ o' ∈ (outputsFrom sched (idx + 1)
          (extractOneStmt e (sched idx) stmt).1 rest).take k, o'.err = none :=
        fun o' ho => hbefore o' (by simp [outputsFrom, ho])
      rw [ih (idx + 1) _ _ _ _ _ k o cause hk hc hrest]
      have hidx : idx + 1 + k + 1 = idx + (k + 1) + 1 := by omega
      rw [hidx]

/-- What a successful Extract returns: each of the four slices holds, in batch order,
the corresponding result of extractOneStmt for every statement (for the parameters,
the slice header that extractOneStmt returned). -/
theorem Extract_ok (Parse : String → List Node × Option GoError) (sched : Nat → Option Nat)
    (e : Extractor) (sql : String) (h : (Extract Parse sched e sql).2.err = none) :
    (Extract Parse sched e sql).2.templates
      = some ((outputsFrom sched 0 (e.afterParse sql) (Parse sql).1).map
          (fun o => o.template)) ∧
    (Extract Parse sched e sql).2.tableInfos
      = some ((outputsFrom sched 0 (e.afterParse sql) (Parse sql).1).map
          (fun o => o.tableInfos.getD [])) ∧
    (Extract Parse sched e sql).2.params
      = some ((outputsFrom sched 0 (e.afterParse sql) (Parse sql).1).map
          (fun o => o.params.getD ⟨0, 0, 0⟩)) ∧
    (Extract Parse sched e sql).2.opTypes
      = some ((outputsFrom sched 0 (e.afterParse sql) (Parse sql).1).map
          (fun o => o.opType)) := by
  by_cases hs : sql = ""
  · simp [Extract, hs, ExtractOutput.failure] at h
  · cases hp : (Parse sql).2 with
    | some err => simp [Extract, hs, hp, ExtractOutput.failure] at h
    | none =>
      by_cases hn : (Parse sql).1.length = 0
      · simp [Extract, hs, hp, hn, ExtractOutput.failure] at h
      · simp only [Extract, hs, hp, hn, if_false] at h ⊢
        simpa using extractLoop_ok sched (Parse sql).1 0 (e.afterParse sql) [] [] [] [] h

/-- The statements of a batch and the results of extractOneStmt for them are equally
many. -/
theorem outputsFrom_length (sched : Nat → Option Nat) (stmts : List Node) :
    ∀ (idx : Nat) (e : Extractor), (outputsFrom sched idx e stmts).length = stmts.length := by
  induction stmts with
  | nil => intro idx e; simp [outputsFrom]
  | cons stmt rest ih => intro idx e; simp [outputsFrom, ih]

/-! ### The claims -/

/-- C1, the code at the failing input: for `SELECT * FROM t WHERE a IN (b, c)`
extractOneStmt returns a template with two placeholder tokens and a parameter list
without elements. -/
theorem C1_in_list_placeholders_without_parameters :
    (extractOneStmt NewExtractor none stmtInColumns).2.template
      = "SELECT * FROM t WHERE a IN (?, ?)" ∧
    countPlaceholders (extractOneStmt NewExtractor none stmtInColumns).2.template = 2 ∧
    stmtParams (extractOneStmt NewExtractor none stmtInColumns) = some [] := by
  decide

/-- C2, the code at the failing inputs: for `SELECT * FROM t WHERE a IN (b + 1)` the
literal 1 lies outside every aggregate and the returned parameter list is empty; for
`SELECT * FROM t WHERE name REGEXP '^A'` the same holds of the literal '^A'. -/
theorem C2_literals_dropped :
    literalValues stmtInExpr = [.int64 1] ∧
    (extractOneStmt NewExtractor none stmtInExpr).2.template
      = "SELECT * FROM t WHERE a IN (?)" ∧
    stmtParams (extractOneStmt NewExtractor none stmtInExpr) = some [] ∧
    literalValues stmtRegexp = [.string "^A"] ∧
    stmtParams (extractOneStmt NewExtractor none stmtRegexp) = some [] := by
  decide

/-- C3, the code at the failing input: visiting the node of `name REGEXP '^A'`, which
reaches the default branch of Enter, leaves the visitor unchanged, whereas a descent
into its two children writes `name?` and records '^A'; the template of
`SELECT * FROM t WHERE name REGEXP '^A'` ends after `WHERE `. -/
theorem C3_default_branch_skips_children :
    Accept regexpCond freshVisitor = freshVisitor ∧
    visitAll (acceptList [column "name", .ValueExpr (.string "^A")]) freshVisitor
      = { freshVisitor with builder := "name?", params := [.string "^A"] } ∧
    (extractOneStmt NewExtractor none stmtRegexp).2.template = "SELECT * FROM t WHERE " ∧
    stmtParams (extractOneStmt NewExtractor none stmtRegexp) = some [] := by
  decide

/-- C4, the code at the failing input: for the batch of
TestTemplatizeSQL_MultipleStatements, with the pool handing back the visitor put back
last, the three parameter lists Extract returns all read 'Alice', 25, the parameters
of the last statement, while the UPDATE statement extracted on its own gives
26, 'Alice'. -/
theorem C4_later_statement_overwrites_parameters :
    paramsOf (Extract (parseTo batchAlice) reuseLast NewExtractor "INSERT; UPDATE; DELETE")
      = some [[.string "Alice", .int64 25], [.string "Alice", .int64 25],
          [.string "Alice", .int64 25]] ∧
    stmtParams (extractOneStmt NewExtractor none stmtUpdateAlice)
      = some [.int64 26, .string "Alice"] := by
  decide

/-- C5: whenever Extract returns an error, the template, table, parameter and
operation-kind slices it returns are all nil. -/
theorem C5_error_returns_nil_results (Parse : String → List Node × Option GoError)
    (sched : Nat → Option Nat) (e : Extractor) (sql : String)
    (h : (Extract Parse sched e sql).2.err ≠ none) :
    (Extract Parse sched e sql).2.templates = none ∧
    (Extract Parse sched e sql).2.tableInfos = none ∧
    (Extract Parse sched e sql).2.params = none ∧
    (Extract Parse sched e sql).2.opTypes = none := by
  by_cases hs : sql = ""
  · simp [Extract, hs, ExtractOutput.failure]
  · cases hp : (Parse sql).2 with
    | some err => simp [Extract, hs, hp, ExtractOutput.failure]
    | none =>
      by_cases hn : (Parse sql).1.length = 0
      · simp [Extract, hs, hp, hn, ExtractOutput.failure]
      · simp only [Extract, hs, hp, hn, if_false] at h ⊢
        exact extractLoop_err_nil sched (Parse sql).1 0 (e.afterParse sql) [] [] [] [] h

/-- C5 at a batch whose first statement is processed and whose second statement
fails. -/
theorem C5_error_returns_nil_results_witness :
    (Extract (parseTo [selectLiteral 1, selectLiteral 2]) pickSecondLater
      extractorWithForeign "SELECT 1; SELECT 2").2.err ≠ none ∧
    ((Extract (parseTo [selectLiteral 1, selectLiteral 2]) pickSecondLater
      extractorWithForeign "SELECT 1; SELECT 2").2.templates = none ∧
    (Extract (parseTo [selectLiteral 1, selectLiteral 2]) pickSecondLater
      extractorWithForeign "SELECT 1; SELECT 2").2.tableInfos = none ∧
    (Extract (parseTo [selectLiteral 1, selectLiteral 2]) pickSecondLater
      extractorWithForeign "SELECT 1; SELECT 2").2.params = none ∧
    (Extract (parseTo [selectLiteral 1, selectLiteral 2]) pickSecondLater
      extractorWithForeign "SELECT 1; SELECT 2").2.opTypes = none) :=
  ⟨by decide, C5_error_returns_nil_results _ _ _ _ (by decide)⟩

/-- C6, the code at the failing input: for `SELECT 1; SELECT 2`, with the pool handing
back the visitor put back last, each of the four slices has length 2, but the first
parameter list reads 2, whereas canonicalizing the first statement gives 1. -/
theorem C6_first_parameter_list_is_not_of_first_statement :
    (Extract (parseTo [selectLiteral 1, selectLiteral 2]) reuseLast NewExtractor
      "SELECT 1; SELECT 2").2.templates = some ["SELECT ?", "SELECT ?"] ∧
    (Extract (parseTo [selectLiteral 1, selectLiteral 2]) reuseLast NewExtractor
      "SELECT 1; SELECT 2").2.opTypes
      = some [.SQLOperationSelect, .SQLOperationSelect] ∧
    (Extract (parseTo [selectLiteral 1, selectLiteral 2]) reuseLast NewExtractor
      "SELECT 1; SELECT 2").2.tableInfos = some [[], []] ∧
    paramsOf (Extract (parseTo [selectLiteral 1, selectLiteral 2]) reuseLast NewExtractor
      "SELECT 1; SELECT 2") = some [[.int64 2], [.int64 2]] ∧
    stmtParams (extractOneStmt NewExtractor none (selectLiteral 1)) = some [.int64 1] := by
  decide

/-- C7 as stated fails: in the batch `SELECT 1; SELECT 2; SELECT 3` the statement at
zero-based position 1 is the first to fail, and the error Extract returns carries the
number 2, not 1. -/
theorem C7_second_statement_reported_as_statement_2 :
    ((outputsFrom pickSecondLater 0 (extractorWithForeign.afterParse "SELECT 1; SELECT 2; SELECT 3")
      batchABC).map (fun o => o.err)) = [none, some poolError, none] ∧
    (Extract (parseTo batchABC) pickSecondLater extractorWithForeign
      "SELECT 1; SELECT 2; SELECT 3").2.err = some (errorProcessingStatement 2 poolError) ∧
    (Extract (parseTo batchABC) pickSecondLater extractorWithForeign
      "SELECT 1; SELECT 2; SELECT 3").2.err ≠ some (errorProcessingStatement 1 poolError) ∧
    (errorProcessingStatement 2 poolError).Error
      = "error processing statement 2: failed to get ExtractVisitor from pool" := by
  decide

/-- C7 as amended: if the statement at zero-based position `k` is the first whose
canonicalization fails, Extract returns nil results and an error that names the
statement by its one-based position `k + 1` in the text
`error processing statement <k+1>: <cause>` and wraps the cause. -/
theorem C7_error_names_one_based_position (Parse : String → List Node × Option GoError)
    (sched : Nat → Option Nat) (e : Extractor) (sql : String) (k : Nat) (o : StmtOutput)
    (cause : GoError) (hsql : sql ≠ "") (hparse : (Parse sql).2 = none)
    (hk : (outputsFrom sched 0 (e.afterParse sql) (Parse sql).1)[k]? = some o)
    (hcause : o.err = some cause)
    (hbefore : ∀ o' ∈ (outputsFrom sched 0 (e.afterParse sql) (Parse sql).1).take k,
      o'.err = none) :
    (Extract Parse sched e sql).2
      = ExtractOutput.failure (errorProcessingStatement (k + 1) cause) ∧
    (errorProcessingStatement (k + 1) cause).Error
      = "error processing statement " ++ toString (k + 1) ++ ": " ++ cause.Error ∧
    (errorProcessingStatement (k + 1) cause).Unwrap = some cause := by
  refine ⟨?_, rfl, rfl⟩
  have hn : ¬ (Parse sql).1.length = 0 := by
    intro h0
    have hnil : (Parse sql).1 = [] := List.length_eq_zero.mp h0
    rw [hnil] at hk
    simp [outputsFrom] at hk
  simp only [Extract, hsql, hparse, hn, if_false]
  have := extractLoop_first_failure sched (Parse sql).1 0 (e.afterParse sql) [] [] [] [] k o
    cause hk hcause hbefore
  simpa using this

/-- C7 as amended, at the batch `SELECT 1; SELECT 2; SELECT 3` whose second statement
fails. -/
theorem C7_error_names_one_based_position_witness :
    "SELECT 1; SELECT 2; SELECT 3" ≠ "" ∧
    (parseTo batchABC "SELECT 1; SELECT 2; SELECT 3").2 = none ∧
    (Extract (parseTo batchABC) pickSecondLater extractorWithForeign
      "SELECT 1; SELECT 2; SELECT 3").2
      = ExtractOutput.failure (errorProcessingStatement (1 + 1) poolError) ∧
    (errorProcessingStatement (1 + 1) poolError).Error
      = "error processing statement " ++ toString (1 + 1) ++ ": " ++ poolError.Error ∧
    (errorProcessingStatement (1 + 1) poolError).Unwrap = some poolError :=
  ⟨by decide, by decide,
    C7_error_names_one_based_position (parseTo batchABC) pickSecondLater
      extractorWithForeign "SELECT 1; SELECT 2; SELECT 3" 1
      ⟨"", none, none, .SQLOperationUnknown, some poolError⟩ poolError
      (by decide) (by decide) (by decide) (by decide) (by decide)⟩

/-- C8: on the empty string Extract returns the error `empty SQL statement` and nil for
the four result slices, whatever the front end is, and leaves the extractor as it was:
the front end is not called. -/
theorem C8_empty_input (Parse : String → List Node × Option GoError)
    (sched : Nat → Option Nat) (e : Extractor) :
    (Extract Parse sched e "").2
      = ⟨none, none, none, none, some (.errorString "empty SQL statement")⟩ ∧
    (GoError.errorString "empty SQL statement").Error = "empty SQL statement" ∧
    (Extract Parse sched e "").1 = e ∧
    (Extract Parse sched e "").1.parseCalls = e.parseCalls := by
  simp [Extract, ExtractOutput.failure, GoError.Error]

/-- C9: if the front end accepts a non-empty input and yields no statement, Extract
returns the error `no valid SQL statements found` and nil for the four result
slices. -/
theorem C9_no_statements (Parse : String → List Node × Option GoError)
    (sched : Nat → Option Nat) (e : Extractor) (sql : String) (hsql : sql ≠ "")
    (hparse : Parse sql = ([], none)) :
    (Extract Parse sched e sql).2
      = ⟨none, none, none, none, some (.errorString "no valid SQL statements found")⟩ ∧
    (GoError.errorString "no valid SQL statements found").Error
      = "no valid SQL statements found" := by
  simp [Extract, ExtractOutput.failure, GoError.Error, hsql, hparse]

/-- C9 at the input `;`. -/
theorem C9_no_statements_witness :
    ";" ≠ "" ∧ parseTo [] ";" = ([], none) ∧
    (Extract (parseTo []) reuseLast NewExtractor ";").2
      = ⟨none, none, none, none, some (.errorString "no valid SQL statements found")⟩ ∧
    (GoError.errorString "no valid SQL statements found").Error
      = "no valid SQL statements found" :=
  ⟨by decide, rfl,
    C9_no_statements (parseTo []) reuseLast NewExtractor ";" (by decide) rfl⟩

/-- C10: if the front end rejects a non-empty input, Extract returns the front end's
error itself together with nil results, and neither the pool nor the parameter arrays
are touched: no statement is canonicalized. -/
theorem C10_parse_error_passed_through (Parse : String → List Node × Option GoError)
    (sched : Nat → Option Nat) (e : Extractor) (sql : String) (err : GoError)
    (hsql : sql ≠ "") (hparse : (Parse sql).2 = some err) :
    (Extract Parse sched e sql).2 = ⟨none, none, none, none, some err⟩ ∧
    (Extract Parse sched e sql).1.pool = e.pool ∧
    (Extract Parse sched e sql).1.heap = e.heap := by
  simp [Extract, ExtractOutput.failure, Extractor.afterParse, hsql, hparse]

/-- C10 at the input `SELECT * FROM users WHERE` of TestTemplatizeSQL_InvalidSQL. -/
theorem C10_parse_error_passed_through_witness :
    "SELECT * FROM users WHERE" ≠ "" ∧
    (parseFails (.external "syntax error") "SELECT * FROM users WHERE").2
      = some (.external "syntax error") ∧
    (Extract (parseFails (.external "syntax error")) reuseLast NewExtractor
      "SELECT * FROM users WHERE").2
      = ⟨none, none, none, none, some (.external "syntax error")⟩ ∧
    (Extract (parseFails (.external "syntax error")) reuseLast NewExtractor
      "SELECT * FROM users WHERE").1.pool = NewExtractor.pool ∧
    (Extract (parseFails (.external "syntax error")) reuseLast NewExtractor
      "SELECT * FROM users WHERE").1.heap = NewExtractor.heap :=
  ⟨by decide, by decide,
    C10_parse_error_passed_through (parseFails (.external "syntax error")) reuseLast
      NewExtractor "SELECT * FROM users WHERE" (.external "syntax error")
      (by decide) (by decide)⟩

/-! ### Frame of a visit -/

set_option linter.unusedTactic false
set_option linter.unreachableTactic false

theorem Frame.refl (v : ExtractVisitor) : Frame v v :=
  ⟨rfl, fun _ => rfl, ⟨"", by simp⟩, ⟨[], by simp⟩, ⟨[], by simp⟩⟩

theorem Frame.trans {a b c : ExtractVisitor} (h₁ : Frame a b) (h₂ : Frame b c) : Frame a c := by
  obtain ⟨s₁, hs₁⟩ := h₁.builder
  obtain ⟨s₂, hs₂⟩ := h₂.builder
  obtain ⟨p₁, hp₁⟩ := h₁.params
  obtain ⟨p₂, hp₂⟩ := h₂.params
  obtain ⟨t₁, ht₁⟩ := h₁.tableInfos
  obtain ⟨t₂, ht₂⟩ := h₂.tableInfos
  refine ⟨h₂.inAggrFunc.trans h₁.inAggrFunc, fun h => ?_, ⟨s₁ ++ s₂, ?_⟩, ⟨p₁ ++ p₂, ?_⟩,
    ⟨t₁ ++ t₂, ?_⟩⟩
  · have hb := h₁.opType h
    rw [h₂.opType (hb ▸ h), hb]
  · rw [hs₂, hs₁, String.append_assoc]
  · rw [hp₂, hp₁, List.append_assoc]
  · rw [ht₂, ht₁, List.append_assoc]

theorem Frame.writeString {v w : ExtractVisitor} (s : String) (h : Frame v w) :
    Frame v (w.WriteString s) :=
  h.trans ⟨rfl, fun _ => rfl, ⟨s, rfl⟩, ⟨[], by simp [ExtractVisitor.WriteString]⟩,
    ⟨[], by simp [ExtractVisitor.WriteString]⟩⟩

theorem Frame.appendParam {v w : ExtractVisitor} (x : Value) (h : Frame v w) :
    Frame v (w.appendParam x) :=
  h.trans ⟨rfl, fun _ => rfl, ⟨"", by simp [ExtractVisitor.appendParam]⟩, ⟨[x], rfl⟩,
    ⟨[], by simp [ExtractVisitor.appendParam]⟩⟩

theorem Frame.setOpType {v w : ExtractVisitor} (op : SQLOpType) (h : Frame v w) :
    Frame v (w.setOpType op) := by
  refine h.trans ?_
  unfold ExtractVisitor.setOpType
  split_ifs with hu
  · exact ⟨rfl, fun hne => absurd hu hne, ⟨"", by simp⟩, ⟨[], by simp⟩, ⟨[], by simp⟩⟩
  · exact Frame.refl w

theorem Frame.ite {v a b : ExtractVisitor} (c : Prop) [Decidable c] (ha : Frame v a)
    (hb : Frame v b) : Frame v (if c then a else b) := by
  split_ifs
  · exact ha
  · exact hb

theorem Frame.logError {v w : ExtractVisitor} (details : String) (h : Frame v w) :
    Frame v (logError details w) := h

theorem Frame.visit {v w : ExtractVisitor} {f : Visit} (hf : Framed f) (h : Frame v w) :
    Frame v (f w) :=
  h.trans (hf w)

theorem frame_foldl_sep (sep : String) (fs : List Visit) (hfs : ∀ f ∈ fs, Framed f) :
    ∀ {v w : ExtractVisitor}, Frame v w →
      Frame v (fs.foldl (fun acc g => g (acc.WriteString sep)) w) := by
  induction fs with
  | nil => intro v w h; exact h
  | cons f fs ih =>
    intro v w h
    simp only [List.foldl_cons]
    exact ih (fun g hg => hfs g (List.mem_cons_of_mem _ hg))
      ((h.writeString sep).visit (hfs f (List.mem_cons_self _ _)))

theorem frame_forEachSep {v w : ExtractVisitor} (sep : String) (fs : List Visit)
    (hfs : ∀ f ∈ fs, Framed f) (h : Frame v w) : Frame v (forEachSep sep fs w) := by
  cases fs with
  | nil => exact h
  | cons f fs =>
    simp only [forEachSep]
    exact frame_foldl_sep sep fs (fun g hg => hfs g (List.mem_cons_of_mem _ hg))
      (h.visit (hfs f (List.mem_cons_self _ _)))

theorem frame_visitOpt {v w : ExtractVisitor} (o : Option Visit) (ho : OptFramed o)
    (h : Frame v w) : Frame v (visitOpt o w) := by
  cases o with
  | none => exact h
  | some f => exact h.visit (ho f rfl)

theorem frame_listClause {v w : ExtractVisitor} (keyword : String) (o : Option (List Visit))
    (ho : OptListFramed o) (h : Frame v w) :
    Frame v (listClause keyword o w) := by
  cases o with
  | none => exact h
  | some fs => exact frame_forEachSep ", " fs (ho fs rfl) (h.writeString keyword)

theorem frame_exprClause {v w : ExtractVisitor} (keyword : String) (o : Option Visit)
    (ho : OptFramed o) (h : Frame v w) : Frame v (exprClause keyword o w) := by
  cases o with
  | none => exact h
  | some f =>
    simp only [exprClause]
    exact (h.writeString keyword).visit (ho f rfl)

theorem frame_tableRefsVisit {v w : ExtractVisitor} (o : Option (Option Visit))
    (ho : OptOptFramed o) (h : Frame v w) :
    Frame v (tableRefsVisit o w) := by
  cases o with
  | none => exact h
  | some r =>
    cases r with
    | none => exact h
    | some j => exact h.visit (ho (some j) rfl j rfl)

theorem handleColumnNameExpr_frame {v w : ExtractVisitor} (Name : ColumnName)
    (h : Frame v w) : Frame v (handleColumnNameExpr Name w) := by
  unfold handleColumnNameExpr
  exact h.writeString _

theorem handleValueExpr_frame {v w : ExtractVisitor} (value : Value) (h : Frame v w) :
    Frame v (handleValueExpr value w) := by
  unfold handleValueExpr
  repeat' (first
    | exact Frame.refl _ | assumption | apply Frame.writeString | apply Frame.appendParam
    | apply Frame.setOpType | apply Frame.ite | apply frame_forEachSep | apply frame_visitOpt
    | apply frame_listClause | apply frame_exprClause | apply frame_tableRefsVisit | split
    | apply Frame.visit | solve_by_elim)

theorem handleBinaryOperationExpr_frame {v w : ExtractVisitor} (op : Op) (L R : Visit)
    (hL : Framed L) (hR : Framed R) (h : Frame v w) :
    Frame v (handleBinaryOperationExpr op L R w) := by
  unfold handleBinaryOperationExpr
  repeat' (first
    | exact Frame.refl _ | assumption | apply Frame.writeString | apply Frame.appendParam
    | apply Frame.setOpType | apply Frame.ite | apply frame_forEachSep | apply frame_visitOpt
    | apply frame_listClause | apply frame_exprClause | apply frame_tableRefsVisit | split
    | apply Frame.visit | solve_by_elim)

theorem handleTableName_frame {v w : ExtractVisitor} (Schema Name : String)
    (h : Frame v w) : Frame v (handleTableName Schema Name w) := by
  refine h.trans ?_
  unfold handleTableName
  by_cases hs : Schema = ""
  · simp only [hs, ne_eq, not_true_eq_false, if_false]
    exact ⟨rfl, fun _ => rfl, ⟨_, rfl⟩, ⟨[], by simp [ExtractVisitor.WriteString]⟩, ⟨_, rfl⟩⟩
  · simp only [hs, ne_eq, not_false_eq_true, if_true]
    exact ⟨rfl, fun _ => rfl,
      ⟨templateTable Schema ++ "." ++ templateTable Name,
        by simp [ExtractVisitor.WriteString, String.append_assoc]⟩,
      ⟨[], by simp [ExtractVisitor.WriteString]⟩, ⟨_, rfl⟩⟩

theorem frame_patternVisit {v w : ExtractVisitor} (Pattern : Node) (acceptPattern : Visit)
    (hA : Framed acceptPattern) (h : Frame v w) :
    Frame v (patternVisit Pattern acceptPattern w) := by
  unfold patternVisit
  repeat' (first
    | exact Frame.refl _ | assumption | apply Frame.writeString | apply Frame.appendParam
    | apply Frame.setOpType | apply Frame.ite | apply frame_forEachSep | apply frame_visitOpt
    | apply frame_listClause | apply frame_exprClause | apply frame_tableRefsVisit | split
    | apply Frame.visit | solve_by_elim)

theorem appendTableName_frame {v w : ExtractVisitor} (table : String × String)
    (h : Frame v w) : Frame v (appendTableName table w) := by
  unfold appendTableName
  dsimp only
  repeat' (first
    | exact Frame.refl _ | assumption | apply Frame.writeString | apply Frame.appendParam
    | apply Frame.setOpType | apply Frame.ite | apply frame_forEachSep | apply frame_visitOpt
    | apply frame_listClause | apply frame_exprClause | apply frame_tableRefsVisit | split
    | apply Frame.visit | solve_by_elim)

theorem appendPatternAndWhere_frame {v w : ExtractVisitor} (Pattern : Option (Node × Visit))
    (Where : Option Visit) (hP : ∀ p a, Pattern = some (p, a) → Framed a) (hW : OptFramed Where)
    (h : Frame v w) : Frame v (appendPatternAndWhere Pattern Where w) := by
  unfold appendPatternAndWhere
  cases Pattern with
  | none =>
    dsimp only
    apply frame_exprClause _ _ hW
    repeat' (first
    | exact Frame.refl _ | assumption | apply Frame.writeString | apply Frame.appendParam
    | apply Frame.setOpType | apply Frame.ite | apply frame_forEachSep | apply frame_visitOpt
    | apply frame_listClause | apply frame_exprClause | apply frame_tableRefsVisit | split
    | apply Frame.visit | solve_by_elim)
  | some p =>
    obtain ⟨p, acceptP⟩ := p
    have hp : Framed acceptP := hP p acceptP rfl
    dsimp only
    apply frame_exprClause _ _ hW
    apply frame_patternVisit _ _ hp
    repeat' (first
    | exact Frame.refl _ | assumption | apply Frame.writeString | apply Frame.appendParam
    | apply Frame.setOpType | apply Frame.ite | apply frame_forEachSep | apply frame_visitOpt
    | apply frame_listClause | apply frame_exprClause | apply frame_tableRefsVisit | split
    | apply Frame.visit | solve_by_elim)

theorem selectFieldVisit_framed (f : SelectField Visit) (hf : OptFramed f.Expr) :
    Framed (selectFieldVisit f) := by
  intro w
  have h : Frame w w := Frame.refl w
  unfold selectFieldVisit
  repeat' (first
    | exact Frame.refl _ | assumption | apply Frame.writeString | apply Frame.appendParam
    | apply Frame.setOpType | apply Frame.ite | apply frame_forEachSep | apply frame_visitOpt
    | apply frame_listClause | apply frame_exprClause | apply frame_tableRefsVisit | split
    | apply Frame.visit | solve_by_elim)

theorem framed_map_selectFieldVisit (fs : List (SelectField Visit))
    (hfs : ∀ sf ∈ fs, OptFramed sf.Expr) : ListFramed (fs.map selectFieldVisit) := by
  intro f hf
  obtain ⟨sf, hsf, rfl⟩ := List.mem_map.mp hf
  exact selectFieldVisit_framed sf (hfs sf hsf)

theorem handleSelectStmt_after {w : ExtractVisitor} (Distinct : Bool)
    (Fields : Option (List (SelectField Visit))) (From : Option (Option Visit))
    (Where : Option Visit) (GroupBy : Option (List Visit)) (Having : Option (Option Visit))
    (OrderBy : Option (List Visit)) (Limit : Option Visit)
    (hFields : ∀ fs, Fields = some fs → ∀ sf ∈ fs, OptFramed sf.Expr)
    (hFrom : OptOptFramed From) (hWhere : OptFramed Where) (hGroupBy : OptListFramed GroupBy)
    (hHaving : OptOptFramed Having) (hOrderBy : OptListFramed OrderBy)
    (hLimit : OptFramed Limit) :
    Frame (w.setOpType .SQLOperationSelect)
      (handleSelectStmt Distinct Fields From Where GroupBy Having OrderBy Limit w) := by
  unfold handleSelectStmt
  cases Fields with
  | none =>
    dsimp only
    repeat' (first
    | exact Frame.refl _ | assumption | apply Frame.writeString | apply Frame.appendParam
    | apply Frame.setOpType | apply Frame.ite | apply frame_forEachSep | apply frame_visitOpt
    | apply frame_listClause | apply frame_exprClause | apply frame_tableRefsVisit
    | apply frame_patternVisit | apply handleColumnNameExpr_frame | apply appendTableName_frame
    | apply appendPatternAndWhere_frame | split | apply Frame.visit | solve_by_elim)
  | some fs =>
    have hfs := framed_map_selectFieldVisit fs (hFields fs rfl)
    dsimp only
    repeat' (first
    | exact Frame.refl _ | assumption | apply Frame.writeString | apply Frame.appendParam
    | apply Frame.setOpType | apply Frame.ite | apply frame_forEachSep | apply frame_visitOpt
    | apply frame_listClause | apply frame_exprClause | apply frame_tableRefsVisit
    | apply frame_patternVisit | apply handleColumnNameExpr_frame | apply appendTableName_frame
    | apply appendPatternAndWhere_frame | split | apply Frame.visit | solve_by_elim)

theorem handleInsertStmt_after {w : ExtractVisitor} (IgnoreErr : Bool) (Table : Option Visit)
    (Columns : List String) (Lists : Option (List (List Visit))) (Select : Option Visit)
    (OnDuplicate : Option (List Visit)) (hTable : OptFramed Table)
    (hLists : ∀ ls, Lists = some ls → ∀ l ∈ ls, ListFramed l) (hSelect : OptFramed Select)
    (hOnDuplicate : OptListFramed OnDuplicate) :
    Frame (w.setOpType .SQLOperationInsert)
      (handleInsertStmt IgnoreErr Table Columns Lists Select OnDuplicate w) := by
  have hcols : ListFramed (Columns.map (fun c (u : ExtractVisitor) => u.WriteString c)) := by
    intro f hf
    obtain ⟨c, _, rfl⟩ := List.mem_map.mp hf
    exact fun u => (Frame.refl u).writeString c
  unfold handleInsertStmt
  cases Lists with
  | none =>
    dsimp only
    repeat' (first
    | exact Frame.refl _ | assumption | apply Frame.writeString | apply Frame.appendParam
    | apply Frame.setOpType | apply Frame.ite | apply frame_forEachSep | apply frame_visitOpt
    | apply frame_listClause | apply frame_exprClause | apply frame_tableRefsVisit
    | apply frame_patternVisit | apply handleColumnNameExpr_frame | apply appendTableName_frame
    | apply appendPatternAndWhere_frame | split | apply Frame.visit | solve_by_elim)
  | some lists =>
    have hrows : ListFramed (lists.map (fun l (u : ExtractVisitor) =>
        (forEachSep ", " l (u.WriteString "(")).WriteString ")")) := by
      intro f hf
      obtain ⟨l, hl, rfl⟩ := List.mem_map.mp hf
      exact fun u => (frame_forEachSep ", " l (hLists lists rfl l hl)
        ((Frame.refl u).writeString "(")).writeString ")"
    dsimp only
    repeat' (first
    | exact Frame.refl _ | assumption | apply Frame.writeString | apply Frame.appendParam
    | apply Frame.setOpType | apply Frame.ite | apply frame_forEachSep | apply frame_visitOpt
    | apply frame_listClause | apply frame_exprClause | apply frame_tableRefsVisit
    | apply frame_patternVisit | apply handleColumnNameExpr_frame | apply appendTableName_frame
    | apply appendPatternAndWhere_frame | split | apply Frame.visit | solve_by_elim)

theorem handleUpdateStmt_after {w : ExtractVisitor} (TableRefs : Option (Option Visit))
    (List_ : List Visit) (Where : Option Visit) (Order : Option (List Visit))
    (Limit : Option Visit) (hTableRefs : OptOptFramed TableRefs) (hList : ListFramed List_)
    (hWhere : OptFramed Where) (hOrder : OptListFramed Order) (hLimit : OptFramed Limit) :
    Frame (w.setOpType .SQLOperationUpdate)
      (handleUpdateStmt TableRefs List_ Where Order Limit w) := by
  unfold handleUpdateStmt
  dsimp only
  repeat' (first
    | exact Frame.refl _ | assumption | apply Frame.writeString | apply Frame.appendParam
    | apply Frame.setOpType | apply Frame.ite | apply frame_forEachSep | apply frame_visitOpt
    | apply frame_listClause | apply frame_exprClause | apply frame_tableRefsVisit
    | apply frame_patternVisit | apply handleColumnNameExpr_frame | apply appendTableName_frame
    | apply appendPatternAndWhere_frame | split | apply Frame.visit | solve_by_elim)

theorem handleDeleteStmt_after {w : ExtractVisitor} (Tables : Option (List Visit))
    (TableRefs : Option (Option Visit)) (Where : Option Visit) (Order : Option (List Visit))
    (Limit : Option Visit) (hTables : OptListFramed Tables)
    (hTableRefs : OptOptFramed TableRefs) (hWhere : OptFramed Where)
    (hOrder : OptListFramed Order) (hLimit : OptFramed Limit) :
    Frame (w.setOpType .SQLOperationDelete)
      (handleDeleteStmt Tables TableRefs Where Order Limit w) := by
  unfold handleDeleteStmt
  cases Tables with
  | none =>
    dsimp only
    repeat' (first
    | exact Frame.refl _ | assumption | apply Frame.writeString | apply Frame.appendParam
    | apply Frame.setOpType | apply Frame.ite | apply frame_forEachSep | apply frame_visitOpt
    | apply frame_listClause | apply frame_exprClause | apply frame_tableRefsVisit
    | apply frame_patternVisit | apply handleColumnNameExpr_frame | apply appendTableName_frame
    | apply appendPatternAndWhere_frame | split | apply Frame.visit | solve_by_elim)
  | some ts =>
    have hts : ListFramed ts := hTables ts rfl
    dsimp only
    repeat' (first
    | exact Frame.refl _ | assumption | apply Frame.writeString | apply Frame.appendParam
    | apply Frame.setOpType | apply Frame.ite | apply frame_forEachSep | apply frame_visitOpt
    | apply frame_listClause | apply frame_exprClause | apply frame_tableRefsVisit
    | apply frame_patternVisit | apply handleColumnNameExpr_frame | apply appendTableName_frame
    | apply appendPatternAndWhere_frame | split | apply Frame.visit | solve_by_elim)

theorem handleExplainStmt_after {w : ExtractVisitor} (Analyze : Bool) (Format : String)
    (Stmt : Option Visit) (hStmt : OptFramed Stmt) :
    Frame (w.setOpType .SQLOperationExplain) (handleExplainStmt Analyze Format Stmt w) := by
  unfold handleExplainStmt
  dsimp only
  repeat' (first
    | exact Frame.refl _ | assumption | apply Frame.writeString | apply Frame.appendParam
    | apply Frame.setOpType | apply Frame.ite | apply frame_forEachSep | apply frame_visitOpt
    | apply frame_listClause | apply frame_exprClause | apply frame_tableRefsVisit
    | apply frame_patternVisit | apply handleColumnNameExpr_frame | apply appendTableName_frame
    | apply appendPatternAndWhere_frame | split | apply Frame.visit | solve_by_elim)

theorem handleTableSource_frame {v w : ExtractVisitor} (Source : Node) (acceptSource : Visit)
    (AsName : String) (hA : Framed acceptSource) (h : Frame v w) :
    Frame v (handleTableSource Source acceptSource AsName w) := by
  unfold handleTableSource logError
  dsimp only
  repeat' (first
    | exact Frame.refl _ | assumption | apply Frame.writeString | apply Frame.appendParam
    | apply Frame.setOpType | apply Frame.ite | apply frame_forEachSep | apply frame_visitOpt
    | apply frame_listClause | apply frame_exprClause | apply frame_tableRefsVisit
    | apply frame_patternVisit | apply handleColumnNameExpr_frame | apply appendTableName_frame
    | apply appendPatternAndWhere_frame | split | apply Frame.visit | solve_by_elim)

theorem handleJoin_frame {v w : ExtractVisitor} (Left Right : Option Visit) (Tp : JoinType)
    (On : Option Visit) (hLeft : OptFramed Left) (hRight : OptFramed Right)
    (hOn : OptFramed On) (h : Frame v w) : Frame v (handleJoin Left Right Tp On w) := by
  unfold handleJoin
  cases Right with
  | none =>
    dsimp only
    repeat' (first
    | exact Frame.refl _ | assumption | apply Frame.writeString | apply Frame.appendParam
    | apply Frame.setOpType | apply Frame.ite | apply frame_forEachSep | apply frame_visitOpt
    | apply frame_listClause | apply frame_exprClause | apply frame_tableRefsVisit
    | apply frame_patternVisit | apply handleColumnNameExpr_frame | apply appendTableName_frame
    | apply appendPatternAndWhere_frame | split | apply Frame.visit | solve_by_elim)
  | some r =>
    have hr : Framed r := hRight r rfl
    dsimp only
    repeat' (first
    | exact Frame.refl _ | assumption | apply Frame.writeString | apply Frame.appendParam
    | apply Frame.setOpType | apply Frame.ite | apply frame_forEachSep | apply frame_visitOpt
    | apply frame_listClause | apply frame_exprClause | apply frame_tableRefsVisit
    | apply frame_patternVisit | apply handleColumnNameExpr_frame | apply appendTableName_frame
    | apply appendPatternAndWhere_frame | split | apply Frame.visit | solve_by_elim)

theorem handlePatternLikeOrIlikeExpr_frame {v w : ExtractVisitor} (Expr : Visit)
    (Pattern : Node) (acceptPattern : Visit) (isNot : Bool) (hE : Framed Expr)
    (hA : Framed acceptPattern) (h : Frame v w) :
    Frame v (handlePatternLikeOrIlikeExpr Expr Pattern acceptPattern isNot w) := by
  unfold handlePatternLikeOrIlikeExpr
  dsimp only
  repeat' (first
    | exact Frame.refl _ | assumption | apply Frame.writeString | apply Frame.appendParam
    | apply Frame.setOpType | apply Frame.ite | apply frame_forEachSep | apply frame_visitOpt
    | apply frame_listClause | apply frame_exprClause | apply frame_tableRefsVisit
    | apply frame_patternVisit | apply handleColumnNameExpr_frame | apply appendTableName_frame
    | apply appendPatternAndWhere_frame | split | apply Frame.visit | solve_by_elim)

theorem inListItem_framed (item : Node) : Framed (inListItem item) := by
  intro w
  unfold inListItem
  dsimp only
  split
  · exact ((Frame.refl w).writeString "?").appendParam _
  · exact (Frame.refl w).writeString "?"

theorem handlePatternInExpr_frame {v w : ExtractVisitor} (Expr : Visit) (List_ : List Node)
    (isNot : Bool) (Sel : Option Visit) (hE : Framed Expr) (hSel : OptFramed Sel)
    (h : Frame v w) : Frame v (handlePatternInExpr Expr List_ isNot Sel w) := by
  have hitems : ListFramed (List_.map inListItem) := by
    intro f hf
    obtain ⟨item, _, rfl⟩ := List.mem_map.mp hf
    exact inListItem_framed item
  unfold handlePatternInExpr
  dsimp only
  repeat' (first
    | exact Frame.refl _ | assumption | apply Frame.writeString | apply Frame.appendParam
    | apply Frame.setOpType | apply Frame.ite | apply frame_forEachSep | apply frame_visitOpt
    | apply frame_listClause | apply frame_exprClause | apply frame_tableRefsVisit
    | apply frame_patternVisit | apply handleColumnNameExpr_frame | apply appendTableName_frame
    | apply appendPatternAndWhere_frame | split | apply Frame.visit | solve_by_elim)

theorem handleBetweenExpr_frame {v w : ExtractVisitor} (Expr Left Right : Visit)
    (isNot : Bool) (hE : Framed Expr) (hL : Framed Left) (hR : Framed Right)
    (h : Frame v w) : Frame v (handleBetweenExpr Expr Left Right isNot w) := by
  unfold handleBetweenExpr
  dsimp only
  repeat' (first
    | exact Frame.refl _ | assumption | apply Frame.writeString | apply Frame.appendParam
    | apply Frame.setOpType | apply Frame.ite | apply frame_forEachSep | apply frame_visitOpt
    | apply frame_listClause | apply frame_exprClause | apply frame_tableRefsVisit
    | apply frame_patternVisit | apply handleColumnNameExpr_frame | apply appendTableName_frame
    | apply appendPatternAndWhere_frame | split | apply Frame.visit | solve_by_elim)

theorem handleByItem_frame {v w : ExtractVisitor} (Expr : Visit) (Desc : Bool)
    (hE : Framed Expr) (h : Frame v w) : Frame v (handleByItem Expr Desc w) := by
  unfold handleByItem
  dsimp only
  repeat' (first
    | exact Frame.refl _ | assumption | apply Frame.writeString | apply Frame.appendParam
    | apply Frame.setOpType | apply Frame.ite | apply frame_forEachSep | apply frame_visitOpt
    | apply frame_listClause | apply frame_exprClause | apply frame_tableRefsVisit
    | apply frame_patternVisit | apply handleColumnNameExpr_frame | apply appendTableName_frame
    | apply appendPatternAndWhere_frame | split | apply Frame.visit | solve_by_elim)

theorem handleValuesExpr_frame {v w : ExtractVisitor} (Column : Visit) (hC : Framed Column)
    (h : Frame v w) : Frame v (handleValuesExpr Column w) := by
  unfold handleValuesExpr
  repeat' (first
    | exact Frame.refl _ | assumption | apply Frame.writeString | apply Frame.appendParam
    | apply Frame.setOpType | apply Frame.ite | apply frame_forEachSep | apply frame_visitOpt
    | apply frame_listClause | apply frame_exprClause | apply frame_tableRefsVisit
    | apply frame_patternVisit | apply handleColumnNameExpr_frame | apply appendTableName_frame
    | apply appendPatternAndWhere_frame | split | apply Frame.visit | solve_by_elim)

theorem handleLimit_frame {v w : ExtractVisitor} (Count : Visit) (Offset : Option Visit)
    (hC : Framed Count) (hO : OptFramed Offset) (h : Frame v w) :
    Frame v (handleLimit Count Offset w) := by
  unfold handleLimit
  cases Offset with
  | none =>
    dsimp only
    repeat' (first
    | exact Frame.refl _ | assumption | apply Frame.writeString | apply Frame.appendParam
    | apply Frame.setOpType | apply Frame.ite | apply frame_forEachSep | apply frame_visitOpt
    | apply frame_listClause | apply frame_exprClause | apply frame_tableRefsVisit
    | apply frame_patternVisit | apply handleColumnNameExpr_frame | apply appendTableName_frame
    | apply appendPatternAndWhere_frame | split | apply Frame.visit | solve_by_elim)
  | some o =>
    have ho : Framed o := hO o rfl
    dsimp only
    repeat' (first
    | exact Frame.refl _ | assumption | apply Frame.writeString | apply Frame.appendParam
    | apply Frame.setOpType | apply Frame.ite | apply frame_forEachSep | apply frame_visitOpt
    | apply frame_listClause | apply frame_exprClause | apply frame_tableRefsVisit
    | apply frame_patternVisit | apply handleColumnNameExpr_frame | apply appendTableName_frame
    | apply appendPatternAndWhere_frame | split | apply Frame.visit | solve_by_elim)

theorem handleSubqueryExpr_frame {v w : ExtractVisitor} (Query : Visit) (hQ : Framed Query)
    (h : Frame v w) : Frame v (handleSubqueryExpr Query w) := by
  unfold handleSubqueryExpr
  repeat' (first
    | exact Frame.refl _ | assumption | apply Frame.writeString | apply Frame.appendParam
    | apply Frame.setOpType | apply Frame.ite | apply frame_forEachSep | apply frame_visitOpt
    | apply frame_listClause | apply frame_exprClause | apply frame_tableRefsVisit
    | apply frame_patternVisit | apply handleColumnNameExpr_frame | apply appendTableName_frame
    | apply appendPatternAndWhere_frame | split | apply Frame.visit | solve_by_elim)

theorem handleOnCondition_frame {v w : ExtractVisitor} (Expr : Visit) (hE : Framed Expr)
    (h : Frame v w) : Frame v (handleOnCondition Expr w) := by
  unfold handleOnCondition
  repeat' (first
    | exact Frame.refl _ | assumption | apply Frame.writeString | apply Frame.appendParam
    | apply Frame.setOpType | apply Frame.ite | apply frame_forEachSep | apply frame_visitOpt
    | apply frame_listClause | apply frame_exprClause | apply frame_tableRefsVisit
    | apply frame_patternVisit | apply handleColumnNameExpr_frame | apply appendTableName_frame
    | apply appendPatternAndWhere_frame | split | apply Frame.visit | solve_by_elim)

theorem handleAssignment_frame {v w : ExtractVisitor} (Column : ColumnName) (Expr : Visit)
    (hE : Framed Expr) (h : Frame v w) : Frame v (handleAssignment Column Expr w) := by
  unfold handleAssignment
  repeat' (first
    | exact Frame.refl _ | assumption | apply Frame.writeString | apply Frame.appendParam
    | apply Frame.setOpType | apply Frame.ite | apply frame_forEachSep | apply frame_visitOpt
    | apply frame_listClause | apply frame_exprClause | apply frame_tableRefsVisit
    | apply frame_patternVisit | apply handleColumnNameExpr_frame | apply appendTableName_frame
    | apply appendPatternAndWhere_frame | split | apply Frame.visit | solve_by_elim)

theorem handleAggregateFuncExpr_frame {v w : ExtractVisitor} (F : String) (Args : List Visit)
    (Distinct : Bool) (hArgs : ListFramed Args) (h : Frame v w) :
    Frame v (handleAggregateFuncExpr F Args Distinct w) := by
  unfold handleAggregateFuncExpr
  dsimp only
  repeat' (first
    | exact Frame.refl _ | assumption | apply Frame.writeString | apply Frame.appendParam
    | apply Frame.setOpType | apply Frame.ite | apply frame_forEachSep | apply frame_visitOpt
    | apply frame_listClause | apply frame_exprClause | apply frame_tableRefsVisit
    | apply frame_patternVisit | apply handleColumnNameExpr_frame | apply appendTableName_frame
    | apply appendPatternAndWhere_frame | split | apply Frame.visit | solve_by_elim)

theorem frame_whenClauses (ws : List (Visit × Visit))
    (hws : ∀ c ∈ ws, Framed c.1 ∧ Framed c.2) :
    ∀ {v w : ExtractVisitor}, Frame v w →
      Frame v (ws.foldl
        (fun acc c => c.2 ((c.1 (acc.WriteString " WHEN ")).WriteString " THEN ")) w) := by
  induction ws with
  | nil => intro v w h; exact h
  | cons c ws ih =>
    intro v w h
    simp only [List.foldl_cons]
    have hc := hws c (List.mem_cons_self _ _)
    exact ih (fun d hd => hws d (List.mem_cons_of_mem _ hd))
      ((((h.writeString " WHEN ").visit hc.1).writeString " THEN ").visit hc.2)

theorem handleCaseExpr_frame {v w : ExtractVisitor} (Value : Option Visit)
    (WhenClauses : List (Visit × Visit)) (ElseClause : Option Visit) (hV : OptFramed Value)
    (hW : ∀ c ∈ WhenClauses, Framed c.1 ∧ Framed c.2) (hE : OptFramed ElseClause)
    (h : Frame v w) : Frame v (handleCaseExpr Value WhenClauses ElseClause w) := by
  unfold handleCaseExpr
  dsimp only
  apply Frame.writeString
  apply frame_exprClause _ _ hE
  apply frame_whenClauses _ hW
  repeat' (first
    | exact Frame.refl _ | assumption | apply Frame.writeString | apply Frame.appendParam
    | apply Frame.setOpType | apply Frame.ite | apply frame_forEachSep | apply frame_visitOpt
    | apply frame_listClause | apply frame_exprClause | apply frame_tableRefsVisit
    | apply frame_patternVisit | apply handleColumnNameExpr_frame | apply appendTableName_frame
    | apply appendPatternAndWhere_frame | split | apply Frame.visit | solve_by_elim)

theorem handleParenthesesExpr_frame {v w : ExtractVisitor} (Expr : Visit) (hE : Framed Expr)
    (h : Frame v w) : Frame v (handleParenthesesExpr Expr w) := by
  unfold handleParenthesesExpr
  repeat' (first
    | exact Frame.refl _ | assumption | apply Frame.writeString | apply Frame.appendParam
    | apply Frame.setOpType | apply Frame.ite | apply frame_forEachSep | apply frame_visitOpt
    | apply frame_listClause | apply frame_exprClause | apply frame_tableRefsVisit
    | apply frame_patternVisit | apply handleColumnNameExpr_frame | apply appendTableName_frame
    | apply appendPatternAndWhere_frame | split | apply Frame.visit | solve_by_elim)

theorem funcCallArgs_frame (args : List (Node × Visit)) (hargs : ∀ a ∈ args, Framed a.2) :
    ∀ (prev : Option Node) {v w : ExtractVisitor}, Frame v w →
      Frame v (funcCallArgs prev args w) := by
  induction args with
  | nil => intro prev v w h; simpa [funcCallArgs] using h
  | cons a rest ih =>
    intro prev v w h
    obtain ⟨arg, acceptArg⟩ := a
    have hA : Framed acceptArg := hargs (arg, acceptArg) (List.mem_cons_self _ _)
    have ih' : ∀ (p : Option Node) {v w : ExtractVisitor}, Frame v w →
        Frame v (funcCallArgs p rest w) :=
      ih (fun a ha => hargs a (List.mem_cons_of_mem _ ha))
    simp only [funcCallArgs]
    repeat' (first
      | exact Frame.refl _ | assumption | apply ih' | apply Frame.writeString
      | apply Frame.appendParam | apply Frame.ite | apply Frame.visit | split)

theorem handleFuncCallExpr_frame {v w : ExtractVisitor} (FnName : String)
    (Args : List (Node × Visit)) (hArgs : ∀ a ∈ Args, Framed a.2) (h : Frame v w) :
    Frame v (handleFuncCallExpr FnName Args w) := by
  unfold handleFuncCallExpr
  apply Frame.writeString
  apply funcCallArgs_frame _ hArgs
  repeat' (first
    | exact Frame.refl _ | assumption | apply Frame.writeString | apply Frame.appendParam
    | apply Frame.setOpType | apply Frame.ite | apply frame_forEachSep | apply frame_visitOpt
    | apply frame_listClause | apply frame_exprClause | apply frame_tableRefsVisit
    | apply frame_patternVisit | apply handleColumnNameExpr_frame | apply appendTableName_frame
    | apply appendPatternAndWhere_frame | split | apply Frame.visit | solve_by_elim)

theorem handleUnaryOperationExpr_frame {v w : ExtractVisitor} (op : Op) (V : Visit)
    (hV : Framed V) (h : Frame v w) : Frame v (handleUnaryOperationExpr op V w) := by
  unfold handleUnaryOperationExpr
  repeat' (first
    | exact Frame.refl _ | assumption | apply Frame.writeString | apply Frame.appendParam
    | apply Frame.setOpType | apply Frame.ite | apply frame_forEachSep | apply frame_visitOpt
    | apply frame_listClause | apply frame_exprClause | apply frame_tableRefsVisit
    | apply frame_patternVisit | apply handleColumnNameExpr_frame | apply appendTableName_frame
    | apply appendPatternAndWhere_frame | split | apply Frame.visit | solve_by_elim)

theorem handleIsNullExpr_frame {v w : ExtractVisitor} (Expr : Visit) (isNot : Bool)
    (hE : Framed Expr) (h : Frame v w) : Frame v (handleIsNullExpr Expr isNot w) := by
  unfold handleIsNullExpr
  dsimp only
  repeat' (first
    | exact Frame.refl _ | assumption | apply Frame.writeString | apply Frame.appendParam
    | apply Frame.setOpType | apply Frame.ite | apply frame_forEachSep | apply frame_visitOpt
    | apply frame_listClause | apply frame_exprClause | apply frame_tableRefsVisit
    | apply frame_patternVisit | apply handleColumnNameExpr_frame | apply appendTableName_frame
    | apply appendPatternAndWhere_frame | split | apply Frame.visit | solve_by_elim)

theorem handleExistsSubqueryExpr_frame {v w : ExtractVisitor} (Sel : Visit) (isNot : Bool)
    (hS : Framed Sel) (h : Frame v w) : Frame v (handleExistsSubqueryExpr Sel isNot w) := by
  unfold handleExistsSubqueryExpr
  dsimp only
  repeat' (first
    | exact Frame.refl _ | assumption | apply Frame.writeString | apply Frame.appendParam
    | apply Frame.setOpType | apply Frame.ite | apply frame_forEachSep | apply frame_visitOpt
    | apply frame_listClause | apply frame_exprClause | apply frame_tableRefsVisit
    | apply frame_patternVisit | apply handleColumnNameExpr_frame | apply appendTableName_frame
    | apply appendPatternAndWhere_frame | split | apply Frame.visit | solve_by_elim)

theorem handleDefaultExpr_frame {v w : ExtractVisitor} (Name : Option String)
    (h : Frame v w) : Frame v (handleDefaultExpr Name w) := by
  unfold handleDefaultExpr
  dsimp only
  repeat' (first
    | exact Frame.refl _ | assumption | apply Frame.writeString | apply Frame.appendParam
    | apply Frame.setOpType | apply Frame.ite | apply frame_forEachSep | apply frame_visitOpt
    | apply frame_listClause | apply frame_exprClause | apply frame_tableRefsVisit
    | apply frame_patternVisit | apply handleColumnNameExpr_frame | apply appendTableName_frame
    | apply appendPatternAndWhere_frame | split | apply Frame.visit | solve_by_elim)

theorem handleCompareSubqueryExpr_frame {v w : ExtractVisitor} (L : Visit) (op : Op)
    (R : Visit) (All : Bool) (hL : Framed L) (hR : Framed R) (h : Frame v w) :
    Frame v (handleCompareSubqueryExpr L op R All w) := by
  unfold handleCompareSubqueryExpr
  dsimp only
  repeat' (first
    | exact Frame.refl _ | assumption | apply Frame.writeString | apply Frame.appendParam
    | apply Frame.setOpType | apply Frame.ite | apply frame_forEachSep | apply frame_visitOpt
    | apply frame_listClause | apply frame_exprClause | apply frame_tableRefsVisit
    | apply frame_patternVisit | apply handleColumnNameExpr_frame | apply appendTableName_frame
    | apply appendPatternAndWhere_frame | split | apply Frame.visit | solve_by_elim)

theorem handleShowStmt_after {w : ExtractVisitor} (Tp : ShowStmtType)
    (Table : Option (String × String)) (DBName : String) (IfNotExists Full : Bool)
    (Pattern : Option (Node × Visit)) (Where : Option Visit) (Limit : Option Visit)
    (hP : ∀ p a, Pattern = some (p, a) → Framed a) (hW : OptFramed Where)
    (hL : OptFramed Limit) :
    Frame (w.setOpType .SQLOperationShow)
      (handleShowStmt Tp Table DBName IfNotExists Full Pattern Where Limit w) := by
  unfold handleShowStmt logError
  cases Tp <;> cases Table <;> dsimp only <;> repeat' (first
    | exact Frame.refl _ | assumption | apply Frame.writeString | apply Frame.appendParam
    | apply Frame.setOpType | apply Frame.ite | apply frame_forEachSep | apply frame_visitOpt
    | apply frame_listClause | apply frame_exprClause | apply frame_tableRefsVisit
    | apply frame_patternVisit | apply handleColumnNameExpr_frame | apply appendTableName_frame
    | apply appendPatternAndWhere_frame | split | apply Frame.visit | solve_by_elim)

theorem optFramed_none : OptFramed none := fun _ h => nomatch h

theorem optFramed_some {g : Visit} (h : Framed g) : OptFramed (some g) :=
  fun f hf => by cases hf; exact h

theorem optOptFramed_none : OptOptFramed none := fun _ h => nomatch h

theorem optOptFramed_some {r : Option Visit} (h : OptFramed r) : OptOptFramed (some r) :=
  fun f hf => by cases hf; exact h

theorem optListFramed_none : OptListFramed none := fun _ h => nomatch h

theorem optListFramed_some {l : List Visit} (h : ListFramed l) : OptListFramed (some l) :=
  fun f hf => by cases hf; exact h

theorem framed_of_after {f : Visit} (n : Node) (h : ∀ v, Frame (enterState n v) (f v)) :
    Framed f := by
  intro v
  refine Frame.trans ?_ (h v)
  unfold enterState
  split
  · exact (Frame.refl v).setOpType _
  · exact Frame.refl v

theorem aggregate_frame (F : String) (Args : List Visit) (Distinct : Bool)
    (hArgs : ListFramed Args) (v : ExtractVisitor) :
    Frame v { handleAggregateFuncExpr F Args Distinct { v with inAggrFunc := true } with
      inAggrFunc := v.inAggrFunc } := by
  have hu := handleAggregateFuncExpr_frame F Args Distinct hArgs
    (Frame.refl { v with inAggrFunc := true })
  exact ⟨rfl, hu.opType, hu.builder, hu.params, hu.tableInfos⟩

theorem accept_SelectStmt (Distinct : Bool) (Fields : Option (List (SelectField Node)))
    (From : Option (Option Node)) (Where : Option Node) (GroupBy : Option (List Node))
    (Having : Option (Option Node)) (OrderBy : Option (List Node)) (Limit : Option Node)
    (v : ExtractVisitor) :
    Accept (.SelectStmt Distinct Fields From Where GroupBy Having OrderBy Limit) v =
      handleSelectStmt Distinct
        (match Fields with
          | some fs => some (acceptFields fs)
          | none => none)
        (match From with
          | some (some j) => some (some (Accept j))
          | some none => some none
          | none => none)
        (match Where with
          | some e => some (Accept e)
          | none => none)
        (match GroupBy with
          | some l => some (acceptList l)
          | none => none)
        (match Having with
          | some (some e) => some (some (Accept e))
          | some none => some none
          | none => none)
        (match OrderBy with
          | some l => some (acceptList l)
          | none => none)
        (match Limit with
          | some e => some (Accept e)
          | none => none) v := by
  rcases Fields with _ | _ <;> rcases From with _ | _ | _ <;> rcases Where with _ | _ <;>
    rcases GroupBy with _ | _ <;> rcases Having with _ | _ | _ <;>
    rcases OrderBy with _ | _ <;> rcases Limit with _ | _ <;> simp only [Accept]

theorem accept_InsertStmt (IgnoreErr : Bool) (Table : Option Node) (Columns : List String)
    (Lists : Option (List (List Node))) (Select : Option Node)
    (OnDuplicate : Option (List Node)) (v : ExtractVisitor) :
    Accept (.InsertStmt IgnoreErr Table Columns Lists Select OnDuplicate) v =
      handleInsertStmt IgnoreErr
        (match Table with
          | some e => some (Accept e)
          | none => none)
        Columns
        (match Lists with
          | some ls => some (acceptLists ls)
          | none => none)
        (match Select with
          | some e => some (Accept e)
          | none => none)
        (match OnDuplicate with
          | some l => some (acceptList l)
          | none => none) v := by
  rcases Table with _ | _ <;> rcases Lists with _ | _ <;> rcases Select with _ | _ <;>
    rcases OnDuplicate with _ | _ <;> simp only [Accept]

theorem accept_UpdateStmt (TableRefs : Option (Option Node)) (List_ : List Node)
    (Where : Option Node) (Order : Option (List Node)) (Limit : Option Node)
    (v : ExtractVisitor) :
    Accept (.UpdateStmt TableRefs List_ Where Order Limit) v =
      handleUpdateStmt
        (match TableRefs with
          | some (some j) => some (some (Accept j))
          | some none => some none
          | none => none)
        (acceptList List_)
        (match Where with
          | some e => some (Accept e)
          | none => none)
        (match Order with
          | some l => some (acceptList l)
          | none => none)
        (match Limit with
          | some e => some (Accept e)
          | none => none) v := by
  rcases TableRefs with _ | _ | _ <;> rcases Where with _ | _ <;> rcases Order with _ | _ <;>
    rcases Limit with _ | _ <;> simp only [Accept]

theorem accept_DeleteStmt (Tables : Option (List Node)) (TableRefs : Option (Option Node))
    (Where : Option Node) (Order : Option (List Node)) (Limit : Option Node)
    (v : ExtractVisitor) :
    Accept (.DeleteStmt Tables TableRefs Where Order Limit) v =
      handleDeleteStmt
        (match Tables with
          | some l => some (acceptList l)
          | none => none)
        (match TableRefs with
          | some (some j) => some (some (Accept j))
          | some none => some none
          | none => none)
        (match Where with
          | some e => some (Accept e)
          | none => none)
        (match Order with
          | some l => some (acceptList l)
          | none => none)
        (match Limit with
          | some e => some (Accept e)
          | none => none) v := by
  rcases Tables with _ | _ <;> rcases TableRefs with _ | _ | _ <;> rcases Where with _ | _ <;>
    rcases Order with _ | _ <;> rcases Limit with _ | _ <;> simp only [Accept]

theorem accept_ExplainStmt (Analyze : Bool) (Format : String) (Stmt : Option Node)
    (v : ExtractVisitor) :
    Accept (.ExplainStmt Analyze Format Stmt) v =
      handleExplainStmt Analyze Format
        (match Stmt with
          | some e => some (Accept e)
          | none => none) v := by
  rcases Stmt with _ | _ <;> simp only [Accept]

theorem accept_ShowStmt (Tp : ShowStmtType) (Table : Option (String × String))
    (DBName : String) (IfNotExists Full : Bool) (Pattern : Option Node) (Where : Option Node)
    (Limit : Option Node) (v : ExtractVisitor) :
    Accept (.ShowStmt Tp Table DBName IfNotExists Full Pattern Where Limit) v =
      handleShowStmt Tp Table DBName IfNotExists Full
        (match Pattern with
          | some p => some (p, Accept p)
          | none => none)
        (match Where with
          | some e => some (Accept e)
          | none => none)
        (match Limit with
          | some e => some (Accept e)
          | none => none) v := by
  rcases Pattern with _ | _ <;> rcases Where with _ | _ <;> rcases Limit with _ | _ <;>
    simp only [Accept]

theorem accept_Join (Left Right : Option Node) (Tp : JoinType) (On : Option Node)
    (v : ExtractVisitor) :
    Accept (.Join Left Right Tp On) v =
      handleJoin
        (match Left with
          | some e => some (Accept e)
          | none => none)
        (match Right with
          | some e => some (Accept e)
          | none => none)
        Tp
        (match On with
          | some e => some (Accept e)
          | none => none) v := by
  rcases Left with _ | _ <;> rcases Right with _ | _ <;> rcases On with _ | _ <;>
    simp only [Accept]

theorem accept_PatternInExpr (Expr : Node) (List_ : List Node) (isNot : Bool)
    (Sel : Option Node) (v : ExtractVisitor) :
    Accept (.PatternInExpr Expr List_ isNot Sel) v =
      handlePatternInExpr (Accept Expr) List_ isNot
        (match Sel with
          | some e => some (Accept e)
          | none => none) v := by
  rcases Sel with _ | _ <;> simp only [Accept]

theorem accept_CaseExpr (Value : Option Node) (WhenClauses : List (Node × Node))
    (ElseClause : Option Node) (v : ExtractVisitor) :
    Accept (.CaseExpr Value WhenClauses ElseClause) v =
      handleCaseExpr
        (match Value with
          | some e => some (Accept e)
          | none => none)
        (acceptWhens WhenClauses)
        (match ElseClause with
          | some e => some (Accept e)
          | none => none) v := by
  rcases Value with _ | _ <;> rcases ElseClause with _ | _ <;> simp only [Accept]

theorem accept_Limit (Count : Node) (Offset : Option Node) (v : ExtractVisitor) :
    Accept (.Limit Count Offset) v =
      handleLimit (Accept Count)
        (match Offset with
          | some e => some (Accept e)
          | none => none) v := by
  rcases Offset with _ | _ <;> simp only [Accept]

theorem acceptFields_cons (w : Option (String × String)) (e : Option Node) (a : String)
    (fs : List (SelectField Node)) :
    acceptFields (⟨w, e, a⟩ :: fs) =
      ⟨w, (match e with
        | some x => some (Accept x)
        | none => none), a⟩ :: acceptFields fs := by
  rcases e with _ | _ <;> simp only [acceptFields]

mutual
/-- Every visit keeps the frame, counted from the visitor as it is after the guard at
the head of a statement handler. -/
theorem accept_after : ∀ (n : Node) (v : ExtractVisitor), Frame (enterState n v) (Accept n v)
  | .ColumnNameExpr Name, v => by
    simp only [Accept]
    exact handleColumnNameExpr_frame Name (Frame.refl v)
  | .ValueExpr value, v => by
    simp only [Accept]
    exact handleValueExpr_frame value (Frame.refl v)
  | .BinaryOperationExpr op L R, v => by
    simp only [Accept]
    exact handleBinaryOperationExpr_frame op _ _ (framed_of_after L (accept_after L))
      (framed_of_after R (accept_after R)) (Frame.refl v)
  | .TableName Schema Name, v => by
    simp only [Accept]
    exact handleTableName_frame Schema Name (Frame.refl v)
  | .SelectStmt Distinct Fields From Where GroupBy Having OrderBy Limit, v => by
    rw [accept_SelectStmt]
    refine handleSelectStmt_after _ _ _ _ _ _ _ _ ?_ ?_ ?_ ?_ ?_ ?_ ?_
    · cases Fields with
      | none => exact fun _ h => nomatch h
      | some fs => exact fun _ h => by cases h; exact acceptFields_framed fs
    · cases From with
      | none => exact optOptFramed_none
      | some o =>
        cases o with
        | none => exact optOptFramed_some optFramed_none
        | some j =>
          exact optOptFramed_some (optFramed_some (framed_of_after j (accept_after j)))
    · cases Where with
      | none => exact optFramed_none
      | some e => exact optFramed_some (framed_of_after e (accept_after e))
    · cases GroupBy with
      | none => exact optListFramed_none
      | some l => exact optListFramed_some (acceptList_framed l)
    · cases Having with
      | none => exact optOptFramed_none
      | some o =>
        cases o with
        | none => exact optOptFramed_some optFramed_none
        | some j =>
          exact optOptFramed_some (optFramed_some (framed_of_after j (accept_after j)))
    · cases OrderBy with
      | none => exact optListFramed_none
      | some l => exact optListFramed_some (acceptList_framed l)
    · cases Limit with
      | none => exact optFramed_none
      | some e => exact optFramed_some (framed_of_after e (accept_after e))
  | .InsertStmt IgnoreErr Table Columns Lists Select OnDuplicate, v => by
    rw [accept_InsertStmt]
    refine handleInsertStmt_after _ _ _ _ _ _ ?_ ?_ ?_ ?_
    · cases Table with
      | none => exact optFramed_none
      | some e => exact optFramed_some (framed_of_after e (accept_after e))
    · cases Lists with
      | none => exact fun _ h => nomatch h
      | some ls => exact fun _ h => by cases h; exact acceptLists_framed ls
    · cases Select with
      | none => exact optFramed_none
      | some e => exact optFramed_some (framed_of_after e (accept_after e))
    · cases OnDuplicate with
      | none => exact optListFramed_none
      | some l => exact optListFramed_some (acceptList_framed l)
  | .UpdateStmt TableRefs List_ Where Order Limit, v => by
    rw [accept_UpdateStmt]
    refine handleUpdateStmt_after _ _ _ _ _ ?_ (acceptList_framed List_) ?_ ?_ ?_
    · cases TableRefs with
      | none => exact optOptFramed_none
      | some o =>
        cases o with
        | none => exact optOptFramed_some optFramed_none
        | some j =>
          exact optOptFramed_some (optFramed_some (framed_of_after j (accept_after j)))
    · cases Where with
      | none => exact optFramed_none
      | some e => exact optFramed_some (framed_of_after e (accept_after e))
    · cases Order with
      | none => exact optListFramed_none
      | some l => exact optListFramed_some (acceptList_framed l)
    · cases Limit with
      | none => exact optFramed_none
      | some e => exact optFramed_some (framed_of_after e (accept_after e))
  | .DeleteStmt Tables TableRefs Where Order Limit, v => by
    rw [accept_DeleteStmt]
    refine handleDeleteStmt_after _ _ _ _ _ ?_ ?_ ?_ ?_ ?_
    · cases Tables with
      | none => exact optListFramed_none
      | some l => exact optListFramed_some (acceptList_framed l)
    · cases TableRefs with
      | none => exact optOptFramed_none
      | some o =>
        cases o with
        | none => exact optOptFramed_some optFramed_none
        | some j =>
          exact optOptFramed_some (optFramed_some (framed_of_after j (accept_after j)))
    · cases Where with
      | none => exact optFramed_none
      | some e => exact optFramed_some (framed_of_after e (accept_after e))
    · cases Order with
      | none => exact optListFramed_none
      | some l => exact optListFramed_some (acceptList_framed l)
    · cases Limit with
      | none => exact optFramed_none
      | some e => exact optFramed_some (framed_of_after e (accept_after e))
  | .ExplainStmt Analyze Format Stmt, v => by
    rw [accept_ExplainStmt]
    refine handleExplainStmt_after _ _ _ ?_
    cases Stmt with
    | none => exact optFramed_none
    | some e => exact optFramed_some (framed_of_after e (accept_after e))
  | .ShowStmt Tp Table DBName IfNotExists Full Pattern Where Limit, v => by
    rw [accept_ShowStmt]
    refine handleShowStmt_after _ _ _ _ _ _ _ _ ?_ ?_ ?_
    · cases Pattern with
      | none => exact fun _ _ h => nomatch h
      | some p => exact fun _ _ h => by cases h; exact framed_of_after p (accept_after p)
    · cases Where with
      | none => exact optFramed_none
      | some e => exact optFramed_some (framed_of_after e (accept_after e))
    · cases Limit with
      | none => exact optFramed_none
      | some e => exact optFramed_some (framed_of_after e (accept_after e))
  | .TableSource Source AsName, v => by
    simp only [Accept]
    exact handleTableSource_frame Source _ AsName (framed_of_after Source (accept_after Source))
      (Frame.refl v)
  | .Join Left Right Tp On, v => by
    rw [accept_Join]
    refine handleJoin_frame _ _ _ _ ?_ ?_ ?_ (Frame.refl v)
    · cases Left with
      | none => exact optFramed_none
      | some e => exact optFramed_some (framed_of_after e (accept_after e))
    · cases Right with
      | none => exact optFramed_none
      | some e => exact optFramed_some (framed_of_after e (accept_after e))
    · cases On with
      | none => exact optFramed_none
      | some e => exact optFramed_some (framed_of_after e (accept_after e))
  | .OnCondition Expr, v => by
    simp only [Accept]
    exact handleOnCondition_frame _ (framed_of_after Expr (accept_after Expr)) (Frame.refl v)
  | .PatternInExpr Expr List_ isNot Sel, v => by
    rw [accept_PatternInExpr]
    refine handlePatternInExpr_frame _ _ _ _ (framed_of_after Expr (accept_after Expr)) ?_
      (Frame.refl v)
    cases Sel with
    | none => exact optFramed_none
    | some e => exact optFramed_some (framed_of_after e (accept_after e))
  | .PatternLikeOrIlikeExpr Expr Pattern isNot, v => by
    simp only [Accept]
    exact handlePatternLikeOrIlikeExpr_frame _ _ _ _ (framed_of_after Expr (accept_after Expr))
      (framed_of_after Pattern (accept_after Pattern)) (Frame.refl v)
  | .BetweenExpr Expr Left Right isNot, v => by
    simp only [Accept]
    exact handleBetweenExpr_frame _ _ _ _ (framed_of_after Expr (accept_after Expr))
      (framed_of_after Left (accept_after Left)) (framed_of_after Right (accept_after Right))
      (Frame.refl v)
  | .ParenthesesExpr Expr, v => by
    simp only [Accept]
    exact handleParenthesesExpr_frame _ (framed_of_after Expr (accept_after Expr))
      (Frame.refl v)
  | .CaseExpr Value WhenClauses ElseClause, v => by
    rw [accept_CaseExpr]
    refine handleCaseExpr_frame _ _ _ ?_ (acceptWhens_framed WhenClauses) ?_ (Frame.refl v)
    · cases Value with
      | none => exact optFramed_none
      | some e => exact optFramed_some (framed_of_after e (accept_after e))
    · cases ElseClause with
      | none => exact optFramed_none
      | some e => exact optFramed_some (framed_of_after e (accept_after e))
  | .CompareSubqueryExpr L op R All, v => by
    simp only [Accept]
    exact handleCompareSubqueryExpr_frame _ _ _ _ (framed_of_after L (accept_after L))
      (framed_of_after R (accept_after R)) (Frame.refl v)
  | .FuncCallExpr FnName Args, v => by
    simp only [Accept]
    exact handleFuncCallExpr_frame _ _ (acceptArgs_framed Args) (Frame.refl v)
  | .AggregateFuncExpr F Args Distinct, v => by
    simp only [Accept]
    exact aggregate_frame F _ Distinct (acceptList_framed Args) v
  | .UnaryOperationExpr op V, v => by
    simp only [Accept]
    exact handleUnaryOperationExpr_frame _ _ (framed_of_after V (accept_after V)) (Frame.refl v)
  | .TimeUnitExpr Unit, v => by
    simp only [Accept]
    exact Frame.refl v
  | .ByItem Expr Desc, v => by
    simp only [Accept]
    exact handleByItem_frame _ _ (framed_of_after Expr (accept_after Expr)) (Frame.refl v)
  | .Limit Count Offset, v => by
    rw [accept_Limit]
    refine handleLimit_frame _ _ (framed_of_after Count (accept_after Count)) ?_ (Frame.refl v)
    cases Offset with
    | none => exact optFramed_none
    | some e => exact optFramed_some (framed_of_after e (accept_after e))
  | .Assignment Column Expr, v => by
    simp only [Accept]
    exact handleAssignment_frame _ _ (framed_of_after Expr (accept_after Expr)) (Frame.refl v)
  | .ValuesExpr Column, v => by
    simp only [Accept]
    exact handleValuesExpr_frame _ (framed_of_after Column (accept_after Column)) (Frame.refl v)
  | .SubqueryExpr Query, v => by
    simp only [Accept]
    exact handleSubqueryExpr_frame _ (framed_of_after Query (accept_after Query)) (Frame.refl v)
  | .IsNullExpr Expr isNot, v => by
    simp only [Accept]
    exact handleIsNullExpr_frame _ _ (framed_of_after Expr (accept_after Expr)) (Frame.refl v)
  | .ExistsSubqueryExpr Sel isNot, v => by
    simp only [Accept]
    exact handleExistsSubqueryExpr_frame _ _ (framed_of_after Sel (accept_after Sel))
      (Frame.refl v)
  | .DefaultExpr Name, v => by
    simp only [Accept]
    exact handleDefaultExpr_frame Name (Frame.refl v)
  | .other kind children, v => by
    rw [accept_other]
    exact Frame.refl v
/-- The visits of the nodes of a list keep the frame. -/
theorem acceptList_framed : ∀ ns : List Node, ListFramed (acceptList ns)
  | [] => by
    intro f hf
    simp [acceptList] at hf
  | n :: ns => by
    intro f hf
    simp only [acceptList, List.mem_cons] at hf
    rcases hf with rfl | hf
    · exact framed_of_after n (accept_after n)
    · exact acceptList_framed ns f hf
/-- The visits of the arguments of a function call keep the frame. -/
theorem acceptArgs_framed : ∀ ns : List Node, ∀ a ∈ acceptArgs ns, Framed a.2
  | [] => by
    intro a ha
    simp [acceptArgs] at ha
  | n :: ns => by
    intro a ha
    simp only [acceptArgs, List.mem_cons] at ha
    rcases ha with rfl | ha
    · exact framed_of_after n (accept_after n)
    · exact acceptArgs_framed ns a ha
/-- The visits of the rows of a VALUES list keep the frame. -/
theorem acceptLists_framed : ∀ ls : List (List Node), ∀ l ∈ acceptLists ls, ListFramed l
  | [] => by
    intro l hl
    simp [acceptLists] at hl
  | r :: ls => by
    intro l hl
    simp only [acceptLists, List.mem_cons] at hl
    rcases hl with rfl | hl
    · exact acceptList_framed r
    · exact acceptLists_framed ls l hl
/-- The visits of the expressions of a SELECT list keep the frame. -/
theorem acceptFields_framed :
    ∀ fs : List (SelectField Node), ∀ sf ∈ acceptFields fs, OptFramed sf.Expr
  | [] => by
    intro sf hsf
    simp [acceptFields] at hsf
  | ⟨w, e, a⟩ :: fs => by
    intro sf hsf
    rw [acceptFields_cons, List.mem_cons] at hsf
    rcases hsf with rfl | hsf
    · cases e with
      | none => exact optFramed_none
      | some x => exact optFramed_some (framed_of_after x (accept_after x))
    · exact acceptFields_framed fs sf hsf
/-- The visits of the WHEN clauses of a CASE keep the frame. -/
theorem acceptWhens_framed :
    ∀ ws : List (Node × Node), ∀ c ∈ acceptWhens ws, Framed c.1 ∧ Framed c.2
  | [] => by
    intro c hc
    simp [acceptWhens] at hc
  | (a, b) :: ws => by
    intro c hc
    simp only [acceptWhens, List.mem_cons] at hc
    rcases hc with rfl | hc
    · exact ⟨framed_of_after a (accept_after a), framed_of_after b (accept_after b)⟩
    · exact acceptWhens_framed ws c hc
end

/-- Every visit keeps the frame. -/
theorem accept_framed (n : Node) : Framed (Accept n) :=
  framed_of_after n (accept_after n)

/-- A statement kind is never the unknown kind. -/
theorem stmtKind_ne_unknown (n : Node) (k : SQLOpType) (hk : n.stmtKind = some k) :
    k ≠ .SQLOperationUnknown := by
  cases n <;> simp [Node.stmtKind] at hk <;> subst hk <;> decide

/-- Visiting a statement node with no operation kind set yet ends with the kind of that
node. -/
theorem accept_stmt_opType (n : Node) (k : SQLOpType) (v : ExtractVisitor)
    (hk : n.stmtKind = some k) (hv : v.opType = .SQLOperationUnknown) :
    (Accept n v).opType = k := by
  have h := accept_after n v
  simp only [enterState, hk] at h
  have hset : (v.setOpType k).opType = k := by simp [ExtractVisitor.setOpType, hv]
  rw [h.opType (by rw [hset]; exact stmtKind_ne_unknown n k hk), hset]

/-- C16: every visit leaves an operation kind that is already set unchanged, so a
statement nested in another never overwrites it; visiting a statement node while no
kind is set ends with the kind of that node; and the operation kind extractOneStmt
returns, on a visitor that comes from the pool with no kind set, is the kind of the
top-level statement node. -/
theorem C16_operation_kind (n : Node) (v : ExtractVisitor) :
    (v.opType ≠ .SQLOperationUnknown → (Accept n v).opType = v.opType) ∧
    (∀ k, n.stmtKind = some k → v.opType = .SQLOperationUnknown → (Accept n v).opType = k) ∧
    (∀ (k : SQLOpType) (e : Extractor) (choice : Option Nat) (pv : PooledVisitor),
      n.stmtKind = some k → (e.poolGet choice).1 = .visitor pv →
      pv.opType = .SQLOperationUnknown → (extractOneStmt e choice n).2.opType = k) := by
  refine ⟨(accept_framed n v).opType, fun k hk hv => accept_stmt_opType n k v hk hv, ?_⟩
  intro k e choice pv hk hget hpv
  simp only [extractOneStmt, hget, Leave]
  exact accept_stmt_opType n k _ hk hpv

/-- C16 at `EXPLAIN SELECT * FROM t WHERE a IN (SELECT 1)`: the kind is EXPLAIN, and the
two SELECT statements nested in it leave it so. -/
theorem C16_operation_kind_witness :
    stmtExplainSelect.stmtKind = some .SQLOperationExplain ∧
    freshVisitor.opType = .SQLOperationUnknown ∧
    (Accept stmtExplainSelect freshVisitor).opType = .SQLOperationExplain ∧
    (extractOneStmt NewExtractor none stmtExplainSelect).2.opType = .SQLOperationExplain :=
  ⟨rfl, rfl, (C16_operation_kind stmtExplainSelect freshVisitor).2.1 _ rfl rfl,
    (C16_operation_kind stmtExplainSelect freshVisitor).2.2 _ NewExtractor none
      newPooledVisitor rfl (by decide) rfl⟩

/-- C20: visiting any node leaves the inside-aggregate flag equal to its value before
the visit (an aggregate function node restores it, also when nested in the arguments
of another); so it is false after every traversal that started with it false. -/
theorem C20_flag_restored (n : Node) (v : ExtractVisitor) :
    (Accept n v).inAggrFunc = v.inAggrFunc ∧
    (v.inAggrFunc = false → (Accept n v).inAggrFunc = false) :=
  ⟨(accept_framed n v).inAggrFunc, fun h => (accept_framed n v).inAggrFunc.trans h⟩

/-- C20 at `MAX(SUM(1))`, an aggregate nested in an aggregate, visited with the flag
false. -/
theorem C20_flag_restored_witness :
    freshVisitor.inAggrFunc = false ∧
    (Accept (.AggregateFuncExpr "MAX"
      [.AggregateFuncExpr "SUM" [.ValueExpr (.int64 1)] false] false) freshVisitor).inAggrFunc
      = false :=
  ⟨rfl, (C20_flag_restored _ freshVisitor).2 rfl⟩

/-! ### Shard-suffix normalizer -/

theorem splitOnP_append_sep {α : Type} (p : α → Bool) (sep : α) (hsep : p sep = true)
    (l r : List α) :
    (l ++ sep :: r).splitOnP p = l.splitOnP p ++ r.splitOnP p := by
  induction l with
  | nil => simp [List.splitOnP_cons, hsep, List.splitOnP_nil]
  | cons x l ih =>
    simp only [List.cons_append, List.splitOnP_cons, ih]
    by_cases hx : p x = true
    · simp [hx]
    · simp only [hx]
      cases hl : l.splitOnP p with
      | nil => exact absurd hl (List.splitOnP_ne_nil p l)
      | cons a as => simp [List.modifyHead]

theorem splitOn_append_last (l r : List Char) (hr : '_' ∉ r) :
    (l ++ '_' :: r).splitOn '_' = l.splitOn '_' ++ [r] := by
  unfold List.splitOn
  rw [splitOnP_append_sep _ '_' (by simp)]
  congr 1
  apply List.splitOnP_eq_single
  intro x hx hxe
  simp at hxe
  exact hr (hxe ▸ hx)


theorem mk_append_placeholder (q : List Char) :
    String.mk q ++ "_" ++ tablePlaceholder = String.mk (q ++ '_' :: ['?']) := by
  apply String.ext
  simp [String.data_append, tablePlaceholder]

/-- The method templateTable on an identifier whose text ends with `_` followed by a
segment without `_`: the result depends on whether that segment parses. -/
theorem templateTable_of_last (q r : List Char) (hr : '_' ∉ r) :
    templateTable (String.mk (q ++ '_' :: r)) =
      match Atoi (String.mk r) with
      | some _ => String.mk q ++ "_" ++ tablePlaceholder
      | none => String.mk (q ++ '_' :: r) := by
  have hne : ¬ (String.mk (q ++ '_' :: r) = "" ∨ ¬ '_' ∈ (String.mk (q ++ '_' :: r)).toList) := by
    intro h
    rcases h with h | h
    · have := congrArg String.data h
      simp at this
    · exact h (by simp [String.toList])
  unfold templateTable
  rw [if_neg hne]
  simp only [String.toList]
  rw [splitOn_append_last q r hr, List.getLastD_concat, List.dropLast_concat]
  simp only [joinUnderscore, List.intercalate_splitOn]
  all_goals (cases Atoi (String.mk r) <;> rfl)

theorem parseDigits_of_digits (cs : List Char) (h : ∀ c ∈ cs, c.isDigit = true) :
    parseDigits cs = some (decimalValue cs) := by
  have key : ∀ (l : List Char) (acc : Nat), (∀ c ∈ l, c.isDigit = true) →
      l.foldl (fun (a : Option Nat) c => match a with
        | none => none
        | some n => if c.isDigit then some (n * 10 + (c.toNat - 48)) else none) (some acc)
      = some (l.foldl (fun n c => n * 10 + (c.toNat - 48)) acc) := by
    intro l
    induction l with
    | nil => intro acc _; rfl
    | cons c l ih =>
      intro acc hl
      have hc : c.isDigit = true := hl c (List.mem_cons_self _ _)
      simp only [List.foldl_cons, hc, if_true]
      exact ih _ (fun x hx => hl x (List.mem_cons_of_mem _ hx))
  cases cs with
  | nil => rfl
  | cons c l => simpa [parseDigits, decimalValue] using key (c :: l) 0 h

theorem Atoi_of_digits (cs : List Char) (hne : cs ≠ []) (h : ∀ c ∈ cs, c.isDigit = true)
    (hval : decimalValue cs < 2 ^ 63) :
    Atoi (String.mk cs) = some (decimalValue cs : Int) := by
  cases cs with
  | nil => exact absurd rfl hne
  | cons c l =>
    have hc : c.isDigit = true := h c (List.mem_cons_self _ _)
    have hm : c ≠ '-' := by rintro rfl; exact absurd hc (by decide)
    have hp : c ≠ '+' := by rintro rfl; exact absurd hc (by decide)
    have hbody : Atoi.match_1 (fun _ => Bool × List Char) (c :: l) (fun r => (true, r))
        (fun r => (false, r)) (fun r => (false, r)) = (false, c :: l) := by
      split
      · rename_i r heq; simp at heq; exact absurd heq.1 hm
      · rename_i r heq; simp at heq; exact absurd heq.1 hp
      · rfl
    unfold Atoi
    simp only [String.toList, hbody]
    have h63 : (2 : Nat) ^ 63 = 9223372036854775808 := by norm_num
    simp [parseDigits_of_digits (c :: l) h]
    omega


/-- The method templateTable returns its argument or a text that ends with `_?`. -/
theorem templateTable_eq_or (x : String) :
    templateTable x = x ∨ ∃ q : List Char, templateTable x = String.mk (q ++ '_' :: ['?']) := by
  unfold templateTable
  by_cases hc : x = "" ∨ ¬ '_' ∈ x.toList
  · left; rw [if_pos hc]
  · rw [if_neg hc]
    dsimp only
    split
    · right; exact ⟨_, mk_append_placeholder _⟩
    · left; rfl

/-- C11 as stated fails: the digit string 9223372036854775808 is not replaced. -/
theorem C11_long_digit_suffix_unchanged :
    ("9223372036854775808" ≠ "" ∧ ∀ c ∈ "9223372036854775808".toList, c.isDigit = true) ∧
    templateTable ("t" ++ "_" ++ "9223372036854775808") = "t_9223372036854775808" ∧
    templateTable ("t" ++ "_" ++ "9223372036854775808") ≠ "t" ++ "_?" := by
  decide

/-- C11 as amended: for every identifier `p + "_" + d`, where `d` is a non-empty string
of decimal digits whose value is below 2^63 and `p` is any string, templateTable
returns `p + "_?"`. -/
theorem C11_numeric_suffix_replaced (p d : String) (hd : d ≠ "")
    (hdig : ∀ c ∈ d.toList, c.isDigit = true) (hval : decimalValue d.toList < 2 ^ 63) :
    templateTable (p ++ "_" ++ d) = p ++ "_?" := by
  have hform : p ++ "_" ++ d = String.mk (p.toList ++ '_' :: d.toList) := by
    apply String.ext
    simp [String.data_append, String.toList]
  have hne : d.toList ≠ [] := by
    intro h
    apply hd
    apply String.ext
    simpa [String.toList] using h
  have hsep : '_' ∉ d.toList := fun h => absurd (hdig '_' h) (by decide)
  rw [hform, templateTable_of_last _ _ hsep]
  have hmk : String.mk d.toList = d := rfl
  rw [Atoi_of_digits d.toList hne hdig hval]
  apply String.ext
  simp [String.data_append, String.toList, tablePlaceholder]

/-- C11 as amended, at `user_info_789`. -/
theorem C11_numeric_suffix_replaced_witness :
    "789" ≠ "" ∧ (∀ c ∈ "789".toList, c.isDigit = true) ∧ decimalValue "789".toList < 2 ^ 63 ∧
    templateTable ("user_info" ++ "_" ++ "789") = "user_info" ++ "_?" :=
  ⟨by decide, by decide, by decide,
    C11_numeric_suffix_replaced "user_info" "789" (by decide) (by decide) (by decide)⟩

/-- C12: templateTable returns its argument unchanged when the argument is empty, when
it contains no `_`, and when its final `_`-delimited segment does not parse as an
integer. -/
theorem C12_unchanged_otherwise (table : String)
    (h : table = "" ∨ '_' ∉ table.toList ∨ Atoi (lastSegment table) = none) :
    templateTable table = table := by
  unfold templateTable
  by_cases hc : table = "" ∨ ¬ '_' ∈ table.toList
  · rw [if_pos hc]
  · rw [if_neg hc]
    have hlast : Atoi (lastSegment table) = none := by
      rcases h with h | h | h
      · exact absurd (Or.inl h) hc
      · exact absurd (Or.inr h) hc
      · exact h
    unfold lastSegment at hlast
    simp only [hlast]

/-- C12 at `users_`, whose final segment is empty, at the empty identifier and at
`users`. -/
theorem C12_unchanged_otherwise_witness :
    (lastSegment "users_" = "" ∧ Atoi (lastSegment "users_") = none) ∧
    templateTable "users_" = "users_" ∧ templateTable "" = "" ∧
    templateTable "users" = "users" :=
  ⟨by decide, C12_unchanged_otherwise "users_" (Or.inr (Or.inr (by decide))),
    C12_unchanged_otherwise "" (Or.inl rfl),
    C12_unchanged_otherwise "users" (Or.inr (Or.inl (by decide)))⟩

/-- C13: shard normalization is idempotent. -/
theorem C13_templateTable_idempotent (x : String) :
    templateTable (templateTable x) = templateTable x := by
  rcases templateTable_eq_or x with h | ⟨q, h⟩
  · rw [h, h]
  · rw [h, templateTable_of_last q ['?'] (by decide)]
    have hq : Atoi (String.mk ['?']) = none := by decide
    rw [hq]

/-! ### Literals, table names and deduplication -/

theorem digitChar_ne_placeholder (n : Nat) (h : n < 10) : Nat.digitChar n ≠ '?' := by
  interval_cases n <;> decide

theorem toDigitsCore_no_placeholder (fuel : Nat) :
    ∀ (n : Nat) (acc : List Char), '?' ∉ acc → '?' ∉ Nat.toDigitsCore 10 fuel n acc := by
  induction fuel with
  | zero => intro n acc h; simpa [Nat.toDigitsCore] using h
  | succ fuel ih =>
    intro n acc h
    have hcons : '?' ∉ Nat.digitChar (n % 10) :: acc := by
      simp only [List.mem_cons, not_or]
      exact ⟨fun e => digitChar_ne_placeholder _ (Nat.mod_lt _ (by decide)) e.symm, h⟩
    simp only [Nat.toDigitsCore]
    split_ifs
    · exact hcons
    · exact ih _ _ hcons

theorem natRepr_no_placeholder (n : Nat) : '?' ∉ (toString n).toList := by
  show '?' ∉ (Nat.repr n).toList
  simp only [Nat.repr, Nat.toDigits, List.asString, String.toList]
  exact toDigitsCore_no_placeholder _ _ _ (by simp)

theorem intRepr_no_placeholder (i : Int) : '?' ∉ (toString i).toList := by
  cases i with
  | ofNat n => exact natRepr_no_placeholder n
  | negSucc n =>
    show '?' ∉ ("-" ++ toString (n + 1)).toList
    have := natRepr_no_placeholder (n + 1)
    simp only [String.toList, String.data_append, List.mem_append, not_or] at this ⊢
    exact ⟨by decide, this⟩

/-- C14: visiting a table-name node with raw schema `s` and raw table `t` appends
exactly one TableInfo with schema `s`, table name `t`, templatized schema
`templateTable s` and templatized table name `templateTable t`, writes
`templateTable s + "." + templateTable t` (only `templateTable t` when `s` is empty), and
leaves every other field, the parameter list included, as it was; for `db_1.t_42` the
reference is db_1, t_42, db_?, t_?. -/
theorem C14_handleTableName (Schema Name : String) (v : ExtractVisitor) :
    Accept (.TableName Schema Name) v =
      { v with
        builder := v.builder ++
          (if Schema = "" then templateTable Name
            else templateTable Schema ++ "." ++ templateTable Name),
        tableInfos := v.tableInfos ++
          [{ schema := Schema, tableName := Name, templatizedSchema := templateTable Schema,
             templatizedTableName := templateTable Name }] } ∧
    (Accept (.TableName "db_1" "t_42") freshVisitor).tableInfos
      = [{ schema := "db_1", tableName := "t_42", templatizedSchema := "db_?",
           templatizedTableName := "t_?" }] ∧
    (Accept (.TableName "db_1" "t_42") freshVisitor).builder = "db_?.t_?" := by
  refine ⟨?_, by decide, by decide⟩
  have h0 : templateTable "" = "" := by decide
  by_cases hs : Schema = ""
  · subst hs
    simp [Accept, handleTableName, ExtractVisitor.WriteString, NewTableInfo, h0]
  · simp [Accept, handleTableName, ExtractVisitor.WriteString, NewTableInfo, hs,
      String.append_assoc]

/-- C17: a literal value node visited while the inside-aggregate flag is false appends
the single token `?` to the template and the node's value, as it is, to the end of the
parameter list; the table list and the other fields are untouched. -/
theorem C17_value_outside_aggregate (value : Value) (v : ExtractVisitor)
    (h : v.inAggrFunc = false) :
    Accept (.ValueExpr value) v
      = { v with builder := v.builder ++ "?", params := v.params ++ [value] } := by
  simp [Accept, handleValueExpr, h, ExtractVisitor.WriteString, ExtractVisitor.appendParam]

/-- C17 at the literal 18 on a visitor as the pool makes it. -/
theorem C17_value_outside_aggregate_witness :
    freshVisitor.inAggrFunc = false ∧
    Accept (.ValueExpr (.int64 18)) freshVisitor
      = { freshVisitor with builder := freshVisitor.builder ++ "?",
                            params := freshVisitor.params ++ [.int64 18] } :=
  ⟨rfl, C17_value_outside_aggregate (.int64 18) freshVisitor rfl⟩

/-- C18: a literal value node visited while the inside-aggregate flag is true writes
its textual form, and nothing else, to the template and leaves the parameter list
unchanged; the text of an integer is its decimal numeral, which holds no `?`, the text
of a decimal is the decimal as the front end prints it; `COUNT(1)`, which the front
end builds for `COUNT(*)`, is written `COUNT(1)`, and `SUM(2.0)` keeps `2.0`. -/
theorem C18_value_inside_aggregate (value : Value) (v : ExtractVisitor)
    (h : v.inAggrFunc = true) :
    Accept (.ValueExpr value) v = { v with builder := v.builder ++ valueText value } ∧
    (Accept (.ValueExpr value) v).params = v.params ∧
    (∀ i : Int, valueText (.int64 i) = toString i ∧
      countPlaceholders (valueText (.int64 i)) = 0) ∧
    (∀ n : Nat, valueText (.uint64 n) = toString n ∧
      countPlaceholders (valueText (.uint64 n)) = 0) ∧
    (∀ text : String, valueText (.decimal text) = text) ∧
    (Accept (.AggregateFuncExpr "COUNT" [.ValueExpr (.int64 1)] false) freshVisitor).builder
      = "COUNT(1)" ∧
    (Accept (.AggregateFuncExpr "SUM" [.ValueExpr (.decimal "2.0")] false) freshVisitor).builder
      = "SUM(2.0)" := by
  refine ⟨?_, ?_, ?_, ?_, fun _ => rfl, by decide, by decide⟩
  · simp [Accept, handleValueExpr, h, ExtractVisitor.WriteString]
  · simp [Accept, handleValueExpr, h, ExtractVisitor.WriteString]
  · intro i
    exact ⟨rfl, List.count_eq_zero.mpr (intRepr_no_placeholder i)⟩
  · intro n
    exact ⟨rfl, List.count_eq_zero.mpr (natRepr_no_placeholder n)⟩

/-- C18 at the literal 1 on a visitor that is inside an aggregate. -/
theorem C18_value_inside_aggregate_witness :
    ({ freshVisitor with inAggrFunc := true } : ExtractVisitor).inAggrFunc = true ∧
    Accept (.ValueExpr (.int64 1)) { freshVisitor with inAggrFunc := true }
      = { freshVisitor with inAggrFunc := true, builder := "1" } :=
  ⟨rfl, by
    have h := (C18_value_inside_aggregate (.int64 1)
      { freshVisitor with inAggrFunc := true } rfl).1
    rw [h]
    decide⟩

/-- C19, the code at the failing inputs: inside the arguments of an aggregate the items
of an IN list, the value of an interval and the pattern of a LIKE are each written as
`?` and appended to the parameter list. -/
theorem C19_aggregate_arguments_placeholded :
    (Accept aggrSumIn freshVisitor).builder = "SUM(a IN (?, ?))" ∧
    (Accept aggrSumIn freshVisitor).params = [.int64 1, .int64 2] ∧
    (Accept aggrMaxInterval freshVisitor).builder = "MAX(DATE_ADD(d, INTERVAL ? DAY))" ∧
    (Accept aggrMaxInterval freshVisitor).params = [.int64 1] ∧
    (extractOneStmt NewExtractor none stmtSumLike).2.template
      = "SELECT SUM(name LIKE ?) FROM t" ∧
    stmtParams (extractOneStmt NewExtractor none stmtSumLike) = some [.string "a%"] := by
  decide

theorem uniqByAux_eq_keepFirstSeen {α : Type} (key : α → String) (xs : List α) :
    ∀ (seen : List String) (earlier : List α),
      (∀ k, k ∈ seen ↔ k ∈ earlier.map key) →
      uniqByAux key seen xs = keepFirstSeen key earlier xs := by
  induction xs with
  | nil => intro seen earlier _; rfl
  | cons x xs ih =>
    intro seen earlier h
    by_cases hx : key x ∈ seen
    · have hx' : key x ∈ earlier.map key := (h _).mp hx
      simp only [uniqByAux, keepFirstSeen, hx, hx', if_true]
      apply ih
      intro k
      rw [h k]
      simp only [List.map_append, List.map_cons, List.map_nil, List.mem_append,
        List.mem_singleton]
      constructor
      · exact Or.inl
      · rintro (hk | rfl)
        · exact hk
        · exact hx'
    · have hx' : key x ∉ earlier.map key := fun hk => hx ((h _).mpr hk)
      simp only [uniqByAux, keepFirstSeen, hx, hx', if_false]
      congr 1
      apply ih
      intro k
      simp only [List.mem_cons, List.map_append, List.map_cons, List.map_nil, List.mem_append,
        List.not_mem_nil, or_false, h k]
      exact or_comm

theorem UniqBy_eq_keepFirstSeen {α : Type} (key : α → String) (xs : List α) :
    UniqBy xs key = keepFirstSeen key [] xs :=
  uniqByAux_eq_keepFirstSeen key xs [] [] (by simp)

theorem uniqByAux_sublist {α : Type} (key : α → String) (xs : List α) :
    ∀ seen : List String, (uniqByAux key seen xs).Sublist xs := by
  induction xs with
  | nil => intro seen; simp [uniqByAux]
  | cons x xs ih =>
    intro seen
    by_cases hx : key x ∈ seen
    · simp only [uniqByAux, hx, if_true]
      exact (ih seen).cons x
    · simp only [uniqByAux, hx, if_false]
      exact (ih _).cons₂ x

theorem uniqByAux_keys {α : Type} (key : α → String) (xs : List α) :
    ∀ seen : List String,
      ((uniqByAux key seen xs).map key).Nodup ∧
      (∀ k ∈ (uniqByAux key seen xs).map key, k ∉ seen) ∧
      (∀ x ∈ xs, key x ∈ seen ∨ key x ∈ (uniqByAux key seen xs).map key) := by
  induction xs with
  | nil => intro seen; simp [uniqByAux]
  | cons x xs ih =>
    intro seen
    by_cases hx : key x ∈ seen
    · simp only [uniqByAux, hx, if_true]
      obtain ⟨h1, h2, h3⟩ := ih seen
      refine ⟨h1, h2, ?_⟩
      intro y hy
      rcases List.mem_cons.mp hy with rfl | hy
      · exact Or.inl hx
      · exact h3 y hy
    · simp only [uniqByAux, hx, if_false, List.map_cons]
      obtain ⟨h1, h2, h3⟩ := ih (key x :: seen)
      refine ⟨List.nodup_cons.mpr ⟨fun hk => h2 _ hk (List.mem_cons_self _ _), h1⟩, ?_, ?_⟩
      · intro k hk
        rcases List.mem_cons.mp hk with rfl | hk
        · exact hx
        · exact fun hs => h2 k hk (List.mem_cons_of_mem _ hs)
      · intro y hy
        rcases List.mem_cons.mp hy with rfl | hy
        · exact Or.inr (List.mem_cons_self _ _)
        · rcases h3 y hy with h | h
          · rcases List.mem_cons.mp h with h | h
            · exact Or.inr (h ▸ List.mem_cons_self _ _)
            · exact Or.inl h
          · exact Or.inr (List.mem_cons_of_mem _ h)

/-- C15: the table list extractOneStmt returns is the list of references collected
during the traversal without every reference whose key (schema + "." + table, or the
table alone when the schema is empty) an earlier reference has; its keys are pairwise
distinct, the key of every collected reference occurs in it, and it keeps the order of
the collected list. -/
theorem C15_tables_deduplicated (e : Extractor) (choice : Option Nat) (stmt : Node)
    (pv : PooledVisitor) (hget : (e.poolGet choice).1 = .visitor pv) :
    (extractOneStmt e choice stmt).2.tableInfos
      = some (keepFirstSeen tableKey []
          (visitorAfter (e.poolGet choice).2 pv stmt).tableInfos) ∧
    ((keepFirstSeen tableKey []
      (visitorAfter (e.poolGet choice).2 pv stmt).tableInfos).map tableKey).Nodup ∧
    (∀ t ∈ (visitorAfter (e.poolGet choice).2 pv stmt).tableInfos,
      tableKey t ∈ (keepFirstSeen tableKey []
        (visitorAfter (e.poolGet choice).2 pv stmt).tableInfos).map tableKey) ∧
    (keepFirstSeen tableKey []
      (visitorAfter (e.poolGet choice).2 pv stmt).tableInfos).Sublist
        (visitorAfter (e.poolGet choice).2 pv stmt).tableInfos := by
  rw [← UniqBy_eq_keepFirstSeen]
  obtain ⟨h1, _, h3⟩ := uniqByAux_keys tableKey
    (visitorAfter (e.poolGet choice).2 pv stmt).tableInfos []
  refine ⟨?_, h1, ?_, uniqByAux_sublist _ _ _⟩
  · simp only [extractOneStmt, hget, visitorAfter, Leave]
  · intro t ht
    rcases h3 t ht with h | h
    · simp at h
    · exact h

/-- C15 at `SELECT * FROM users AS u1 JOIN users AS u2` on a new extractor. -/
theorem C15_tables_deduplicated_witness :
    (NewExtractor.poolGet none).1 = .visitor newPooledVisitor ∧
    ((extractOneStmt NewExtractor none stmtSelfJoin).2.tableInfos
      = some (keepFirstSeen tableKey []
          (visitorAfter (NewExtractor.poolGet none).2 newPooledVisitor stmtSelfJoin).tableInfos) ∧
    ((keepFirstSeen tableKey []
      (visitorAfter (NewExtractor.poolGet none).2 newPooledVisitor stmtSelfJoin).tableInfos).map
        tableKey).Nodup ∧
    (∀ t ∈ (visitorAfter (NewExtractor.poolGet none).2 newPooledVisitor stmtSelfJoin).tableInfos,
      tableKey t ∈ (keepFirstSeen tableKey []
        (visitorAfter (NewExtractor.poolGet none).2 newPooledVisitor stmtSelfJoin).tableInfos).map
          tableKey) ∧
    (keepFirstSeen tableKey []
      (visitorAfter (NewExtractor.poolGet none).2 newPooledVisitor stmtSelfJoin).tableInfos).Sublist
        (visitorAfter (NewExtractor.poolGet none).2 newPooledVisitor stmtSelfJoin).tableInfos) :=
  ⟨by decide, C15_tables_deduplicated NewExtractor none stmtSelfJoin newPooledVisitor (by decide)⟩

/-! ### A visit does the same whatever was written before -/

theorem Shift.writeText {B : String} {P : List Value} {T : List TableInfo}
    {a b : ExtractVisitor} (s : String) (h : Shift B P T a b) :
    Shift B P T (a.WriteString s) (b.WriteString s) :=
  ⟨by simp [ExtractVisitor.WriteString, h.builder, String.append_assoc], h.params,
    h.tableInfos, h.inAggrFunc⟩

theorem Shift.addParam {B : String} {P : List Value} {T : List TableInfo}
    {a b : ExtractVisitor} (x : Value) (h : Shift B P T a b) :
    Shift B P T (a.appendParam x) (b.appendParam x) :=
  ⟨h.builder, by simp [ExtractVisitor.appendParam, h.params], h.tableInfos, h.inAggrFunc⟩

theorem Shift.setKind {B : String} {P : List Value} {T : List TableInfo}
    {a b : ExtractVisitor} (op : SQLOpType) (h : Shift B P T a b) :
    Shift B P T (a.setOpType op) (b.setOpType op) := by
  unfold ExtractVisitor.setOpType
  split <;> split <;> exact ⟨h.builder, h.params, h.tableInfos, h.inAggrFunc⟩

theorem Shift.cond {B : String} {P : List Value} {T : List TableInfo}
    {a₁ a₂ b₁ b₂ : ExtractVisitor} (c : Prop) [Decidable c]
    (h₁ : Shift B P T a₁ b₁) (h₂ : Shift B P T a₂ b₂) :
    Shift B P T (if c then a₁ else a₂) (if c then b₁ else b₂) := by
  split_ifs
  · exact h₁
  · exact h₂

theorem Shift.step {B : String} {P : List Value} {T : List TableInfo}
    {a b : ExtractVisitor} {f : Visit} (hf : Shifts f)
    (h : Shift B P T a b) : Shift B P T (f a) (f b) :=
  hf B P T a b h

theorem shift_foldl_sep (sep : String) (fs : List Visit) (hfs : ∀ f ∈ fs, Shifts f) :
    ∀ {B : String} {P : List Value} {T : List TableInfo} {a b : ExtractVisitor},
      Shift B P T a b →
      Shift B P T (fs.foldl (fun acc g => g (acc.WriteString sep)) a)
        (fs.foldl (fun acc g => g (acc.WriteString sep)) b) := by
  induction fs with
  | nil => intro B P T a b h; exact h
  | cons f fs ih =>
    intro B P T a b h
    simp only [List.foldl_cons]
    exact ih (fun g hg => hfs g (List.mem_cons_of_mem _ hg))
      ((h.writeText sep).step (hfs f (List.mem_cons_self _ _)))

theorem shift_forEachSep {B : String} {P : List Value} {T : List TableInfo}
    {a b : ExtractVisitor} (sep : String) (fs : List Visit)
    (hfs : ∀ f ∈ fs, Shifts f) (h : Shift B P T a b) :
    Shift B P T (forEachSep sep fs a) (forEachSep sep fs b) := by
  cases fs with
  | nil => exact h
  | cons f fs =>
    simp only [forEachSep]
    exact shift_foldl_sep sep fs (fun g hg => hfs g (List.mem_cons_of_mem _ hg))
      (h.step (hfs f (List.mem_cons_self _ _)))

theorem shift_visitOpt {B : String} {P : List Value} {T : List TableInfo}
    {a b : ExtractVisitor} (o : Option Visit) (ho : OptShifts o)
    (h : Shift B P T a b) : Shift B P T (visitOpt o a) (visitOpt o b) := by
  cases o with
  | none => exact h
  | some f => exact h.step (ho f rfl)

theorem shift_listClause {B : String} {P : List Value} {T : List TableInfo}
    {a b : ExtractVisitor} (keyword : String)
    (o : Option (List Visit)) (ho : OptListShifts o) (h : Shift B P T a b) :
    Shift B P T (listClause keyword o a) (listClause keyword o b) := by
  cases o with
  | none => exact h
  | some fs => exact shift_forEachSep ", " fs (ho fs rfl) (h.writeText keyword)

theorem shift_exprClause {B : String} {P : List Value} {T : List TableInfo}
    {a b : ExtractVisitor} (keyword : String) (o : Option Visit)
    (ho : OptShifts o) (h : Shift B P T a b) :
    Shift B P T (exprClause keyword o a) (exprClause keyword o b) := by
  cases o with
  | none => exact h
  | some f =>
    simp only [exprClause]
    exact (h.writeText keyword).step (ho f rfl)

theorem shift_tableRefsVisit {B : String} {P : List Value} {T : List TableInfo}
    {a b : ExtractVisitor} (o : Option (Option Visit))
    (ho : OptOptShifts o) (h : Shift B P T a b) :
    Shift B P T (tableRefsVisit o a) (tableRefsVisit o b) := by
  cases o with
  | none => exact h
  | some r =>
    cases r with
    | none => exact h
    | some j => exact h.step (ho (some j) rfl j rfl)

theorem handleColumnNameExpr_shift {B : String} {P : List Value} {T : List TableInfo}
    {a b : ExtractVisitor} (Name : ColumnName)
    (h : Shift B P T a b) :
    Shift B P T (handleColumnNameExpr Name a) (handleColumnNameExpr Name b) := by
  unfold handleColumnNameExpr
  exact h.writeText _

theorem handleValueExpr_shift {B : String} {P : List Value} {T : List TableInfo}
    {a b : ExtractVisitor} (value : Value)
    (h : Shift B P T a b) :
    Shift B P T (handleValueExpr value a) (handleValueExpr value b) := by
  unfold handleValueExpr
  rw [h.inAggrFunc]
  repeat' (first
    | assumption | apply Shift.writeText | apply Shift.addParam | apply Shift.setKind
    | apply Shift.cond | apply shift_forEachSep | apply shift_visitOpt | apply shift_listClause
    | apply shift_exprClause | apply shift_tableRefsVisit | split | apply Shift.step
    | solve_by_elim)

theorem handleBinaryOperationExpr_shift {B : String} {P : List Value} {T : List TableInfo}
    {a b : ExtractVisitor} (op : Op) (L R : Visit)
    (hL : Shifts L) (hR : Shifts R) (h : Shift B P T a b) :
    Shift B P T (handleBinaryOperationExpr op L R a) (handleBinaryOperationExpr op L R b) := by
  unfold handleBinaryOperationExpr
  repeat' (first
    | assumption | apply Shift.writeText | apply Shift.addParam | apply Shift.setKind
    | apply Shift.cond | apply shift_forEachSep | apply shift_visitOpt | apply shift_listClause
    | apply shift_exprClause | apply shift_tableRefsVisit | split | apply Shift.step
    | solve_by_elim)

theorem handleTableName_shift {B : String} {P : List Value} {T : List TableInfo}
    {a b : ExtractVisitor} (Schema Name : String)
    (h : Shift B P T a b) :
    Shift B P T (handleTableName Schema Name a) (handleTableName Schema Name b) := by
  unfold handleTableName
  by_cases hs : Schema = ""
  · simp only [hs, ne_eq, not_true_eq_false, if_false]
    exact ⟨by simp [ExtractVisitor.WriteString, h.builder, String.append_assoc], h.params,
      by simp [h.tableInfos], h.inAggrFunc⟩
  · simp only [hs, ne_eq, not_false_eq_true, if_true]
    exact ⟨by simp [ExtractVisitor.WriteString, h.builder, String.append_assoc], h.params,
      by simp [h.tableInfos], h.inAggrFunc⟩

theorem shift_patternVisit {B : String} {P : List Value} {T : List TableInfo}
    {a b : ExtractVisitor} (Pattern : Node)
    (acceptPattern : Visit) (hA : Shifts acceptPattern) (h : Shift B P T a b) :
    Shift B P T (patternVisit Pattern acceptPattern a)
      (patternVisit Pattern acceptPattern b) := by
  unfold patternVisit
  repeat' (first
    | assumption | apply Shift.writeText | apply Shift.addParam | apply Shift.setKind
    | apply Shift.cond | apply shift_forEachSep | apply shift_visitOpt | apply shift_listClause
    | apply shift_exprClause | apply shift_tableRefsVisit | split | apply Shift.step
    | solve_by_elim)

theorem appendTableName_shift {B : String} {P : List Value} {T : List TableInfo}
    {a b : ExtractVisitor} (table : String × String)
    (h : Shift B P T a b) :
    Shift B P T (appendTableName table a) (appendTableName table b) := by
  unfold appendTableName
  dsimp only
  repeat' (first
    | assumption | apply Shift.writeText | apply Shift.addParam | apply Shift.setKind
    | apply Shift.cond | apply shift_forEachSep | apply shift_visitOpt | apply shift_listClause
    | apply shift_exprClause | apply shift_tableRefsVisit | split | apply Shift.step
    | solve_by_elim)

theorem appendPatternAndWhere_shift {B : String} {P : List Value} {T : List TableInfo}
    {a b : ExtractVisitor}
    (Pattern : Option (Node × Visit)) (Where : Option Visit)
    (hP : ∀ p g, Pattern = some (p, g) → Shifts g) (hW : OptShifts Where)
    (h : Shift B P T a b) :
    Shift B P T (appendPatternAndWhere Pattern Where a)
      (appendPatternAndWhere Pattern Where b) := by
  unfold appendPatternAndWhere
  cases Pattern with
  | none =>
    dsimp only
    apply shift_exprClause _ _ hW
    repeat' (first
    | assumption | apply Shift.writeText | apply Shift.addParam | apply Shift.setKind
    | apply Shift.cond | apply shift_forEachSep | apply shift_visitOpt | apply shift_listClause
    | apply shift_exprClause | apply shift_tableRefsVisit | split | apply Shift.step
    | solve_by_elim)
  | some p =>
    obtain ⟨p, acceptP⟩ := p
    have hp : Shifts acceptP := hP p acceptP rfl
    dsimp only
    apply shift_exprClause _ _ hW
    apply shift_patternVisit _ _ hp
    repeat' (first
    | assumption | apply Shift.writeText | apply Shift.addParam | apply Shift.setKind
    | apply Shift.cond | apply shift_forEachSep | apply shift_visitOpt | apply shift_listClause
    | apply shift_exprClause | apply shift_tableRefsVisit | split | apply Shift.step
    | solve_by_elim)

theorem selectFieldVisit_shifts (f : SelectField Visit) (hf : OptShifts f.Expr) :
    Shifts (selectFieldVisit f) := by
  intro B P T a b h
  unfold selectFieldVisit
  repeat' (first
    | assumption | apply Shift.writeText | apply Shift.addParam | apply Shift.setKind
    | apply Shift.cond | apply shift_forEachSep | apply shift_visitOpt | apply shift_listClause
    | apply shift_exprClause | apply shift_tableRefsVisit | split | apply Shift.step
    | solve_by_elim)

theorem shifts_map_selectFieldVisit (fs : List (SelectField Visit))
    (hfs : ∀ sf ∈ fs, OptShifts sf.Expr) : ListShifts (fs.map selectFieldVisit) := by
  intro f hf
  obtain ⟨sf, hsf, rfl⟩ := List.mem_map.mp hf
  exact selectFieldVisit_shifts sf (hfs sf hsf)

theorem handleSelectStmt_shift {B : String} {P : List Value} {T : List TableInfo}
    {a b : ExtractVisitor} (Distinct : Bool)
    (Fields : Option (List (SelectField Visit))) (From : Option (Option Visit))
    (Where : Option Visit) (GroupBy : Option (List Visit)) (Having : Option (Option Visit))
    (OrderBy : Option (List Visit)) (Limit : Option Visit)
    (hFields : ∀ fs, Fields = some fs → ∀ sf ∈ fs, OptShifts sf.Expr)
    (hFrom : OptOptShifts From) (hWhere : OptShifts Where) (hGroupBy : OptListShifts GroupBy)
    (hHaving : OptOptShifts Having) (hOrderBy : OptListShifts OrderBy)
    (hLimit : OptShifts Limit) (h : Shift B P T a b) :
    Shift B P T (handleSelectStmt Distinct Fields From Where GroupBy Having OrderBy Limit a)
      (handleSelectStmt Distinct Fields From Where GroupBy Having OrderBy Limit b) := by
  unfold handleSelectStmt
  cases Fields with
  | none =>
    dsimp only
    repeat' (first
    | assumption | apply Shift.writeText | apply Shift.addParam | apply Shift.setKind
    | apply Shift.cond | apply shift_forEachSep | apply shift_visitOpt | apply shift_listClause
    | apply shift_exprClause | apply shift_tableRefsVisit | apply shift_patternVisit
    | apply handleColumnNameExpr_shift | apply appendTableName_shift
    | apply appendPatternAndWhere_shift | split | apply Shift.step | solve_by_elim)
  | some fs =>
    have hfs := shifts_map_selectFieldVisit fs (hFields fs rfl)
    dsimp only
    repeat' (first
    | assumption | apply Shift.writeText | apply Shift.addParam | apply Shift.setKind
    | apply Shift.cond | apply shift_forEachSep | apply shift_visitOpt | apply shift_listClause
    | apply shift_exprClause | apply shift_tableRefsVisit | apply shift_patternVisit
    | apply handleColumnNameExpr_shift | apply appendTableName_shift
    | apply appendPatternAndWhere_shift | split | apply Shift.step | solve_by_elim)

theorem handleInsertStmt_shift {B : String} {P : List Value} {T : List TableInfo}
    {a b : ExtractVisitor} (IgnoreErr : Bool)
    (Table : Option Visit) (Columns : List String) (Lists : Option (List (List Visit)))
    (Select : Option Visit) (OnDuplicate : Option (List Visit)) (hTable : OptShifts Table)
    (hLists : ∀ ls, Lists = some ls → ∀ l ∈ ls, ListShifts l) (hSelect : OptShifts Select)
    (hOnDuplicate : OptListShifts OnDuplicate) (h : Shift B P T a b) :
    Shift B P T (handleInsertStmt IgnoreErr Table Columns Lists Select OnDuplicate a)
      (handleInsertStmt IgnoreErr Table Columns Lists Select OnDuplicate b) := by
  have hcols : ListShifts (Columns.map (fun c (u : ExtractVisitor) => u.WriteString c)) := by
    intro f hf
    obtain ⟨c, _, rfl⟩ := List.mem_map.mp hf
    exact fun _ _ _ _ _ hu => hu.writeText c
  unfold handleInsertStmt
  cases Lists with
  | none =>
    dsimp only
    repeat' (first
    | assumption | apply Shift.writeText | apply Shift.addParam | apply Shift.setKind
    | apply Shift.cond | apply shift_forEachSep | apply shift_visitOpt | apply shift_listClause
    | apply shift_exprClause | apply shift_tableRefsVisit | apply shift_patternVisit
    | apply handleColumnNameExpr_shift | apply appendTableName_shift
    | apply appendPatternAndWhere_shift | split | apply Shift.step | solve_by_elim)
  | some lists =>
    have hrows : ListShifts (lists.map (fun l (u : ExtractVisitor) =>
        (forEachSep ", " l (u.WriteString "(")).WriteString ")")) := by
      intro f hf
      obtain ⟨l, hl, rfl⟩ := List.mem_map.mp hf
      exact fun _ _ _ _ _ hu => (shift_forEachSep ", " l (hLists lists rfl l hl)
        (hu.writeText "(")).writeText ")"
    dsimp only
    repeat' (first
    | assumption | apply Shift.writeText | apply Shift.addParam | apply Shift.setKind
    | apply Shift.cond | apply shift_forEachSep | apply shift_visitOpt | apply shift_listClause
    | apply shift_exprClause | apply shift_tableRefsVisit | apply shift_patternVisit
    | apply handleColumnNameExpr_shift | apply appendTableName_shift
    | apply appendPatternAndWhere_shift | split | apply Shift.step | solve_by_elim)

theorem handleUpdateStmt_shift {B : String} {P : List Value} {T : List TableInfo}
    {a b : ExtractVisitor} (TableRefs : Option (Option Visit))
    (List_ : List Visit) (Where : Option Visit) (Order : Option (List Visit))
    (Limit : Option Visit) (hTableRefs : OptOptShifts TableRefs) (hList : ListShifts List_)
    (hWhere : OptShifts Where) (hOrder : OptListShifts Order) (hLimit : OptShifts Limit)
    (h : Shift B P T a b) :
    Shift B P T (handleUpdateStmt TableRefs List_ Where Order Limit a)
      (handleUpdateStmt TableRefs List_ Where Order Limit b) := by
  unfold handleUpdateStmt
  dsimp only
  repeat' (first
    | assumption | apply Shift.writeText | apply Shift.addParam | apply Shift.setKind
    | apply Shift.cond | apply shift_forEachSep | apply shift_visitOpt | apply shift_listClause
    | apply shift_exprClause | apply shift_tableRefsVisit | apply shift_patternVisit
    | apply handleColumnNameExpr_shift | apply appendTableName_shift
    | apply appendPatternAndWhere_shift | split | apply Shift.step | solve_by_elim)

theorem handleDeleteStmt_shift {B : String} {P : List Value} {T : List TableInfo}
    {a b : ExtractVisitor} (Tables : Option (List Visit))
    (TableRefs : Option (Option Visit)) (Where : Option Visit) (Order : Option (List Visit))
    (Limit : Option Visit) (hTables : OptListShifts Tables)
    (hTableRefs : OptOptShifts TableRefs) (hWhere : OptShifts Where)
    (hOrder : OptListShifts Order) (hLimit : OptShifts Limit) (h : Shift B P T a b) :
    Shift B P T (handleDeleteStmt Tables TableRefs Where Order Limit a)
      (handleDeleteStmt Tables TableRefs Where Order Limit b) := by
  unfold handleDeleteStmt
  cases Tables with
  | none =>
    dsimp only
    repeat' (first
    | assumption | apply Shift.writeText | apply Shift.addParam | apply Shift.setKind
    | apply Shift.cond | apply shift_forEachSep | apply shift_visitOpt | apply shift_listClause
    | apply shift_exprClause | apply shift_tableRefsVisit | apply shift_patternVisit
    | apply handleColumnNameExpr_shift | apply appendTableName_shift
    | apply appendPatternAndWhere_shift | split | apply Shift.step | solve_by_elim)
  | some ts =>
    have hts : ListShifts ts := hTables ts rfl
    dsimp only
    repeat' (first
    | assumption | apply Shift.writeText | apply Shift.addParam | apply Shift.setKind
    | apply Shift.cond | apply shift_forEachSep | apply shift_visitOpt | apply shift_listClause
    | apply shift_exprClause | apply shift_tableRefsVisit | apply shift_patternVisit
    | apply handleColumnNameExpr_shift | apply appendTableName_shift
    | apply appendPatternAndWhere_shift | split | apply Shift.step | solve_by_elim)

theorem handleExplainStmt_shift {B : String} {P : List Value} {T : List TableInfo}
    {a b : ExtractVisitor} (Analyze : Bool) (Format : String)
    (Stmt : Option Visit) (hStmt : OptShifts Stmt) (h : Shift B P T a b) :
    Shift B P T (handleExplainStmt Analyze Format Stmt a)
      (handleExplainStmt Analyze Format Stmt b) := by
  unfold handleExplainStmt
  dsimp only
  repeat' (first
    | assumption | apply Shift.writeText | apply Shift.addParam | apply Shift.setKind
    | apply Shift.cond | apply shift_forEachSep | apply shift_visitOpt | apply shift_listClause
    | apply shift_exprClause | apply shift_tableRefsVisit | apply shift_patternVisit
    | apply handleColumnNameExpr_shift | apply appendTableName_shift
    | apply appendPatternAndWhere_shift | split | apply Shift.step | solve_by_elim)

theorem handleTableSource_shift {B : String} {P : List Value} {T : List TableInfo}
    {a b : ExtractVisitor} (Source : Node)
    (acceptSource : Visit) (AsName : String) (hA : Shifts acceptSource)
    (h : Shift B P T a b) :
    Shift B P T (handleTableSource Source acceptSource AsName a)
      (handleTableSource Source acceptSource AsName b) := by
  unfold handleTableSource logError
  cases Source <;> dsimp only <;> repeat' (first
    | assumption | apply Shift.writeText | apply Shift.addParam | apply Shift.setKind
    | apply Shift.cond | apply shift_forEachSep | apply shift_visitOpt | apply shift_listClause
    | apply shift_exprClause | apply shift_tableRefsVisit | apply shift_patternVisit
    | apply handleColumnNameExpr_shift | apply appendTableName_shift
    | apply appendPatternAndWhere_shift | split | apply Shift.step | solve_by_elim)

theorem handleJoin_shift {B : String} {P : List Value} {T : List TableInfo}
    {a b : ExtractVisitor} (Left Right : Option Visit)
    (Tp : JoinType) (On : Option Visit) (hLeft : OptShifts Left) (hRight : OptShifts Right)
    (hOn : OptShifts On) (h : Shift B P T a b) :
    Shift B P T (handleJoin Left Right Tp On a) (handleJoin Left Right Tp On b) := by
  unfold handleJoin
  cases Right with
  | none =>
    dsimp only
    repeat' (first
    | assumption | apply Shift.writeText | apply Shift.addParam | apply Shift.setKind
    | apply Shift.cond | apply shift_forEachSep | apply shift_visitOpt | apply shift_listClause
    | apply shift_exprClause | apply shift_tableRefsVisit | apply shift_patternVisit
    | apply handleColumnNameExpr_shift | apply appendTableName_shift
    | apply appendPatternAndWhere_shift | split | apply Shift.step | solve_by_elim)
  | some r =>
    have hr : Shifts r := hRight r rfl
    dsimp only
    repeat' (first
    | assumption | apply Shift.writeText | apply Shift.addParam | apply Shift.setKind
    | apply Shift.cond | apply shift_forEachSep | apply shift_visitOpt | apply shift_listClause
    | apply shift_exprClause | apply shift_tableRefsVisit | apply shift_patternVisit
    | apply handleColumnNameExpr_shift | apply appendTableName_shift
    | apply appendPatternAndWhere_shift | split | apply Shift.step | solve_by_elim)

theorem handlePatternLikeOrIlikeExpr_shift {B : String} {P : List Value} {T : List TableInfo}
    {a b : ExtractVisitor} (Expr : Visit)
    (Pattern : Node) (acceptPattern : Visit) (isNot : Bool) (hE : Shifts Expr)
    (hA : Shifts acceptPattern) (h : Shift B P T a b) :
    Shift B P T (handlePatternLikeOrIlikeExpr Expr Pattern acceptPattern isNot a)
      (handlePatternLikeOrIlikeExpr Expr Pattern acceptPattern isNot b) := by
  unfold handlePatternLikeOrIlikeExpr
  dsimp only
  repeat' (first
    | assumption | apply Shift.writeText | apply Shift.addParam | apply Shift.setKind
    | apply Shift.cond | apply shift_forEachSep | apply shift_visitOpt | apply shift_listClause
    | apply shift_exprClause | apply shift_tableRefsVisit | apply shift_patternVisit
    | apply handleColumnNameExpr_shift | apply appendTableName_shift
    | apply appendPatternAndWhere_shift | split | apply Shift.step | solve_by_elim)

theorem inListItem_shifts (item : Node) : Shifts (inListItem item) := by
  intro B P T a b h
  unfold inListItem
  dsimp only
  split
  · exact (h.writeText "?").addParam _
  · exact h.writeText "?"

theorem handlePatternInExpr_shift {B : String} {P : List Value} {T : List TableInfo}
    {a b : ExtractVisitor} (Expr : Visit)
    (List_ : List Node) (isNot : Bool) (Sel : Option Visit) (hE : Shifts Expr)
    (hSel : OptShifts Sel) (h : Shift B P T a b) :
    Shift B P T (handlePatternInExpr Expr List_ isNot Sel a)
      (handlePatternInExpr Expr List_ isNot Sel b) := by
  have hitems : ListShifts (List_.map inListItem) := by
    intro f hf
    obtain ⟨item, _, rfl⟩ := List.mem_map.mp hf
    exact inListItem_shifts item
  unfold handlePatternInExpr
  dsimp only
  repeat' (first
    | assumption | apply Shift.writeText | apply Shift.addParam | apply Shift.setKind
    | apply Shift.cond | apply shift_forEachSep | apply shift_visitOpt | apply shift_listClause
    | apply shift_exprClause | apply shift_tableRefsVisit | apply shift_patternVisit
    | apply handleColumnNameExpr_shift | apply appendTableName_shift
    | apply appendPatternAndWhere_shift | split | apply Shift.step | solve_by_elim)

theorem handleBetweenExpr_shift {B : String} {P : List Value} {T : List TableInfo}
    {a b : ExtractVisitor} (Expr Left Right : Visit)
    (isNot : Bool) (hE : Shifts Expr) (hL : Shifts Left) (hR : Shifts Right)
    (h : Shift B P T a b) :
    Shift B P T (handleBetweenExpr Expr Left Right isNot a)
      (handleBetweenExpr Expr Left Right isNot b) := by
  unfold handleBetweenExpr
  dsimp only
  repeat' (first
    | assumption | apply Shift.writeText | apply Shift.addParam | apply Shift.setKind
    | apply Shift.cond | apply shift_forEachSep | apply shift_visitOpt | apply shift_listClause
    | apply shift_exprClause | apply shift_tableRefsVisit | apply shift_patternVisit
    | apply handleColumnNameExpr_shift | apply appendTableName_shift
    | apply appendPatternAndWhere_shift | split | apply Shift.step | solve_by_elim)

theorem handleByItem_shift {B : String} {P : List Value} {T : List TableInfo}
    {a b : ExtractVisitor} (Expr : Visit) (Desc : Bool)
    (hE : Shifts Expr) (h : Shift B P T a b) :
    Shift B P T (handleByItem Expr Desc a) (handleByItem Expr Desc b) := by
  unfold handleByItem
  dsimp only
  repeat' (first
    | assumption | apply Shift.writeText | apply Shift.addParam | apply Shift.setKind
    | apply Shift.cond | apply shift_forEachSep | apply shift_visitOpt | apply shift_listClause
    | apply shift_exprClause | apply shift_tableRefsVisit | apply shift_patternVisit
    | apply handleColumnNameExpr_shift | apply appendTableName_shift
    | apply appendPatternAndWhere_shift | split | apply Shift.step | solve_by_elim)

theorem handleValuesExpr_shift {B : String} {P : List Value} {T : List TableInfo}
    {a b : ExtractVisitor} (Column : Visit)
    (hC : Shifts Column) (h : Shift B P T a b) :
    Shift B P T (handleValuesExpr Column a) (handleValuesExpr Column b) := by
  unfold handleValuesExpr
  repeat' (first
    | assumption | apply Shift.writeText | apply Shift.addParam | apply Shift.setKind
    | apply Shift.cond | apply shift_forEachSep | apply shift_visitOpt | apply shift_listClause
    | apply shift_exprClause | apply shift_tableRefsVisit | apply shift_patternVisit
    | apply handleColumnNameExpr_shift | apply appendTableName_shift
    | apply appendPatternAndWhere_shift | split | apply Shift.step | solve_by_elim)

theorem handleLimit_shift {B : String} {P : List Value} {T : List TableInfo}
    {a b : ExtractVisitor} (Count : Visit) (Offset : Option Visit)
    (hC : Shifts Count) (hO : OptShifts Offset) (h : Shift B P T a b) :
    Shift B P T (handleLimit Count Offset a) (handleLimit Count Offset b) := by
  unfold handleLimit
  cases Offset with
  | none =>
    dsimp only
    repeat' (first
    | assumption | apply Shift.writeText | apply Shift.addParam | apply Shift.setKind
    | apply Shift.cond | apply shift_forEachSep | apply shift_visitOpt | apply shift_listClause
    | apply shift_exprClause | apply shift_tableRefsVisit | apply shift_patternVisit
    | apply handleColumnNameExpr_shift | apply appendTableName_shift
    | apply appendPatternAndWhere_shift | split | apply Shift.step | solve_by_elim)
  | some o =>
    have ho : Shifts o := hO o rfl
    dsimp only
    repeat' (first
    | assumption | apply Shift.writeText | apply Shift.addParam | apply Shift.setKind
    | apply Shift.cond | apply shift_forEachSep | apply shift_visitOpt | apply shift_listClause
    | apply shift_exprClause | apply shift_tableRefsVisit | apply shift_patternVisit
    | apply handleColumnNameExpr_shift | apply appendTableName_shift
    | apply appendPatternAndWhere_shift | split | apply Shift.step | solve_by_elim)

theorem handleSubqueryExpr_shift {B : String} {P : List Value} {T : List TableInfo}
    {a b : ExtractVisitor} (Query : Visit)
    (hQ : Shifts Query) (h : Shift B P T a b) :
    Shift B P T (handleSubqueryExpr Query a) (handleSubqueryExpr Query b) := by
  unfold handleSubqueryExpr
  repeat' (first
    | assumption | apply Shift.writeText | apply Shift.addParam | apply Shift.setKind
    | apply Shift.cond | apply shift_forEachSep | apply shift_visitOpt | apply shift_listClause
    | apply shift_exprClause | apply shift_tableRefsVisit | apply shift_patternVisit
    | apply handleColumnNameExpr_shift | apply appendTableName_shift
    | apply appendPatternAndWhere_shift | split | apply Shift.step | solve_by_elim)

theorem handleOnCondition_shift {B : String} {P : List Value} {T : List TableInfo}
    {a b : ExtractVisitor} (Expr : Visit)
    (hE : Shifts Expr) (h : Shift B P T a b) :
    Shift B P T (handleOnCondition Expr a) (handleOnCondition Expr b) := by
  unfold handleOnCondition
  repeat' (first
    | assumption | apply Shift.writeText | apply Shift.addParam | apply Shift.setKind
    | apply Shift.cond | apply shift_forEachSep | apply shift_visitOpt | apply shift_listClause
    | apply shift_exprClause | apply shift_tableRefsVisit | apply shift_patternVisit
    | apply handleColumnNameExpr_shift | apply appendTableName_shift
    | apply appendPatternAndWhere_shift | split | apply Shift.step | solve_by_elim)

theorem handleAssignment_shift {B : String} {P : List Value} {T : List TableInfo}
    {a b : ExtractVisitor} (Column : ColumnName)
    (Expr : Visit) (hE : Shifts Expr) (h : Shift B P T a b) :
    Shift B P T (handleAssignment Column Expr a) (handleAssignment Column Expr b) := by
  unfold handleAssignment
  repeat' (first
    | assumption | apply Shift.writeText | apply Shift.addParam | apply Shift.setKind
    | apply Shift.cond | apply shift_forEachSep | apply shift_visitOpt | apply shift_listClause
    | apply shift_exprClause | apply shift_tableRefsVisit | apply shift_patternVisit
    | apply handleColumnNameExpr_shift | apply appendTableName_shift
    | apply appendPatternAndWhere_shift | split | apply Shift.step | solve_by_elim)

theorem handleAggregateFuncExpr_shift {B : String} {P : List Value} {T : List TableInfo}
    {a b : ExtractVisitor} (F : String)
    (Args : List Visit) (Distinct : Bool) (hArgs : ListShifts Args) (h : Shift B P T a b) :
    Shift B P T (handleAggregateFuncExpr F Args Distinct a)
      (handleAggregateFuncExpr F Args Distinct b) := by
  unfold handleAggregateFuncExpr
  dsimp only
  repeat' (first
    | assumption | apply Shift.writeText | apply Shift.addParam | apply Shift.setKind
    | apply Shift.cond | apply shift_forEachSep | apply shift_visitOpt | apply shift_listClause
    | apply shift_exprClause | apply shift_tableRefsVisit | apply shift_patternVisit
    | apply handleColumnNameExpr_shift | apply appendTableName_shift
    | apply appendPatternAndWhere_shift | split | apply Shift.step | solve_by_elim)

theorem shift_whenClauses (ws : List (Visit × Visit))
    (hws : ∀ c ∈ ws, Shifts c.1 ∧ Shifts c.2) :
    ∀ {B : String} {P : List Value} {T : List TableInfo} {a b : ExtractVisitor},
      Shift B P T a b →
      Shift B P T
        (ws.foldl
          (fun acc c => c.2 ((c.1 (acc.WriteString " WHEN ")).WriteString " THEN ")) a)
        (ws.foldl
          (fun acc c => c.2 ((c.1 (acc.WriteString " WHEN ")).WriteString " THEN ")) b) := by
  induction ws with
  | nil => intro B P T a b h; exact h
  | cons c ws ih =>
    intro B P T a b h
    simp only [List.foldl_cons]
    have hc := hws c (List.mem_cons_self _ _)
    exact ih (fun d hd => hws d (List.mem_cons_of_mem _ hd))
      ((((h.writeText " WHEN ").step hc.1).writeText " THEN ").step hc.2)

theorem handleCaseExpr_shift {B : String} {P : List Value} {T : List TableInfo}
    {a b : ExtractVisitor} (Value : Option Visit)
    (WhenClauses : List (Visit × Visit)) (ElseClause : Option Visit) (hV : OptShifts Value)
    (hW : ∀ c ∈ WhenClauses, Shifts c.1 ∧ Shifts c.2) (hE : OptShifts ElseClause)
    (h : Shift B P T a b) :
    Shift B P T (handleCaseExpr Value WhenClauses ElseClause a)
      (handleCaseExpr Value WhenClauses ElseClause b) := by
  unfold handleCaseExpr
  dsimp only
  apply Shift.writeText
  apply shift_exprClause _ _ hE
  apply shift_whenClauses _ hW
  repeat' (first
    | assumption | apply Shift.writeText | apply Shift.addParam | apply Shift.setKind
    | apply Shift.cond | apply shift_forEachSep | apply shift_visitOpt | apply shift_listClause
    | apply shift_exprClause | apply shift_tableRefsVisit | apply shift_patternVisit
    | apply handleColumnNameExpr_shift | apply appendTableName_shift
    | apply appendPatternAndWhere_shift | split | apply Shift.step | solve_by_elim)

theorem handleParenthesesExpr_shift {B : String} {P : List Value} {T : List TableInfo}
    {a b : ExtractVisitor} (Expr : Visit)
    (hE : Shifts Expr) (h : Shift B P T a b) :
    Shift B P T (handleParenthesesExpr Expr a) (handleParenthesesExpr Expr b) := by
  unfold handleParenthesesExpr
  repeat' (first
    | assumption | apply Shift.writeText | apply Shift.addParam | apply Shift.setKind
    | apply Shift.cond | apply shift_forEachSep | apply shift_visitOpt | apply shift_listClause
    | apply shift_exprClause | apply shift_tableRefsVisit | apply shift_patternVisit
    | apply handleColumnNameExpr_shift | apply appendTableName_shift
    | apply appendPatternAndWhere_shift | split | apply Shift.step | solve_by_elim)

theorem funcCallArgs_shift (args : List (Node × Visit)) (hargs : ∀ x ∈ args, Shifts x.2) :
    ∀ (prev : Option Node) {B : String} {P : List Value} {T : List TableInfo}
        {a b : ExtractVisitor}, Shift B P T a b →
      Shift B P T (funcCallArgs prev args a) (funcCallArgs prev args b) := by
  induction args with
  | nil => intro prev B P T a b h; simpa [funcCallArgs] using h
  | cons x rest ih =>
    intro prev B P T a b h
    obtain ⟨arg, acceptArg⟩ := x
    have hA : Shifts acceptArg := hargs (arg, acceptArg) (List.mem_cons_self _ _)
    have ih' : ∀ (p : Option Node) {B : String} {P : List Value} {T : List TableInfo}
        {a b : ExtractVisitor}, Shift B P T a b →
        Shift B P T (funcCallArgs p rest a) (funcCallArgs p rest b) :=
      ih (fun x hx => hargs x (List.mem_cons_of_mem _ hx))
    simp only [funcCallArgs]
    repeat' (first
      | assumption | apply ih' | apply Shift.writeText
      | apply Shift.addParam | apply Shift.cond | apply Shift.step | split)

theorem handleFuncCallExpr_shift {B : String} {P : List Value} {T : List TableInfo}
    {a b : ExtractVisitor} (FnName : String)
    (Args : List (Node × Visit)) (hArgs : ∀ x ∈ Args, Shifts x.2) (h : Shift B P T a b) :
    Shift B P T (handleFuncCallExpr FnName Args a) (handleFuncCallExpr FnName Args b) := by
  unfold handleFuncCallExpr
  apply Shift.writeText
  apply funcCallArgs_shift _ hArgs
  repeat' (first
    | assumption | apply Shift.writeText | apply Shift.addParam | apply Shift.setKind
    | apply Shift.cond | apply shift_forEachSep | apply shift_visitOpt | apply shift_listClause
    | apply shift_exprClause | apply shift_tableRefsVisit | apply shift_patternVisit
    | apply handleColumnNameExpr_shift | apply appendTableName_shift
    | apply appendPatternAndWhere_shift | split | apply Shift.step | solve_by_elim)

theorem handleUnaryOperationExpr_shift {B : String} {P : List Value} {T : List TableInfo}
    {a b : ExtractVisitor} (op : Op) (V : Visit)
    (hV : Shifts V) (h : Shift B P T a b) :
    Shift B P T (handleUnaryOperationExpr op V a) (handleUnaryOperationExpr op V b) := by
  unfold handleUnaryOperationExpr
  repeat' (first
    | assumption | apply Shift.writeText | apply Shift.addParam | apply Shift.setKind
    | apply Shift.cond | apply shift_forEachSep | apply shift_visitOpt | apply shift_listClause
    | apply shift_exprClause | apply shift_tableRefsVisit | apply shift_patternVisit
    | apply handleColumnNameExpr_shift | apply appendTableName_shift
    | apply appendPatternAndWhere_shift | split | apply Shift.step | solve_by_elim)

theorem handleIsNullExpr_shift {B : String} {P : List Value} {T : List TableInfo}
    {a b : ExtractVisitor} (Expr : Visit) (isNot : Bool)
    (hE : Shifts Expr) (h : Shift B P T a b) :
    Shift B P T (handleIsNullExpr Expr isNot a) (handleIsNullExpr Expr isNot b) := by
  unfold handleIsNullExpr
  dsimp only
  repeat' (first
    | assumption | apply Shift.writeText | apply Shift.addParam | apply Shift.setKind
    | apply Shift.cond | apply shift_forEachSep | apply shift_visitOpt | apply shift_listClause
    | apply shift_exprClause | apply shift_tableRefsVisit | apply shift_patternVisit
    | apply handleColumnNameExpr_shift | apply appendTableName_shift
    | apply appendPatternAndWhere_shift | split | apply Shift.step | solve_by_elim)

theorem handleExistsSubqueryExpr_shift {B : String} {P : List Value} {T : List TableInfo}
    {a b : ExtractVisitor} (Sel : Visit)
    (isNot : Bool) (hS : Shifts Sel) (h : Shift B P T a b) :
    Shift B P T (handleExistsSubqueryExpr Sel isNot a)
      (handleExistsSubqueryExpr Sel isNot b) := by
  unfold handleExistsSubqueryExpr
  dsimp only
  repeat' (first
    | assumption | apply Shift.writeText | apply Shift.addParam | apply Shift.setKind
    | apply Shift.cond | apply shift_forEachSep | apply shift_visitOpt | apply shift_listClause
    | apply shift_exprClause | apply shift_tableRefsVisit | apply shift_patternVisit
    | apply handleColumnNameExpr_shift | apply appendTableName_shift
    | apply appendPatternAndWhere_shift | split | apply Shift.step | solve_by_elim)

theorem handleDefaultExpr_shift {B : String} {P : List Value} {T : List TableInfo}
    {a b : ExtractVisitor} (Name : Option String)
    (h : Shift B P T a b) :
    Shift B P T (handleDefaultExpr Name a) (handleDefaultExpr Name b) := by
  unfold handleDefaultExpr
  cases Name <;> dsimp only <;> repeat' (first
    | assumption | apply Shift.writeText | apply Shift.addParam | apply Shift.setKind
    | apply Shift.cond | apply shift_forEachSep | apply shift_visitOpt | apply shift_listClause
    | apply shift_exprClause | apply shift_tableRefsVisit | apply shift_patternVisit
    | apply handleColumnNameExpr_shift | apply appendTableName_shift
    | apply appendPatternAndWhere_shift | split | apply Shift.step | solve_by_elim)

theorem handleCompareSubqueryExpr_shift {B : String} {P : List Value} {T : List TableInfo}
    {a b : ExtractVisitor} (L : Visit) (op : Op)
    (R : Visit) (All : Bool) (hL : Shifts L) (hR : Shifts R) (h : Shift B P T a b) :
    Shift B P T (handleCompareSubqueryExpr L op R All a)
      (handleCompareSubqueryExpr L op R All b) := by
  unfold handleCompareSubqueryExpr
  dsimp only
  repeat' (first
    | assumption | apply Shift.writeText | apply Shift.addParam | apply Shift.setKind
    | apply Shift.cond | apply shift_forEachSep | apply shift_visitOpt | apply shift_listClause
    | apply shift_exprClause | apply shift_tableRefsVisit | apply shift_patternVisit
    | apply handleColumnNameExpr_shift | apply appendTableName_shift
    | apply appendPatternAndWhere_shift | split | apply Shift.step | solve_by_elim)

theorem handleShowStmt_shift {B : String} {P : List Value} {T : List TableInfo}
    {a b : ExtractVisitor} (Tp : ShowStmtType)
    (Table : Option (String × String)) (DBName : String) (IfNotExists Full : Bool)
    (Pattern : Option (Node × Visit)) (Where : Option Visit) (Limit : Option Visit)
    (hP : ∀ p g, Pattern = some (p, g) → Shifts g) (hW : OptShifts Where)
    (hL : OptShifts Limit) (h : Shift B P T a b) :
    Shift B P T (handleShowStmt Tp Table DBName IfNotExists Full Pattern Where Limit a)
      (handleShowStmt Tp Table DBName IfNotExists Full Pattern Where Limit b) := by
  unfold handleShowStmt logError
  cases Tp <;> cases Table <;> dsimp only <;> repeat' (first
    | assumption | apply Shift.writeText | apply Shift.addParam | apply Shift.setKind
    | apply Shift.cond | apply shift_forEachSep | apply shift_visitOpt | apply shift_listClause
    | apply shift_exprClause | apply shift_tableRefsVisit | apply shift_patternVisit
    | apply handleColumnNameExpr_shift | apply appendTableName_shift
    | apply appendPatternAndWhere_shift | split | apply Shift.step | solve_by_elim)

theorem optShifts_none : OptShifts none := fun _ h => nomatch h

theorem optShifts_some {g : Visit} (h : Shifts g) : OptShifts (some g) :=
  fun f hf => by cases hf; exact h

theorem optOptShifts_none : OptOptShifts none := fun _ h => nomatch h

theorem optOptShifts_some {r : Option Visit} (h : OptShifts r) : OptOptShifts (some r) :=
  fun f hf => by cases hf; exact h

theorem optListShifts_none : OptListShifts none := fun _ h => nomatch h

theorem optListShifts_some {l : List Visit} (h : ListShifts l) : OptListShifts (some l) :=
  fun f hf => by cases hf; exact h

theorem aggregate_shift {B : String} {P : List Value} {T : List TableInfo}
    {a b : ExtractVisitor} (F : String) (Args : List Visit)
    (Distinct : Bool) (hArgs : ListShifts Args) (h : Shift B P T a b) :
    Shift B P T
      { handleAggregateFuncExpr F Args Distinct { a with inAggrFunc := true } with
        inAggrFunc := a.inAggrFunc }
      { handleAggregateFuncExpr F Args Distinct { b with inAggrFunc := true } with
        inAggrFunc := b.inAggrFunc } := by
  have hu : Shift B P T
      (handleAggregateFuncExpr F Args Distinct { a with inAggrFunc := true })
      (handleAggregateFuncExpr F Args Distinct { b with inAggrFunc := true }) :=
    handleAggregateFuncExpr_shift F Args Distinct hArgs
      ⟨h.builder, h.params, h.tableInfos, rfl⟩
  exact ⟨hu.builder, hu.params, hu.tableInfos, h.inAggrFunc⟩

mutual
/-- Every visit does the same whatever was written, recorded and collected before. -/
theorem accept_shift : ∀ (n : Node) {B : String} {P : List Value} {T : List TableInfo}
    (a b : ExtractVisitor), Shift B P T a b →
    Shift B P T (Accept n a) (Accept n b)
  | .ColumnNameExpr Name, _, _, _, a, b, h => by
    simp only [Accept]
    exact handleColumnNameExpr_shift Name h
  | .ValueExpr value, _, _, _, a, b, h => by
    simp only [Accept]
    exact handleValueExpr_shift value h
  | .BinaryOperationExpr op L R, _, _, _, a, b, h => by
    simp only [Accept]
    exact handleBinaryOperationExpr_shift op _ _ (fun _ _ _ => accept_shift L)
      (fun _ _ _ => accept_shift R) h
  | .TableName Schema Name, _, _, _, a, b, h => by
    simp only [Accept]
    exact handleTableName_shift Schema Name h
  | .SelectStmt Distinct Fields From Where GroupBy Having OrderBy Limit, _, _, _, a, b, h => by
    simp only [accept_SelectStmt]
    refine handleSelectStmt_shift _ _ _ _ _ _ _ _ ?_ ?_ ?_ ?_ ?_ ?_ ?_ h
    · cases Fields with
      | none => exact fun _ h => nomatch h
      | some fs => exact fun _ h => by cases h; exact acceptFields_shifts fs
    · cases From with
      | none => exact optOptShifts_none
      | some o =>
        cases o with
        | none => exact optOptShifts_some optShifts_none
        | some j =>
          exact optOptShifts_some (optShifts_some (fun _ _ _ => accept_shift j))
    · cases Where with
      | none => exact optShifts_none
      | some e => exact optShifts_some (fun _ _ _ => accept_shift e)
    · cases GroupBy with
      | none => exact optListShifts_none
      | some l => exact optListShifts_some (acceptList_shifts l)
    · cases Having with
      | none => exact optOptShifts_none
      | some o =>
        cases o with
        | none => exact optOptShifts_some optShifts_none
        | some j =>
          exact optOptShifts_some (optShifts_some (fun _ _ _ => accept_shift j))
    · cases OrderBy with
      | none => exact optListShifts_none
      | some l => exact optListShifts_some (acceptList_shifts l)
    · cases Limit with
      | none => exact optShifts_none
      | some e => exact optShifts_some (fun _ _ _ => accept_shift e)
  | .InsertStmt IgnoreErr Table Columns Lists Select OnDuplicate, _, _, _, a, b, h => by
    simp only [accept_InsertStmt]
    refine handleInsertStmt_shift _ _ _ _ _ _ ?_ ?_ ?_ ?_ h
    · cases Table with
      | none => exact optShifts_none
      | some e => exact optShifts_some (fun _ _ _ => accept_shift e)
    · cases Lists with
      | none => exact fun _ h => nomatch h
      | some ls => exact fun _ h => by cases h; exact acceptLists_shifts ls
    · cases Select with
      | none => exact optShifts_none
      | some e => exact optShifts_some (fun _ _ _ => accept_shift e)
    · cases OnDuplicate with
      | none => exact optListShifts_none
      | some l => exact optListShifts_some (acceptList_shifts l)
  | .UpdateStmt TableRefs List_ Where Order Limit, _, _, _, a, b, h => by
    simp only [accept_UpdateStmt]
    refine handleUpdateStmt_shift _ _ _ _ _ ?_ (acceptList_shifts List_) ?_ ?_ ?_ h
    · cases TableRefs with
      | none => exact optOptShifts_none
      | some o =>
        cases o with
        | none => exact optOptShifts_some optShifts_none
        | some j =>
          exact optOptShifts_some (optShifts_some (fun _ _ _ => accept_shift j))
    · cases Where with
      | none => exact optShifts_none
      | some e => exact optShifts_some (fun _ _ _ => accept_shift e)
    · cases Order with
      | none => exact optListShifts_none
      | some l => exact optListShifts_some (acceptList_shifts l)
    · cases Limit with
      | none => exact optShifts_none
      | some e => exact optShifts_some (fun _ _ _ => accept_shift e)
  | .DeleteStmt Tables TableRefs Where Order Limit, _, _, _, a, b, h => by
    simp only [accept_DeleteStmt]
    refine handleDeleteStmt_shift _ _ _ _ _ ?_ ?_ ?_ ?_ ?_ h
    · cases Tables with
      | none => exact optListShifts_none
      | some l => exact optListShifts_some (acceptList_shifts l)
    · cases TableRefs with
      | none => exact optOptShifts_none
      | some o =>
        cases o with
        | none => exact optOptShifts_some optShifts_none
        | some j =>
          exact optOptShifts_some (optShifts_some (fun _ _ _ => accept_shift j))
    · cases Where with
      | none => exact optShifts_none
      | some e => exact optShifts_some (fun _ _ _ => accept_shift e)
    · cases Order with
      | none => exact optListShifts_none
      | some l => exact optListShifts_some (acceptList_shifts l)
    · cases Limit with
      | none => exact optShifts_none
      | some e => exact optShifts_some (fun _ _ _ => accept_shift e)
  | .ExplainStmt Analyze Format Stmt, _, _, _, a, b, h => by
    simp only [accept_ExplainStmt]
    refine handleExplainStmt_shift _ _ _ ?_ h
    cases Stmt with
    | none => exact optShifts_none
    | some e => exact optShifts_some (fun _ _ _ => accept_shift e)
  | .ShowStmt Tp Table DBName IfNotExists Full Pattern Where Limit, _, _, _, a, b, h => by
    simp only [accept_ShowStmt]
    refine handleShowStmt_shift _ _ _ _ _ _ _ _ ?_ ?_ ?_ h
    · cases Pattern with
      | none => exact fun _ _ h => nomatch h
      | some p => exact fun _ _ h => by cases h; exact fun _ _ _ => accept_shift p
    · cases Where with
      | none => exact optShifts_none
      | some e => exact optShifts_some (fun _ _ _ => accept_shift e)
    · cases Limit with
      | none => exact optShifts_none
      | some e => exact optShifts_some (fun _ _ _ => accept_shift e)
  | .TableSource Source AsName, _, _, _, a, b, h => by
    simp only [Accept]
    exact handleTableSource_shift Source _ AsName (fun _ _ _ => accept_shift Source) h
  | .Join Left Right Tp On, _, _, _, a, b, h => by
    simp only [accept_Join]
    refine handleJoin_shift _ _ _ _ ?_ ?_ ?_ h
    · cases Left with
      | none => exact optShifts_none
      | some e => exact optShifts_some (fun _ _ _ => accept_shift e)
    · cases Right with
      | none => exact optShifts_none
      | some e => exact optShifts_some (fun _ _ _ => accept_shift e)
    · cases On with
      | none => exact optShifts_none
      | some e => exact optShifts_some (fun _ _ _ => accept_shift e)
  | .OnCondition Expr, _, _, _, a, b, h => by
    simp only [Accept]
    exact handleOnCondition_shift _ (fun _ _ _ => accept_shift Expr) h
  | .PatternInExpr Expr List_ isNot Sel, _, _, _, a, b, h => by
    simp only [accept_PatternInExpr]
    refine handlePatternInExpr_shift _ _ _ _ (fun _ _ _ => accept_shift Expr) ?_ h
    cases Sel with
    | none => exact optShifts_none
    | some e => exact optShifts_some (fun _ _ _ => accept_shift e)
  | .PatternLikeOrIlikeExpr Expr Pattern isNot, _, _, _, a, b, h => by
    simp only [Accept]
    exact handlePatternLikeOrIlikeExpr_shift _ _ _ _ (fun _ _ _ => accept_shift Expr)
      (fun _ _ _ => accept_shift Pattern) h
  | .BetweenExpr Expr Left Right isNot, _, _, _, a, b, h => by
    simp only [Accept]
    exact handleBetweenExpr_shift _ _ _ _ (fun _ _ _ => accept_shift Expr)
      (fun _ _ _ => accept_shift Left) (fun _ _ _ => accept_shift Right) h
  | .ParenthesesExpr Expr, _, _, _, a, b, h => by
    simp only [Accept]
    exact handleParenthesesExpr_shift _ (fun _ _ _ => accept_shift Expr) h
  | .CaseExpr Value WhenClauses ElseClause, _, _, _, a, b, h => by
    simp only [accept_CaseExpr]
    refine handleCaseExpr_shift _ _ _ ?_ (acceptWhens_shifts WhenClauses) ?_ h
    · cases Value with
      | none => exact optShifts_none
      | some e => exact optShifts_some (fun _ _ _ => accept_shift e)
    · cases ElseClause with
      | none => exact optShifts_none
      | some e => exact optShifts_some (fun _ _ _ => accept_shift e)
  | .CompareSubqueryExpr L op R All, _, _, _, a, b, h => by
    simp only [Accept]
    exact handleCompareSubqueryExpr_shift _ _ _ _ (fun _ _ _ => accept_shift L)
      (fun _ _ _ => accept_shift R) h
  | .FuncCallExpr FnName Args, _, _, _, a, b, h => by
    simp only [Accept]
    exact handleFuncCallExpr_shift _ _ (acceptArgs_shifts Args) h
  | .AggregateFuncExpr F Args Distinct, _, _, _, a, b, h => by
    simp only [Accept]
    exact aggregate_shift F _ Distinct (acceptList_shifts Args) h
  | .UnaryOperationExpr op V, _, _, _, a, b, h => by
    simp only [Accept]
    exact handleUnaryOperationExpr_shift _ _ (fun _ _ _ => accept_shift V) h
  | .TimeUnitExpr Unit, _, _, _, a, b, h => by
    simp only [Accept]
    exact h
  | .ByItem Expr Desc, _, _, _, a, b, h => by
    simp only [Accept]
    exact handleByItem_shift _ _ (fun _ _ _ => accept_shift Expr) h
  | .Limit Count Offset, _, _, _, a, b, h => by
    simp only [accept_Limit]
    refine handleLimit_shift _ _ (fun _ _ _ => accept_shift Count) ?_ h
    cases Offset with
    | none => exact optShifts_none
    | some e => exact optShifts_some (fun _ _ _ => accept_shift e)
  | .Assignment Column Expr, _, _, _, a, b, h => by
    simp only [Accept]
    exact handleAssignment_shift _ _ (fun _ _ _ => accept_shift Expr) h
  | .ValuesExpr Column, _, _, _, a, b, h => by
    simp only [Accept]
    exact handleValuesExpr_shift _ (fun _ _ _ => accept_shift Column) h
  | .SubqueryExpr Query, _, _, _, a, b, h => by
    simp only [Accept]
    exact handleSubqueryExpr_shift _ (fun _ _ _ => accept_shift Query) h
  | .IsNullExpr Expr isNot, _, _, _, a, b, h => by
    simp only [Accept]
    exact handleIsNullExpr_shift _ _ (fun _ _ _ => accept_shift Expr) h
  | .ExistsSubqueryExpr Sel isNot, _, _, _, a, b, h => by
    simp only [Accept]
    exact handleExistsSubqueryExpr_shift _ _ (fun _ _ _ => accept_shift Sel) h
  | .DefaultExpr Name, _, _, _, a, b, h => by
    simp only [Accept]
    exact handleDefaultExpr_shift Name h
  | .other kind children, _, _, _, a, b, h => by
    simp only [accept_other]
    exact h
/-- The visits of the nodes of a list do the same whatever was there before. -/
theorem acceptList_shifts : ∀ ns : List Node, ListShifts (acceptList ns)
  | [] => by
    intro f hf
    simp [acceptList] at hf
  | n :: ns => by
    intro f hf
    simp only [acceptList, List.mem_cons] at hf
    rcases hf with rfl | hf
    · exact fun _ _ _ => accept_shift n
    · exact acceptList_shifts ns f hf
/-- The visits of the arguments of a function call do the same whatever was there
before. -/
theorem acceptArgs_shifts : ∀ ns : List Node, ∀ x ∈ acceptArgs ns, Shifts x.2
  | [] => by
    intro x hx
    simp [acceptArgs] at hx
  | n :: ns => by
    intro x hx
    simp only [acceptArgs, List.mem_cons] at hx
    rcases hx with rfl | hx
    · exact fun _ _ _ => accept_shift n
    · exact acceptArgs_shifts ns x hx
/-- The visits of the rows of a VALUES list do the same whatever was there before. -/
theorem acceptLists_shifts : ∀ ls : List (List Node), ∀ l ∈ acceptLists ls, ListShifts l
  | [] => by
    intro l hl
    simp [acceptLists] at hl
  | r :: ls => by
    intro l hl
    simp only [acceptLists, List.mem_cons] at hl
    rcases hl with rfl | hl
    · exact acceptList_shifts r
    · exact acceptLists_shifts ls l hl
/-- The visits of the expressions of a SELECT list do the same whatever was there
before. -/
theorem acceptFields_shifts :
    ∀ fs : List (SelectField Node), ∀ sf ∈ acceptFields fs, OptShifts sf.Expr
  | [] => by
    intro sf hsf
    simp [acceptFields] at hsf
  | ⟨w, e, a⟩ :: fs => by
    intro sf hsf
    rw [acceptFields_cons, List.mem_cons] at hsf
    rcases hsf with rfl | hsf
    · cases e with
      | none => exact optShifts_none
      | some x => exact optShifts_some (fun _ _ _ => accept_shift x)
    · exact acceptFields_shifts fs sf hsf
/-- The visits of the WHEN clauses of a CASE do the same whatever was there before. -/
theorem acceptWhens_shifts :
    ∀ ws : List (Node × Node), ∀ c ∈ acceptWhens ws, Shifts c.1 ∧ Shifts c.2
  | [] => by
    intro c hc
    simp [acceptWhens] at hc
  | (x, y) :: ws => by
    intro c hc
    simp only [acceptWhens, List.mem_cons] at hc
    rcases hc with rfl | hc
    · exact ⟨fun _ _ _ => accept_shift x, fun _ _ _ => accept_shift y⟩
    · exact acceptWhens_shifts ws c hc
end

/-- Every visit does the same whatever was there before. -/
theorem accept_shifts (n : Node) : Shifts (Accept n) :=
  fun _ _ _ => accept_shift n

/-! ### Text and parameters of a node -/

theorem shift_blank (v : ExtractVisitor) :
    Shift v.builder v.params v.tableInfos (blankVisitor v.inAggrFunc) v :=
  ⟨by simp [blankVisitor], by simp [blankVisitor], by simp [blankVisitor], rfl⟩

theorem shifts_builder {f : Visit} (hf : Shifts f) (v : ExtractVisitor) :
    (f v).builder = v.builder ++ written f v.inAggrFunc :=
  (hf _ _ _ _ _ (shift_blank v)).builder

theorem shifts_params {f : Visit} (hf : Shifts f) (v : ExtractVisitor) :
    (f v).params = v.params ++ recorded f v.inAggrFunc :=
  (hf _ _ _ _ _ (shift_blank v)).params

theorem shifts_tableInfos {f : Visit} (hf : Shifts f) (v : ExtractVisitor) :
    (f v).tableInfos = v.tableInfos ++ collected f v.inAggrFunc :=
  (hf _ _ _ _ _ (shift_blank v)).tableInfos

/-- What a visit writes is the text of its node, whatever was written before. -/
theorem accept_builder (n : Node) (v : ExtractVisitor) :
    (Accept n v).builder = v.builder ++ text n v.inAggrFunc :=
  shifts_builder (accept_shifts n) v

/-- What a visit appends is the parameters of its node, whatever was recorded before. -/
theorem accept_params (n : Node) (v : ExtractVisitor) :
    (Accept n v).params = v.params ++ parameters n v.inAggrFunc :=
  shifts_params (accept_shifts n) v

/-- What a visit collects is the tables of its node, whatever was collected before. -/
theorem accept_tableInfos (n : Node) (v : ExtractVisitor) :
    (Accept n v).tableInfos = v.tableInfos ++ tables n v.inAggrFunc :=
  shifts_tableInfos (accept_shifts n) v

theorem accept_inAggrFunc (n : Node) (v : ExtractVisitor) :
    (Accept n v).inAggrFunc = v.inAggrFunc :=
  (accept_framed n v).inAggrFunc

/-- C21: the template text of a binary operation is the text of the left operand, a
space, the operator's token, a space, and the text of the right operand; its parameters
are those of the left operand followed by those of the right operand; the tokens are
eq, gt, ge, lt, le, ne, plus, minus, mul, and, or. -/
theorem C21_binary_operation (op : Op) (L R : Node) (flag : Bool) :
    text (.BinaryOperationExpr op L R) flag
      = text L flag ++ " " ++ op.String ++ " " ++ text R flag ∧
    parameters (.BinaryOperationExpr op L R) flag = parameters L flag ++ parameters R flag ∧
    Op.EQ.String = "eq" ∧ Op.GT.String = "gt" ∧ Op.GE.String = "ge" ∧ Op.LT.String = "lt" ∧
    Op.LE.String = "le" ∧ Op.NE.String = "ne" ∧ Op.Plus.String = "plus" ∧
    Op.Minus.String = "minus" ∧ Op.Mul.String = "mul" ∧ Op.LogicAnd.String = "and" ∧
    Op.LogicOr.String = "or" := by
  refine ⟨?_, ?_, rfl, rfl, rfl, rfl, rfl, rfl, rfl, rfl, rfl, rfl, rfl⟩
  · show (Accept (.BinaryOperationExpr op L R) (blankVisitor flag)).builder = _
    simp only [Accept, handleBinaryOperationExpr]
    simp [accept_builder, accept_inAggrFunc, ExtractVisitor.WriteString, blankVisitor,
      String.append_assoc]
  · show (Accept (.BinaryOperationExpr op L R) (blankVisitor flag)).params = _
    simp only [Accept, handleBinaryOperationExpr]
    simp [accept_params, accept_inAggrFunc, ExtractVisitor.WriteString, blankVisitor]

/-- C22: the template text of a LIKE node is the text of the expression, then ` LIKE `
(` NOT LIKE ` when negated), then `?` when the pattern is a literal, whose value is then
the one parameter appended after those of the expression, and otherwise the text of the
pattern expression, with the parameters of the pattern and nothing else appended after
those of the expression. -/
theorem C22_like (Expr Pattern : Node) (isNot flag : Bool) :
    text (.PatternLikeOrIlikeExpr Expr Pattern isNot) flag
      = text Expr flag ++ (if isNot then " NOT LIKE " else " LIKE ") ++
        (match Pattern.asValueExpr with
          | some _ => "?"
          | none => text Pattern flag) ∧
    parameters (.PatternLikeOrIlikeExpr Expr Pattern isNot) flag
      = parameters Expr flag ++
        (match Pattern.asValueExpr with
          | some value => [value]
          | none => parameters Pattern flag) := by
  constructor
  · show (Accept (.PatternLikeOrIlikeExpr Expr Pattern isNot) (blankVisitor flag)).builder = _
    simp only [Accept, handlePatternLikeOrIlikeExpr, patternVisit]
    cases isNot <;> cases Pattern.asValueExpr <;>
      simp [accept_builder, accept_inAggrFunc, ExtractVisitor.WriteString,
        ExtractVisitor.appendParam, blankVisitor, String.append_assoc] <;> rfl
  · show (Accept (.PatternLikeOrIlikeExpr Expr Pattern isNot) (blankVisitor flag)).params = _
    simp only [Accept, handlePatternLikeOrIlikeExpr, patternVisit]
    cases isNot <;> cases Pattern.asValueExpr <;>
      simp [accept_params, accept_inAggrFunc, ExtractVisitor.WriteString,
        ExtractVisitor.appendParam, blankVisitor]

/-- C24: the template text of a BETWEEN node that is not negated is the text of the
expression, ` BETWEEN `, the text of the lower bound, ` AND `, and the text of the upper
bound; the parameters are those of the expression, of the lower bound and of the upper
bound, in this order.  With literal bounds outside an aggregate this is
`<expr> BETWEEN ? AND ?` with the two bounds recorded from left to right. -/
theorem C24_between (Expr Left Right : Node) (lo hi : Value) (flag : Bool) :
    text (.BetweenExpr Expr Left Right false) flag
      = text Expr flag ++ " BETWEEN " ++ text Left flag ++ " AND " ++ text Right flag ∧
    parameters (.BetweenExpr Expr Left Right false) flag
      = parameters Expr flag ++ parameters Left flag ++ parameters Right flag ∧
    text (.BetweenExpr Expr (.ValueExpr lo) (.ValueExpr hi) false) false
      = text Expr false ++ " BETWEEN ? AND ?" ∧
    parameters (.BetweenExpr Expr (.ValueExpr lo) (.ValueExpr hi) false) false
      = parameters Expr false ++ [lo, hi] := by
  have ht : ∀ (E L R : Node) (g : Bool), text (.BetweenExpr E L R false) g
      = text E g ++ " BETWEEN " ++ text L g ++ " AND " ++ text R g := by
    intro E L R g
    show (Accept (.BetweenExpr E L R false) (blankVisitor g)).builder = _
    simp only [Accept, handleBetweenExpr]
    simp [accept_builder, accept_inAggrFunc, ExtractVisitor.WriteString, blankVisitor,
      String.append_assoc]
  have hp : ∀ (E L R : Node) (g : Bool), parameters (.BetweenExpr E L R false) g
      = parameters E g ++ parameters L g ++ parameters R g := by
    intro E L R g
    show (Accept (.BetweenExpr E L R false) (blankVisitor g)).params = _
    simp only [Accept, handleBetweenExpr]
    simp [accept_params, accept_inAggrFunc, ExtractVisitor.WriteString, blankVisitor]
  refine ⟨ht _ _ _ _, hp _ _ _ _, ?_, ?_⟩
  · rw [ht, String.append_assoc, String.append_assoc, String.append_assoc]
    rfl
  · rw [hp, List.append_assoc]
    rfl

/-- C25: for a negated BETWEEN node the code writes `NOT ` directly after the text of
the expression and then ` BETWEEN `: no space separates the expression from NOT, and
two spaces separate NOT from BETWEEN.  For `age NOT BETWEEN 1 AND 2` the text is
`ageNOT  BETWEEN ? AND ?`, not `age NOT BETWEEN ? AND ?`. -/
theorem C25_negated_between_spacing :
    (∀ (Expr Left Right : Node) (flag : Bool),
      text (.BetweenExpr Expr Left Right true) flag
        = text Expr flag ++ "NOT  BETWEEN " ++ text Left flag ++ " AND " ++ text Right flag) ∧
    text condNotBetween false = "ageNOT  BETWEEN ? AND ?" ∧
    text condNotBetween false
      ≠ text (column "age") false ++ " NOT BETWEEN " ++ text (.ValueExpr (.int64 1)) false
        ++ " AND " ++ text (.ValueExpr (.int64 2)) false ∧
    (extractOneStmt NewExtractor none (selectStarWhere condNotBetween)).2.template
      = "SELECT * FROM t WHERE ageNOT  BETWEEN ? AND ?" := by
  refine ⟨?_, by decide, by decide, by decide⟩
  intro E L R g
  show (Accept (.BetweenExpr E L R true) (blankVisitor g)).builder = _
  simp only [Accept, handleBetweenExpr]
  simp [accept_builder, accept_inAggrFunc, ExtractVisitor.WriteString, blankVisitor,
    String.append_assoc]

/-- C26, counterexample: the join node of `a NATURAL JOIN b` has both operands and a
join type that is neither left nor right, and the keyword written between the operands
is ` JOIN `, not ` CROSS JOIN `. -/
theorem C26_natural_join_keyword :
    text joinNatural false = "a JOIN b" ∧ text joinNatural false ≠ "a CROSS JOIN b" := by
  decide

/-- C26, amended: for every join node with both operands the template text is the text
of the left operand, the keyword, the text of the right operand and, when a condition is
present, ` ON ` and the text of the condition; the parameters follow the same order.
The keyword is ` LEFT JOIN ` for a left join, ` RIGHT JOIN ` for a right join,
` CROSS JOIN ` for a cross join and ` JOIN ` for a node that carries no join type. -/
theorem C26_join (Left Right : Node) (Tp : JoinType) (On : Option Node) (flag : Bool) :
    text (.Join (some Left) (some Right) Tp On) flag
      = text Left flag ++ joinKeyword Tp ++ text Right flag ++
        (match On with
          | some c => " ON " ++ text c flag
          | none => "") ∧
    parameters (.Join (some Left) (some Right) Tp On) flag
      = parameters Left flag ++ parameters Right flag ++
        (match On with
          | some c => parameters c flag
          | none => []) ∧
    joinKeyword .LeftJoin = " LEFT JOIN " ∧ joinKeyword .RightJoin = " RIGHT JOIN " ∧
    joinKeyword .CrossJoin = " CROSS JOIN " ∧ joinKeyword .zero = " JOIN " := by
  refine ⟨?_, ?_, rfl, rfl, rfl, rfl⟩
  · show (Accept (.Join (some Left) (some Right) Tp On) (blankVisitor flag)).builder = _
    cases On <;> simp only [Accept, handleJoin, visitOpt, exprClause] <;>
      simp [accept_builder, accept_inAggrFunc, ExtractVisitor.WriteString, blankVisitor,
        String.append_assoc]
  · show (Accept (.Join (some Left) (some Right) Tp On) (blankVisitor flag)).params = _
    cases On <;> simp only [Accept, handleJoin, visitOpt, exprClause] <;>
      simp [accept_params, accept_inAggrFunc, ExtractVisitor.WriteString, blankVisitor]

/-- C26 at `u1 LEFT JOIN u2 ON a = 1`. -/
theorem C26_join_witness :
    text (.Join (some (.TableSource (.TableName "" "u1") ""))
        (some (.TableSource (.TableName "" "u2") "")) .LeftJoin
        (some (.OnCondition (.BinaryOperationExpr .EQ (column "a") (.ValueExpr (.int64 1))))))
      false = "u1 LEFT JOIN u2 ON a eq ?" := by
  rw [(C26_join _ _ _ _ _).1]
  decide

/-! ### Lists of visits -/

theorem intercalate_go_append (x sep : String) (ys : List String) :
    ∀ a : String, String.intercalate.go (x ++ a) sep ys = x ++ String.intercalate.go a sep ys := by
  induction ys with
  | nil => intro a; rfl
  | cons y ys ih =>
    intro a
    simp only [String.intercalate.go]
    rw [String.append_assoc, String.append_assoc, ih, String.append_assoc]

theorem foldl_sep_builder (sep : String) (fs : List Visit) (hS : ListShifts fs)
    (hF : ListFramed fs) :
    ∀ w : ExtractVisitor,
      (fs.foldl (fun acc g => g (acc.WriteString sep)) w).builder
        = String.intercalate.go w.builder sep (fs.map (fun f => written f w.inAggrFunc)) := by
  induction fs with
  | nil => intro w; rfl
  | cons f fs ih =>
    intro w
    have hf := hS f (List.mem_cons_self _ _)
    have hff := hF f (List.mem_cons_self _ _)
    simp only [List.foldl_cons, List.map_cons, String.intercalate.go]
    rw [ih (fun g hg => hS g (List.mem_cons_of_mem _ hg))
      (fun g hg => hF g (List.mem_cons_of_mem _ hg)), shifts_builder hf,
      (hff _).inAggrFunc]
    rfl

theorem foldl_sep_params (sep : String) (fs : List Visit) (hS : ListShifts fs)
    (hF : ListFramed fs) :
    ∀ w : ExtractVisitor,
      (fs.foldl (fun acc g => g (acc.WriteString sep)) w).params
        = w.params ++ (fs.map (fun f => recorded f w.inAggrFunc)).flatten := by
  induction fs with
  | nil => intro w; simp
  | cons f fs ih =>
    intro w
    have hf := hS f (List.mem_cons_self _ _)
    have hff := hF f (List.mem_cons_self _ _)
    simp only [List.foldl_cons, List.map_cons, List.flatten_cons]
    rw [ih (fun g hg => hS g (List.mem_cons_of_mem _ hg))
      (fun g hg => hF g (List.mem_cons_of_mem _ hg)), shifts_params hf,
      (hff _).inAggrFunc, List.append_assoc]
    rfl

/-- A list of visits separated by `sep` writes the texts of the visits joined with
`sep`. -/
theorem forEachSep_builder (sep : String) (fs : List Visit) (hS : ListShifts fs)
    (hF : ListFramed fs) (v : ExtractVisitor) :
    (forEachSep sep fs v).builder
      = v.builder ++ sep.intercalate (fs.map (fun f => written f v.inAggrFunc)) := by
  cases fs with
  | nil => simp [forEachSep, String.intercalate]
  | cons f fs =>
    have hf := hS f (List.mem_cons_self _ _)
    have hff := hF f (List.mem_cons_self _ _)
    simp only [forEachSep, List.map_cons, String.intercalate]
    rw [foldl_sep_builder sep fs (fun g hg => hS g (List.mem_cons_of_mem _ hg))
      (fun g hg => hF g (List.mem_cons_of_mem _ hg)), shifts_builder hf,
      (hff _).inAggrFunc, intercalate_go_append]

/-- A list of visits separated by `sep` appends the parameters of the visits in list
order. -/
theorem forEachSep_params (sep : String) (fs : List Visit) (hS : ListShifts fs)
    (hF : ListFramed fs) (v : ExtractVisitor) :
    (forEachSep sep fs v).params
      = v.params ++ (fs.map (fun f => recorded f v.inAggrFunc)).flatten := by
  cases fs with
  | nil => simp [forEachSep]
  | cons f fs =>
    have hf := hS f (List.mem_cons_self _ _)
    have hff := hF f (List.mem_cons_self _ _)
    simp only [forEachSep, List.map_cons, List.flatten_cons]
    rw [foldl_sep_params sep fs (fun g hg => hS g (List.mem_cons_of_mem _ hg))
      (fun g hg => hF g (List.mem_cons_of_mem _ hg)), shifts_params hf,
      (hff _).inAggrFunc, List.append_assoc]

theorem forEachSep_inAggrFunc (sep : String) (fs : List Visit) (hF : ListFramed fs)
    (v : ExtractVisitor) : (forEachSep sep fs v).inAggrFunc = v.inAggrFunc :=
  (frame_forEachSep sep fs hF (Frame.refl v)).inAggrFunc

theorem acceptList_eq_map (ns : List Node) : acceptList ns = ns.map Accept := by
  induction ns with
  | nil => simp [acceptList]
  | cons n ns ih => simp [acceptList, ih]

theorem acceptArgs_eq_map (ns : List Node) :
    acceptArgs ns = ns.map (fun n => (n, Accept n)) := by
  induction ns with
  | nil => simp [acceptArgs]
  | cons n ns ih => simp [acceptArgs, ih]

theorem acceptFields_eq_map (fs : List (SelectField Node)) :
    acceptFields fs = fs.map acceptField := by
  induction fs with
  | nil => simp [acceptFields]
  | cons sf fs ih =>
    obtain ⟨w, e, a⟩ := sf
    rw [acceptFields_cons, ih]
    rfl

/-- The items of a list of nodes, separated by `sep`: the texts joined with `sep`. -/
theorem forEachSep_acceptList_builder (sep : String) (ns : List Node) (v : ExtractVisitor) :
    (forEachSep sep (acceptList ns) v).builder
      = v.builder ++ sep.intercalate (ns.map (fun n => text n v.inAggrFunc)) := by
  rw [forEachSep_builder sep _ (acceptList_shifts ns) (acceptList_framed ns),
    acceptList_eq_map, List.map_map]
  rfl

theorem forEachSep_acceptList_params (sep : String) (ns : List Node) (v : ExtractVisitor) :
    (forEachSep sep (acceptList ns) v).params
      = v.params ++ (ns.map (fun n => parameters n v.inAggrFunc)).flatten := by
  rw [forEachSep_params sep _ (acceptList_shifts ns) (acceptList_framed ns),
    acceptList_eq_map, List.map_map]
  rfl

theorem forEachSep_acceptList_inAggrFunc (sep : String) (ns : List Node)
    (v : ExtractVisitor) :
    (forEachSep sep (acceptList ns) v).inAggrFunc = v.inAggrFunc :=
  forEachSep_inAggrFunc sep _ (acceptList_framed ns) v

theorem inList_shifts (items : List Node) : ListShifts (items.map inListItem) := by
  intro f hf
  obtain ⟨item, _, rfl⟩ := List.mem_map.mp hf
  exact inListItem_shifts item

theorem inList_framed (items : List Node) : ListFramed (items.map inListItem) := by
  intro f hf
  obtain ⟨item, _, rfl⟩ := List.mem_map.mp hf
  exact inListItem_framed item

theorem inList_written (values : List Value) (flag : Bool) :
    ((values.map Node.ValueExpr).map inListItem).map (fun f => written f flag)
      = List.replicate values.length "?" := by
  induction values with
  | nil => rfl
  | cons x xs ih =>
    simp only [List.map_cons, List.length_cons, List.replicate_succ, ih]
    rfl

theorem inList_recorded (values : List Value) (flag : Bool) :
    (((values.map Node.ValueExpr).map inListItem).map (fun f => recorded f flag)).flatten
      = values := by
  induction values with
  | nil => rfl
  | cons x xs ih =>
    simp only [List.map_cons, List.flatten_cons, ih]
    rfl

/-- C23: the template text of an IN node whose list consists of n literal values is the
text of the expression, ` IN (` (` NOT IN (` when negated), n placeholders separated by
`, `, and `)`; the n values are appended to the parameters of the expression in list
order. -/
theorem C23_in_list (Expr : Node) (values : List Value) (isNot flag : Bool) :
    text (.PatternInExpr Expr (values.map .ValueExpr) isNot none) flag
      = text Expr flag ++ (if isNot then " NOT IN (" else " IN (") ++
        ", ".intercalate (List.replicate values.length "?") ++ ")" ∧
    parameters (.PatternInExpr Expr (values.map .ValueExpr) isNot none) flag
      = parameters Expr flag ++ values := by
  constructor
  · show (Accept (.PatternInExpr Expr (values.map .ValueExpr) isNot none)
      (blankVisitor flag)).builder = _
    simp only [Accept, handlePatternInExpr, visitOpt]
    cases isNot <;>
      simp only [ExtractVisitor.WriteString, Bool.false_eq_true, if_false, if_true,
        forEachSep_builder _ _ (inList_shifts _) (inList_framed _), accept_builder,
        accept_inAggrFunc, inList_written] <;>
      simp [blankVisitor, String.append_assoc]
  · show (Accept (.PatternInExpr Expr (values.map .ValueExpr) isNot none)
      (blankVisitor flag)).params = _
    simp only [Accept, handlePatternInExpr, visitOpt]
    cases isNot <;>
      simp only [ExtractVisitor.WriteString, Bool.false_eq_true, if_false, if_true,
        forEachSep_params _ _ (inList_shifts _) (inList_framed _), accept_params,
        accept_inAggrFunc, inList_recorded] <;>
      simp [blankVisitor]

/-! ### Clauses of a statement -/

theorem setOpType_builder (v : ExtractVisitor) (k : SQLOpType) :
    (v.setOpType k).builder = v.builder := by
  unfold ExtractVisitor.setOpType
  split <;> rfl

theorem setOpType_params (v : ExtractVisitor) (k : SQLOpType) :
    (v.setOpType k).params = v.params := by
  unfold ExtractVisitor.setOpType
  split <;> rfl

theorem setOpType_inAggrFunc (v : ExtractVisitor) (k : SQLOpType) :
    (v.setOpType k).inAggrFunc = v.inAggrFunc := by
  unfold ExtractVisitor.setOpType
  split <;> rfl

theorem visitOpt_none (x : ExtractVisitor) : visitOpt none x = x := rfl

theorem visitOpt_some (f : Visit) (x : ExtractVisitor) : visitOpt (some f) x = f x := rfl

theorem visitOpt_accept_builder (o : Option Node) (x : ExtractVisitor) :
    (visitOpt (match o with
      | some e => some (Accept e)
      | none => none) x).builder
      = x.builder ++ (match o with
        | some e => text e x.inAggrFunc
        | none => "") := by
  cases o <;> simp [visitOpt, accept_builder]

theorem visitOpt_accept_params (o : Option Node) (x : ExtractVisitor) :
    (visitOpt (match o with
      | some e => some (Accept e)
      | none => none) x).params
      = x.params ++ (match o with
        | some e => parameters e x.inAggrFunc
        | none => []) := by
  cases o <;> simp [visitOpt, accept_params]

theorem visitOpt_accept_inAggrFunc (o : Option Node) (x : ExtractVisitor) :
    (visitOpt (match o with
      | some e => some (Accept e)
      | none => none) x).inAggrFunc = x.inAggrFunc := by
  cases o <;> simp [visitOpt, accept_inAggrFunc]

theorem exprClause_accept_builder (keyword : String) (o : Option Node) (x : ExtractVisitor) :
    (exprClause keyword (match o with
      | some e => some (Accept e)
      | none => none) x).builder
      = x.builder ++ (match o with
        | some e => keyword ++ text e x.inAggrFunc
        | none => "") := by
  cases o <;>
    simp [exprClause, accept_builder, accept_inAggrFunc, ExtractVisitor.WriteString,
      String.append_assoc]

theorem exprClause_accept_params (keyword : String) (o : Option Node) (x : ExtractVisitor) :
    (exprClause keyword (match o with
      | some e => some (Accept e)
      | none => none) x).params
      = x.params ++ (match o with
        | some e => parameters e x.inAggrFunc
        | none => []) := by
  cases o <;>
    simp [exprClause, accept_params, accept_inAggrFunc, ExtractVisitor.WriteString]

theorem exprClause_accept_inAggrFunc (keyword : String) (o : Option Node)
    (x : ExtractVisitor) :
    (exprClause keyword (match o with
      | some e => some (Accept e)
      | none => none) x).inAggrFunc = x.inAggrFunc := by
  cases o <;> simp [exprClause, accept_inAggrFunc, ExtractVisitor.WriteString]

theorem listClause_accept_builder (keyword : String) (o : Option (List Node))
    (x : ExtractVisitor) :
    (listClause keyword (match o with
      | some l => some (acceptList l)
      | none => none) x).builder
      = x.builder ++ (match o with
        | some l => keyword ++ ", ".intercalate (l.map (fun n => text n x.inAggrFunc))
        | none => "") := by
  cases o <;>
    simp [listClause, forEachSep_acceptList_builder, ExtractVisitor.WriteString,
      String.append_assoc]

theorem listClause_accept_params (keyword : String) (o : Option (List Node))
    (x : ExtractVisitor) :
    (listClause keyword (match o with
      | some l => some (acceptList l)
      | none => none) x).params
      = x.params ++ (match o with
        | some l => (l.map (fun n => parameters n x.inAggrFunc)).flatten
        | none => []) := by
  cases o <;> simp [listClause, forEachSep_acceptList_params, ExtractVisitor.WriteString]

theorem listClause_accept_inAggrFunc (keyword : String) (o : Option (List Node))
    (x : ExtractVisitor) :
    (listClause keyword (match o with
      | some l => some (acceptList l)
      | none => none) x).inAggrFunc = x.inAggrFunc := by
  cases o <;>
    simp [listClause, forEachSep_acceptList_inAggrFunc, ExtractVisitor.WriteString]

theorem fields_shifts (fs : List (SelectField Node)) :
    ListShifts ((acceptFields fs).map selectFieldVisit) :=
  shifts_map_selectFieldVisit _ (acceptFields_shifts fs)

theorem fields_framed (fs : List (SelectField Node)) :
    ListFramed ((acceptFields fs).map selectFieldVisit) :=
  framed_map_selectFieldVisit _ (acceptFields_framed fs)

/-- The SELECT list: the texts of its fields joined with `, `. -/
theorem fields_builder (fs : List (SelectField Node)) (x : ExtractVisitor) :
    (forEachSep ", " ((acceptFields fs).map selectFieldVisit) x).builder
      = x.builder ++ ", ".intercalate (fs.map (fun sf => fieldText sf x.inAggrFunc)) := by
  rw [forEachSep_builder _ _ (fields_shifts fs) (fields_framed fs), acceptFields_eq_map,
    List.map_map, List.map_map]
  rfl

theorem fields_params (fs : List (SelectField Node)) (x : ExtractVisitor) :
    (forEachSep ", " ((acceptFields fs).map selectFieldVisit) x).params
      = x.params ++ (fs.map (fun sf => fieldParameters sf x.inAggrFunc)).flatten := by
  rw [forEachSep_params _ _ (fields_shifts fs) (fields_framed fs), acceptFields_eq_map,
    List.map_map, List.map_map]
  rfl

theorem fields_inAggrFunc (fs : List (SelectField Node)) (x : ExtractVisitor) :
    (forEachSep ", " ((acceptFields fs).map selectFieldVisit) x).inAggrFunc
      = x.inAggrFunc :=
  forEachSep_inAggrFunc _ _ (fields_framed fs) x

/-- C28: the template text of a SELECT node is `SELECT `, then `DISTINCT ` if set, the
texts of the fields joined with `, `, ` FROM ` and the text of the table references,
` WHERE ` and the text of the condition, ` GROUP BY ` and the texts of the items joined
with `, `, ` HAVING ` and the text of the condition, ` ORDER BY ` and the texts of the
items joined with `, `, and the text of the LIMIT clause, in this order and each only
when present; the parameters of the clauses are appended in the same order. -/
theorem C28_select_clause_order (Distinct : Bool) (Fields : Option (List (SelectField Node)))
    (From : Option (Option Node)) (Where : Option Node) (GroupBy : Option (List Node))
    (Having : Option (Option Node)) (OrderBy : Option (List Node)) (Limit : Option Node)
    (flag : Bool) :
    text (.SelectStmt Distinct Fields From Where GroupBy Having OrderBy Limit) flag
      = "SELECT " ++ (if Distinct then "DISTINCT " else "") ++
        (match Fields with
          | some fs => ", ".intercalate (fs.map (fun sf => fieldText sf flag))
          | none => "") ++
        (match From with
          | some (some refs) => " FROM " ++ text refs flag
          | some none => " FROM "
          | none => "") ++
        (match Where with
          | some e => " WHERE " ++ text e flag
          | none => "") ++
        (match GroupBy with
          | some items => " GROUP BY " ++ ", ".intercalate (items.map (fun n => text n flag))
          | none => "") ++
        (match Having with
          | some (some e) => " HAVING " ++ text e flag
          | _ => "") ++
        (match OrderBy with
          | some items => " ORDER BY " ++ ", ".intercalate (items.map (fun n => text n flag))
          | none => "") ++
        (match Limit with
          | some l => text l flag
          | none => "") ∧
    parameters (.SelectStmt Distinct Fields From Where GroupBy Having OrderBy Limit) flag
      = (match Fields with
          | some fs => (fs.map (fun sf => fieldParameters sf flag)).flatten
          | none => []) ++
        (match From with
          | some (some refs) => parameters refs flag
          | _ => []) ++
        (match Where with
          | some e => parameters e flag
          | none => []) ++
        (match GroupBy with
          | some items => (items.map (fun n => parameters n flag)).flatten
          | none => []) ++
        (match Having with
          | some (some e) => parameters e flag
          | _ => []) ++
        (match OrderBy with
          | some items => (items.map (fun n => parameters n flag)).flatten
          | none => []) ++
        (match Limit with
          | some l => parameters l flag
          | none => []) := by
  constructor
  · show (Accept (.SelectStmt Distinct Fields From Where GroupBy Having OrderBy Limit)
      (blankVisitor flag)).builder = _
    rw [accept_SelectStmt]
    unfold handleSelectStmt
    rcases Fields with _ | fs <;> rcases From with _ | _ | j <;>
      rcases Having with _ | _ | h <;> cases Distinct <;>
      simp only [visitOpt_accept_builder, visitOpt_accept_inAggrFunc,
        exprClause_accept_builder, exprClause_accept_inAggrFunc, listClause_accept_builder,
        listClause_accept_inAggrFunc, fields_builder, fields_inAggrFunc, accept_builder,
        accept_inAggrFunc, setOpType_builder, setOpType_inAggrFunc, visitOpt_none,
        visitOpt_some, ExtractVisitor.WriteString, Bool.false_eq_true, if_false, if_true] <;>
      simp only [blankVisitor, String.append_assoc, String.empty_append,
        String.append_empty]
  · show (Accept (.SelectStmt Distinct Fields From Where GroupBy Having OrderBy Limit)
      (blankVisitor flag)).params = _
    rw [accept_SelectStmt]
    unfold handleSelectStmt
    rcases Fields with _ | fs <;> rcases From with _ | _ | j <;>
      rcases Having with _ | _ | h <;> cases Distinct <;>
      simp only [visitOpt_accept_params, visitOpt_accept_inAggrFunc,
        exprClause_accept_params, exprClause_accept_inAggrFunc, listClause_accept_params,
        listClause_accept_inAggrFunc, fields_params, fields_inAggrFunc, accept_params,
        accept_inAggrFunc, setOpType_params, setOpType_inAggrFunc, visitOpt_none,
        visitOpt_some, ExtractVisitor.WriteString, Bool.false_eq_true, if_false, if_true] <;>
      simp [blankVisitor]

/-! ### Arguments of a function call -/

theorem funcCallArgs_cons (prev : Option Node) (arg : Node) (acceptArg : Visit)
    (rest : List (Node × Visit)) (v : ExtractVisitor) :
    funcCallArgs prev ((arg, acceptArg) :: rest) v
      = funcCallArgs (some arg) rest (argStep prev arg acceptArg (headIsTimeUnit rest) v) := by
  cases rest <;> simp only [funcCallArgs, argStep, headIsTimeUnit] <;>
    cases arg.asTimeUnitExpr <;> simp only [] <;> split <;> rfl

theorem headIsTimeUnit_append (xs : List (Node × Visit)) (y : Node × Visit)
    (ys : List (Node × Visit)) (hy : y.1.asTimeUnitExpr = none) :
    headIsTimeUnit (xs ++ y :: ys) = headIsTimeUnit xs := by
  cases xs with
  | nil => simp [headIsTimeUnit, hy]
  | cons x xs => rfl

/-- The loop of handleFuncCallExpr over a list of arguments that continues with an
argument that is not a time unit: the arguments before it are processed as they are on
their own. -/
theorem funcCallArgs_append (xs : List (Node × Visit)) (y : Node × Visit)
    (ys : List (Node × Visit)) (hy : y.1.asTimeUnitExpr = none) :
    ∀ (prev : Option Node) (v : ExtractVisitor),
      funcCallArgs prev (xs ++ y :: ys) v
        = funcCallArgs (lastArg prev xs) (y :: ys) (funcCallArgs prev xs v) := by
  induction xs with
  | nil => intro prev v; rfl
  | cons x xs ih =>
    intro prev v
    obtain ⟨arg, acceptArg⟩ := x
    rw [List.cons_append, funcCallArgs_cons, funcCallArgs_cons prev arg acceptArg xs,
      headIsTimeUnit_append xs y ys hy, ih]
    rfl

/-- The loop of handleFuncCallExpr at a literal followed by a time unit: a separator
when an argument comes before, then `INTERVAL ? <UNIT>`, with the literal's value
appended; neither argument is visited. -/
theorem funcCallArgs_interval (prev : Option Node) (value : Value) (unit : String)
    (g₁ g₂ : Visit) (rest : List (Node × Visit)) (v : ExtractVisitor) :
    funcCallArgs prev ((.ValueExpr value, g₁) :: (.TimeUnitExpr unit, g₂) :: rest) v
      = funcCallArgs (some (.TimeUnitExpr unit)) rest
        (((((if prev.isSome then v.WriteString ", " else v).appendParam value).WriteString
          "INTERVAL ").WriteString "? ").WriteString unit) := by
  cases prev <;> simp [funcCallArgs, Node.asTimeUnitExpr, Node.asValueExpr]

theorem lastArg_isSome (prev : Option Node) (xs : List (Node × Visit)) :
    (lastArg prev xs).isSome = (prev.isSome || !xs.isEmpty) := by
  induction xs generalizing prev with
  | nil => simp [lastArg]
  | cons x xs ih => simp [lastArg, ih]

theorem funcCallArgs_shifts (prev : Option Node) (args : List Node) :
    Shifts (funcCallArgs prev (acceptArgs args)) :=
  fun _ _ _ _ _ h => funcCallArgs_shift _ (acceptArgs_shifts args) prev h

theorem funcCallArgs_builder (prev : Option Node) (args : List Node) (v : ExtractVisitor) :
    (funcCallArgs prev (acceptArgs args) v).builder
      = v.builder ++ argsText prev args v.inAggrFunc :=
  shifts_builder (funcCallArgs_shifts prev args) v

theorem funcCallArgs_params (prev : Option Node) (args : List Node) (v : ExtractVisitor) :
    (funcCallArgs prev (acceptArgs args) v).params
      = v.params ++ argsParameters prev args v.inAggrFunc :=
  shifts_params (funcCallArgs_shifts prev args) v

theorem funcCallArgs_inAggrFunc (prev : Option Node) (args : List Node)
    (v : ExtractVisitor) :
    (funcCallArgs prev (acceptArgs args) v).inAggrFunc = v.inAggrFunc :=
  (funcCallArgs_frame _ (acceptArgs_framed args) prev (Frame.refl v)).inAggrFunc

theorem acceptArgs_append (xs ys : List Node) :
    acceptArgs (xs ++ ys) = acceptArgs xs ++ acceptArgs ys := by
  simp [acceptArgs_eq_map]

/-- The visitor of handleFuncCallExpr at an argument list in which a literal is
followed by a time unit. -/
theorem handleFuncCallExpr_interval (FnName : String) (pre post : List Node) (value : Value)
    (unit : String) (v : ExtractVisitor) :
    handleFuncCallExpr FnName
        (acceptArgs (pre ++ .ValueExpr value :: .TimeUnitExpr unit :: post)) v
      = (funcCallArgs (some (.TimeUnitExpr unit)) (acceptArgs post)
          (((((if pre.isEmpty then
                funcCallArgs none (acceptArgs pre) ((v.WriteString FnName).WriteString "(")
              else
                (funcCallArgs none (acceptArgs pre)
                  ((v.WriteString FnName).WriteString "(")).WriteString ", ").appendParam
            value).WriteString "INTERVAL ").WriteString "? ").WriteString unit)).WriteString
          ")" := by
  unfold handleFuncCallExpr
  rw [acceptArgs_append]
  simp only [acceptArgs]
  rw [funcCallArgs_append (acceptArgs pre) (.ValueExpr value, Accept (.ValueExpr value)) _ rfl,
    funcCallArgs_interval]
  have hs : (lastArg none (acceptArgs pre)).isSome = !pre.isEmpty := by
    rw [lastArg_isSome, acceptArgs_eq_map]
    cases pre <;> rfl
  rw [hs]
  cases pre <;> rfl

/-- C27: in a function call in which a literal argument is immediately followed by a
time-unit argument, the two are written together as `INTERVAL ? <UNIT>` (after `, ` when
an argument comes before them), between what the loop writes for the arguments before
and for the arguments after them, and the one parameter appended for the two is the
literal's value: the literal is not written and not appended on its own. -/
theorem C27_interval_pair (FnName : String) (pre post : List Node) (value : Value)
    (unit : String) (flag : Bool) :
    text (.FuncCallExpr FnName (pre ++ .ValueExpr value :: .TimeUnitExpr unit :: post)) flag
      = FnName ++ "(" ++ argsText none pre flag ++ (if pre.isEmpty then "" else ", ") ++
        "INTERVAL ? " ++ unit ++ argsText (some (.TimeUnitExpr unit)) post flag ++ ")" ∧
    parameters (.FuncCallExpr FnName (pre ++ .ValueExpr value :: .TimeUnitExpr unit :: post))
        flag
      = argsParameters none pre flag ++ [value] ++
        argsParameters (some (.TimeUnitExpr unit)) post flag ∧
    text (.FuncCallExpr "DATE_SUB"
        [.FuncCallExpr "NOW" [], .ValueExpr (.int64 7), .TimeUnitExpr "DAY"]) false
      = "DATE_SUB(NOW(), INTERVAL ? DAY)" ∧
    parameters (.FuncCallExpr "DATE_SUB"
        [.FuncCallExpr "NOW" [], .ValueExpr (.int64 7), .TimeUnitExpr "DAY"]) false
      = [.int64 7] := by
  refine ⟨?_, ?_, by decide, by decide⟩
  · show (Accept (.FuncCallExpr FnName _) (blankVisitor flag)).builder = _
    simp only [Accept]
    rw [handleFuncCallExpr_interval]
    cases hp : pre.isEmpty <;>
      simp only [ExtractVisitor.WriteString, ExtractVisitor.appendParam,
        funcCallArgs_builder, funcCallArgs_inAggrFunc, Bool.false_eq_true, if_false,
        if_true, blankVisitor, String.append_assoc, String.empty_append,
        String.append_empty] <;> rfl
  · show (Accept (.FuncCallExpr FnName _) (blankVisitor flag)).params = _
    simp only [Accept]
    rw [handleFuncCallExpr_interval]
    cases hp : pre.isEmpty <;>
      simp [ExtractVisitor.WriteString, ExtractVisitor.appendParam,
        funcCallArgs_params, funcCallArgs_inAggrFunc, blankVisitor]

/-- C29: for the tree of `SELECT * FROM users WHERE age > 18` extractOneStmt returns the
template `SELECT * FROM users WHERE age gt ?`, the parameters `[18]`, the one table
`users` without schema, the operation kind SELECT and no error. -/
theorem C29_select_users_adults :
    (extractOneStmt NewExtractor none stmtAdults).2.template
      = "SELECT * FROM users WHERE age gt ?" ∧
    stmtParams (extractOneStmt NewExtractor none stmtAdults) = some [.int64 18] ∧
    (extractOneStmt NewExtractor none stmtAdults).2.tableInfos
      = some [⟨"", "users", "", "users"⟩] ∧
    (extractOneStmt NewExtractor none stmtAdults).2.opType = .SQLOperationSelect ∧
    (extractOneStmt NewExtractor none stmtAdults).2.err = none := by
  decide

/-! ### Fingerprints -/

theorem hashLoop_length (f : Bytes → String) (templates : List String) :
    ∀ (n i : Nat) (hash : List String),
      (Public.hashLoop f templates i n hash).length = hash.length := by
  intro n
  induction n with
  | zero => intro i hash; rfl
  | succ n ih =>
    intro i hash
    simp only [Public.hashLoop]
    rw [ih, List.length_set]

/-- The loop of doHash fills the entries from `i` on with the fingerprints of the
templates from `i` on and leaves the entries before `i` as they are. -/
theorem hashLoop_eq (f : Bytes → String) (done rest : List String) :
    ∀ (filled : List String) (blank : List String),
      filled.length = done.length → blank.length = rest.length →
      Public.hashLoop f (done ++ rest) done.length rest.length (filled ++ blank)
        = filled ++ rest.map (fun t => f (bytesOf t)) := by
  induction rest generalizing done with
  | nil =>
    intro filled blank _ hb
    have : blank = [] := List.length_eq_zero.mp hb
    subst this
    simp [Public.hashLoop]
  | cons t rest ih =>
    intro filled blank hf hb
    obtain ⟨b, blank', rfl⟩ : ∃ b blank', blank = b :: blank' := by
      cases blank with
      | nil => simp at hb
      | cons b bs => exact ⟨b, bs, rfl⟩
    simp only [List.length_cons, Public.hashLoop]
    have hget : (done ++ t :: rest).getD done.length "" = t := by
      rw [List.getD_eq_getElem?_getD, List.getElem?_append_right (Nat.le_refl _)]
      simp
    have hset : (filled ++ b :: blank').set done.length (f (bytesOf t))
        = filled ++ f (bytesOf t) :: blank' := by
      rw [← hf]
      simp
    rw [hget, hset]
    have h := ih (done ++ [t]) (filled ++ [f (bytesOf t)]) blank'
      (by simp [hf]) (by simpa using hb)
    simp only [List.append_assoc, List.singleton_append, List.length_append,
      List.length_singleton] at h
    rw [h]
    simp

theorem doHash_hash (Sum256 : Bytes → Bytes) (e : Public.Extractor)
    (fn : List (Bytes → String)) :
    (e.doHash Sum256 fn).hash
      = some ((e.templatedSQL.getD []).map
          (fun t => (fn.headD (fun s => EncodeToString (Sum256 s))) (bytesOf t))) := by
  have h := fun f => hashLoop_eq f [] (e.templatedSQL.getD []) []
    (List.replicate (e.templatedSQL.getD []).length "") rfl (by simp)
  simp only [List.nil_append, List.length_nil] at h
  cases fn with
  | nil => simp [Public.Extractor.doHash, h]
  | cons f rest => simp [Public.Extractor.doHash, h]

/-- C30: TemplatizedSQLHash returns one entry per template; called with functions, entry
i is the first function applied to the bytes of template i, whatever the other
functions are; called with no function, entry i is the hexadecimal encoding of the
SHA-256 digest of the bytes of template i.  The extractor keeps the same sequence as
its hash and nothing else of it changes.  The bytes of a template are its UTF-8
encoding: for the templates `SELECT ?` and `SELECT ? FROM café` the digest is taken of
the bytes written out, and two digits are written for every byte of the digest (with
the reversal of the bytes in the place of the digest, the entry for `SELECT ?` is
`3f205443454c4553`). -/
theorem C30_templatized_sql_hash (Sum256 : Bytes → Bytes) (e : Public.Extractor)
    (f : Bytes → String) (rest : List (Bytes → String)) :
    (e.TemplatizedSQLHash Sum256 (f :: rest)).2
      = some ((e.templatedSQL.getD []).map (fun t => f (bytesOf t))) ∧
    (e.TemplatizedSQLHash Sum256 []).2
      = some ((e.templatedSQL.getD []).map (fun t => EncodeToString (Sum256 (bytesOf t)))) ∧
    (∀ fn, ((e.TemplatizedSQLHash Sum256 fn).2.getD []).length
      = (e.templatedSQL.getD []).length) ∧
    (∀ fn, (e.TemplatizedSQLHash Sum256 fn).1
      = { e with hash := (e.TemplatizedSQLHash Sum256 fn).2 }) ∧
    EncodeToString [0, 171, 255] = "00abff" ∧
    bytesOf "SELECT ?" = [83, 69, 76, 69, 67, 84, 32, 63] ∧
    bytesOf "café" = [99, 97, 102, 195, 169] ∧
    (({ e with templatedSQL := some ["SELECT ?", "SELECT ? FROM café"] } :
        Public.Extractor).TemplatizedSQLHash Sum256 []).2
      = some [EncodeToString (Sum256 [83, 69, 76, 69, 67, 84, 32, 63]),
          EncodeToString (Sum256 [83, 69, 76, 69, 67, 84, 32, 63, 32, 70, 82, 79, 77, 32,
            99, 97, 102, 195, 169])] ∧
    (({ e with templatedSQL := some ["SELECT ?"] } :
        Public.Extractor).TemplatizedSQLHash (fun b => b.reverse) []).2
      = some ["3f205443454c4553"] := by
  have hb1 : bytesOf "SELECT ?" = [83, 69, 76, 69, 67, 84, 32, 63] := by decide
  have hb2 : bytesOf "SELECT ? FROM café"
      = [83, 69, 76, 69, 67, 84, 32, 63, 32, 70, 82, 79, 77, 32, 99, 97, 102, 195, 169] := by
    decide
  refine ⟨?_, ?_, ?_, ?_, by decide, hb1, by decide, ?_, ?_⟩
  · simp [Public.Extractor.TemplatizedSQLHash, doHash_hash]
  · simp [Public.Extractor.TemplatizedSQLHash, doHash_hash]
  · intro fn
    simp [Public.Extractor.TemplatizedSQLHash, doHash_hash]
  · intro fn
    simp only [Public.Extractor.TemplatizedSQLHash, Public.Extractor.doHash]
    split <;> rfl
  · simp only [Public.Extractor.TemplatizedSQLHash, doHash_hash, Option.getD_some,
      List.map_cons, List.map_nil, hb1, hb2]
    rfl
  · simp only [Public.Extractor.TemplatizedSQLHash, doHash_hash, Option.getD_some,
      List.map_cons, List.map_nil, hb1]
    decide

/-! ### Table model, limits, shard suffixes, keys and the public Extract -/

/-- C32: visiting a node only appends.  The template text, the parameter list and the
collected table list are afterwards what they were before followed by the text, the
parameters and the tables of the node, so each earlier value is a prefix of the later
one. -/
theorem C32_visit_only_appends (n : Node) (v : ExtractVisitor) :
    (Accept n v).builder = v.builder ++ text n v.inAggrFunc ∧
    (Accept n v).params = v.params ++ parameters n v.inAggrFunc ∧
    (Accept n v).tableInfos = v.tableInfos ++ tables n v.inAggrFunc ∧
    v.builder.toList <+: (Accept n v).builder.toList ∧
    v.params <+: (Accept n v).params ∧
    v.tableInfos <+: (Accept n v).tableInfos := by
  refine ⟨accept_builder n v, accept_params n v, accept_tableInfos n v, ?_, ?_, ?_⟩
  · rw [accept_builder]
    exact ⟨(text n v.inAggrFunc).toList, by simp [String.toList]⟩
  · rw [accept_params]
    exact List.prefix_append _ _
  · rw [accept_tableInfos]
    exact List.prefix_append _ _

/-- C33 as stated fails: for the table `products` without schema the schema is empty
and the boolean TableNameWithSchema returns is false, and for the table `users` of
schema `public` the schema is not empty and the boolean is true. -/
theorem C33_bool_is_false_for_empty_schema :
    (⟨"", "", "", "products"⟩ : TableInfo).schema = "" ∧
    (⟨"", "", "", "products"⟩ : TableInfo).TableNameWithSchema = ("products", false) ∧
    (⟨"", "", "", "products"⟩ : TableInfo).TableNameWithSchema.2
      ≠ decide ((⟨"", "", "", "products"⟩ : TableInfo).schema = "") ∧
    (⟨"", "", "public", "users"⟩ : TableInfo).schema ≠ "" ∧
    (⟨"", "", "public", "users"⟩ : TableInfo).TableNameWithSchema
      = ("public.users", true) := by
  decide

/-- C33 as amended: the boolean TableNameWithSchema returns reports whether the schema
is non-empty, and the string is schema, `.` and table name when the schema is non-empty
and the table name alone when it is empty.  TemplatizedTableNameWithSchema does the
same with the templatized fields. -/
theorem C33_bool_reports_schema_present (t : TableInfo) :
    t.TableNameWithSchema.2 = decide (t.schema ≠ "") ∧
    (t.TableNameWithSchema.2 = true ↔ t.schema ≠ "") ∧
    t.TableNameWithSchema.1
      = (if t.schema ≠ "" then t.schema ++ "." ++ t.tableName else t.tableName) ∧
    t.TemplatizedTableNameWithSchema.2 = decide (t.templatizedSchema ≠ "") ∧
    t.TemplatizedTableNameWithSchema.1
      = (if t.templatizedSchema ≠ "" then
          t.templatizedSchema ++ "." ++ t.templatizedTableName
        else t.templatizedTableName) := by
  unfold TableInfo.TableNameWithSchema TableInfo.TemplatizedTableNameWithSchema
  refine ⟨?_, ?_, ?_, ?_, ?_⟩
  · split <;> simp_all
  · split <;> simp_all
  · split <;> rfl
  · split <;> simp_all
  · split <;> rfl

/-- C34: NewTableInfo without arguments returns a TableInfo whose four fields are empty;
with two arguments it sets schema and table name and leaves the templatized fields
empty; with four arguments it sets schema, table name, templatized schema and
templatized table name in this order; with any other number of arguments it panics. -/
theorem C34_NewTableInfo (a b c d : String) (args : List String)
    (h : args.length ≠ 0 ∧ args.length ≠ 2 ∧ args.length ≠ 4) :
    NewTableInfoArgs [] = .ok NewTableInfo ∧
    NewTableInfo = { templatizedSchema := "", templatizedTableName := "", schema := "",
                     tableName := "" } ∧
    NewTableInfoArgs [a, b]
      = .ok { schema := a, tableName := b, templatizedSchema := "",
              templatizedTableName := "" } ∧
    NewTableInfoArgs [a, b, c, d]
      = .ok { schema := a, tableName := b, templatizedSchema := c,
              templatizedTableName := d } ∧
    NewTableInfoArgs args = .error invalidArgs := by
  refine ⟨rfl, rfl, rfl, rfl, ?_⟩
  unfold NewTableInfoArgs
  rw [if_neg h.1, if_neg h.2.1, if_neg h.2.2]

/-- C34 at the calls of the repository's test: `NewTableInfo("invalid")` panics. -/
theorem C34_NewTableInfo_witness :
    (["invalid"].length ≠ 0 ∧ ["invalid"].length ≠ 2 ∧ ["invalid"].length ≠ 4) ∧
    NewTableInfoArgs ["public", "users", "{{public}}", "{{users}}"]
      = .ok ⟨"{{public}}", "{{users}}", "public", "users"⟩ ∧
    NewTableInfoArgs ["invalid"] = .error invalidArgs :=
  ⟨by decide,
    (C34_NewTableInfo "public" "users" "{{public}}" "{{users}}" ["invalid"] (by decide)).2.2.2.1,
    (C34_NewTableInfo "" "" "" "" ["invalid"] (by decide)).2.2.2.2⟩

/-- C37: the template text of a LIMIT clause with an offset is ` LIMIT `, the text of
the offset, `, ` and the text of the count, and the parameters of the offset come before
those of the count; without an offset the text is ` LIMIT ` and the text of the count.
`LIMIT 10 OFFSET 20` gives ` LIMIT ?, ?` with the parameters 20 and 10. -/
theorem C37_limit (Count Offset : Node) (flag : Bool) :
    text (.Limit Count (some Offset)) flag
      = " LIMIT " ++ text Offset flag ++ ", " ++ text Count flag ∧
    parameters (.Limit Count (some Offset)) flag
      = parameters Offset flag ++ parameters Count flag ∧
    text (.Limit Count none) flag = " LIMIT " ++ text Count flag ∧
    parameters (.Limit Count none) flag = parameters Count flag ∧
    text (.Limit (.ValueExpr (.uint64 10)) (some (.ValueExpr (.uint64 20)))) false
      = " LIMIT ?, ?" ∧
    parameters (.Limit (.ValueExpr (.uint64 10)) (some (.ValueExpr (.uint64 20)))) false
      = [.uint64 20, .uint64 10] := by
  refine ⟨?_, ?_, ?_, ?_, by decide, by decide⟩
  · show (Accept (.Limit Count (some Offset)) (blankVisitor flag)).builder = _
    simp only [Accept, handleLimit]
    simp [accept_builder, accept_inAggrFunc, ExtractVisitor.WriteString, blankVisitor,
      String.append_assoc]
  · show (Accept (.Limit Count (some Offset)) (blankVisitor flag)).params = _
    simp only [Accept, handleLimit]
    simp [accept_params, accept_inAggrFunc, ExtractVisitor.WriteString, blankVisitor]
  · show (Accept (.Limit Count none) (blankVisitor flag)).builder = _
    simp only [Accept, handleLimit]
    simp [accept_builder, accept_inAggrFunc, ExtractVisitor.WriteString, blankVisitor]
  · show (Accept (.Limit Count none) (blankVisitor flag)).params = _
    simp only [Accept, handleLimit]
    simp [accept_params, accept_inAggrFunc, ExtractVisitor.WriteString, blankVisitor]

/-- When the final segment does not parse, templateTable returns its argument. -/
theorem templateTable_of_not_parse (x : String) (h : Atoi (lastSegment x) = none) :
    templateTable x = x := by
  unfold templateTable
  split
  · rfl
  · unfold lastSegment at h
    simp only [h]

theorem parseDigits_foldl_none (cs : List Char) :
    cs.foldl (fun (a : Option Nat) c => match a with
      | none => none
      | some n => if c.isDigit then some (n * 10 + (c.toNat - 48)) else none) none = none := by
  induction cs with
  | nil => rfl
  | cons c cs ih => simpa using ih

/-- A text that parseDigits accepts consists of decimal digits. -/
theorem digits_of_parseDigits (cs : List Char) (n : Nat) (h : parseDigits cs = some n) :
    ∀ c ∈ cs, c.isDigit = true := by
  have key : ∀ (l : List Char) (acc : Nat) (m : Nat),
      l.foldl (fun (a : Option Nat) c => match a with
        | none => none
        | some n => if c.isDigit then some (n * 10 + (c.toNat - 48)) else none) (some acc)
        = some m → ∀ c ∈ l, c.isDigit = true := by
    intro l
    induction l with
    | nil => intro _ _ _ c hc; simp at hc
    | cons d l ih =>
      intro acc m hm c hc
      by_cases hd : d.isDigit = true
      · simp only [List.foldl_cons, hd, if_true] at hm
        rcases List.mem_cons.mp hc with rfl | hc
        · exact hd
        · exact ih _ m hm c hc
      · simp only [List.foldl_cons, hd, Bool.false_eq_true, if_false] at hm
        rw [parseDigits_foldl_none] at hm
        exact absurd hm (by simp)
  cases cs with
  | nil => intro c hc; simp at hc
  | cons d l => exact key (d :: l) 0 n (by simpa [parseDigits] using h)

/-- A text that strconv.Atoi accepts is a non-empty string of decimal digits, possibly
after one sign. -/
theorem form_of_Atoi (s : String) (h : Atoi s ≠ none) :
    ∃ ds : List Char, ds ≠ [] ∧ (∀ c ∈ ds, c.isDigit = true) ∧
      (s.toList = ds ∨ s.toList = '-' :: ds ∨ s.toList = '+' :: ds) := by
  unfold Atoi at h
  dsimp only at h
  split at h
  · exact absurd rfl h
  · rename_i hne
    split at h
    · exact absurd rfl h
    · rename_i n hn
      have hd := digits_of_parseDigits _ n hn
      refine ⟨_, hne, hd, ?_⟩
      split
      · rename_i r heq
        right; left; exact heq
      · rename_i r heq
        right; right; exact heq
      · left; rfl

/-- C38 as stated fails: the final segments `-5` and `+5` are not strings of decimal
digits, and templateTable replaces them. -/
theorem C38_signed_suffix_replaced :
    lastSegment "t_-5" = "-5" ∧ ¬ (∀ c ∈ (lastSegment "t_-5").toList, c.isDigit = true) ∧
    templateTable "t_-5" = "t_?" ∧ templateTable "t_+5" = "t_?" ∧
    templateTable "t_-5" ≠ "t_-5" := by
  decide

/-- C38 as amended: templateTable changes an identifier only if its final segment is a
non-empty string of decimal digits, possibly after one sign `-` or `+`, that
strconv.Atoi accepts; every other identifier is returned unchanged. -/
theorem C38_changed_only_if_integer (x : String) (h : templateTable x ≠ x) :
    Atoi (lastSegment x) ≠ none ∧
    ∃ ds : List Char, ds ≠ [] ∧ (∀ c ∈ ds, c.isDigit = true) ∧
      ((lastSegment x).toList = ds ∨ (lastSegment x).toList = '-' :: ds ∨
        (lastSegment x).toList = '+' :: ds) := by
  have hp : Atoi (lastSegment x) ≠ none := fun hn => h (templateTable_of_not_parse x hn)
  exact ⟨hp, form_of_Atoi _ hp⟩

/-- C38 as amended, at `t_-5` and, for the identifiers it leaves unchanged, at
`t_5a`. -/
theorem C38_changed_only_if_integer_witness :
    templateTable "t_-5" ≠ "t_-5" ∧ Atoi (lastSegment "t_-5") ≠ none ∧
    templateTable "t_5a" = "t_5a" :=
  ⟨by decide, (C38_changed_only_if_integer "t_-5" (by decide)).1, by decide⟩

/-- Deduplication of a list in two parts: the second part is deduplicated with the
first part as earlier references. -/
theorem keepFirstSeen_append {α : Type} (key : α → String) (xs ys : List α) :
    ∀ earlier : List α,
      keepFirstSeen key earlier (xs ++ ys)
        = keepFirstSeen key earlier xs ++ keepFirstSeen key (earlier ++ xs) ys := by
  induction xs with
  | nil => intro earlier; simp [keepFirstSeen]
  | cons x xs ih =>
    intro earlier
    simp only [List.cons_append, keepFirstSeen]
    split <;> simp [ih, List.append_assoc]

/-- C39 as stated fails: in `SELECT * FROM a.b JOIN a.b`, where the first table is the
table `a.b` without schema and the second is the table `b` of schema `a`, the two
collected references have different pairs of schema and table, and the second is
removed. -/
theorem C39_different_pair_removed :
    (Accept (stmtDottedName (.TableName "a" "b")) freshVisitor).tableInfos
      = [⟨"", "a.b", "", "a.b"⟩, ⟨"a", "b", "a", "b"⟩] ∧
    (("", "a.b") : String × String) ≠ ("a", "b") ∧
    (extractOneStmt NewExtractor none (stmtDottedName (.TableName "a" "b"))).2.tableInfos
      = some [⟨"", "a.b", "", "a.b"⟩] := by
  decide

/-- C39 as amended: the table list extractOneStmt returns is the collected list
deduplicated by key (schema + "." + table, or the table alone when the schema is
empty).  A reference whose key differs from the key of every earlier collected
reference is kept, between what is kept of the references before it and what is kept of
the references after it. -/
theorem C39_kept_when_key_is_new (e : Extractor) (choice : Option Nat) (stmt : Node)
    (pv : PooledVisitor) (before after : List TableInfo) (t : TableInfo)
    (hget : (e.poolGet choice).1 = .visitor pv)
    (hsplit : (visitorAfter (e.poolGet choice).2 pv stmt).tableInfos = before ++ t :: after)
    (hnew : ∀ u ∈ before, tableKey u ≠ tableKey t) :
    (extractOneStmt e choice stmt).2.tableInfos
      = some (keepFirstSeen tableKey [] before ++ t ::
          keepFirstSeen tableKey (before ++ [t]) after) ∧
    (∀ ts, (extractOneStmt e choice stmt).2.tableInfos = some ts → t ∈ ts) := by
  have hnot : tableKey t ∉ before.map tableKey := by
    intro hk
    obtain ⟨u, hu, huk⟩ := List.mem_map.mp hk
    exact hnew u hu huk
  have hres : (extractOneStmt e choice stmt).2.tableInfos
      = some (keepFirstSeen tableKey [] before ++ t ::
          keepFirstSeen tableKey (before ++ [t]) after) := by
    have h1 : (extractOneStmt e choice stmt).2.tableInfos
        = some (UniqBy (visitorAfter (e.poolGet choice).2 pv stmt).tableInfos tableKey) := by
      simp only [extractOneStmt, hget, visitorAfter, Leave]
    rw [h1, UniqBy_eq_keepFirstSeen, hsplit, keepFirstSeen_append]
    simp [keepFirstSeen, hnot]
  refine ⟨hres, ?_⟩
  intro ts hts
  rw [hres] at hts
  cases hts
  simp

/-- C39 as amended, at `SELECT * FROM users JOIN orders` on a new extractor: `orders`
is kept after `users`. -/
theorem C39_kept_when_key_is_new_witness :
    (NewExtractor.poolGet none).1 = .visitor newPooledVisitor ∧
    (visitorAfter (NewExtractor.poolGet none).2 newPooledVisitor stmtTwoTables).tableInfos
      = [⟨"", "users", "", "users"⟩] ++ ⟨"", "orders", "", "orders"⟩ :: [] ∧
    (extractOneStmt NewExtractor none stmtTwoTables).2.tableInfos
      = some (keepFirstSeen tableKey [] [⟨"", "users", "", "users"⟩] ++
          ⟨"", "orders", "", "orders"⟩ ::
          keepFirstSeen tableKey ([⟨"", "users", "", "users"⟩] ++
            [⟨"", "orders", "", "orders"⟩]) []) :=
  ⟨by decide, by decide,
    (C39_kept_when_key_is_new NewExtractor none stmtTwoTables newPooledVisitor
      [⟨"", "users", "", "users"⟩] [] ⟨"", "orders", "", "orders"⟩ (by decide) (by decide)
      (by decide)).1⟩

/-- When the internal Extract returns an error, its four result slices are nil. -/
theorem Extract_err_nil (Parse : String → List Node × Option GoError)
    (sched : Nat → Option Nat) (e : Extractor) (sql : String)
    (h : (Extract Parse sched e sql).2.err ≠ none) :
    (Extract Parse sched e sql).2.templates = none ∧
    (Extract Parse sched e sql).2.tableInfos = none ∧
    (Extract Parse sched e sql).2.params = none ∧
    (Extract Parse sched e sql).2.opTypes = none := by
  by_cases hs : sql = ""
  · simp [Extract, hs, ExtractOutput.failure]
  · cases hp : (Parse sql).2 with
    | some err => simp [Extract, hs, hp, ExtractOutput.failure]
    | none =>
      by_cases hn : (Parse sql).1.length = 0
      · simp [Extract, hs, hp, hn, ExtractOutput.failure]
      · simp only [Extract, hs, hp, hn, if_false] at h ⊢
        exact extractLoop_err_nil sched _ _ _ _ _ _ _ h

/-- C40: when the public Extract returns an error, TemplatizedSQL, Params, TableInfos
and OpType return nil afterwards, whatever the extractor held before, and RawSQL
returns the input that was set. -/
theorem C40_error_clears_results (Parse : String → List Node × Option GoError)
    (sched : Nat → Option Nat) (Sum256 : Bytes → Bytes) (e : Public.Extractor)
    (h : (e.Extract Parse sched Sum256).2 ≠ none) :
    (e.Extract Parse sched Sum256).1.TemplatizedSQL = none ∧
    (e.Extract Parse sched Sum256).1.Params = none ∧
    (e.Extract Parse sched Sum256).1.TableInfos = none ∧
    (e.Extract Parse sched Sum256).1.OpType = none ∧
    (e.Extract Parse sched Sum256).1.RawSQL = e.RawSQL := by
  cases herr : (Extract Parse sched NewExtractor e.rawSQL).2.err with
  | none => simp [Public.Extractor.Extract, herr] at h
  | some err =>
    obtain ⟨h1, h2, h3, h4⟩ := Extract_err_nil Parse sched NewExtractor e.rawSQL
      (by rw [herr]; simp)
    simp [Public.Extractor.Extract, herr, h1, h2, h3, h4, paramsOf,
      Public.Extractor.TemplatizedSQL, Public.Extractor.Params,
      Public.Extractor.TableInfos, Public.Extractor.OpType, Public.Extractor.RawSQL]

/-- C40 at an extractor that first extracts `SELECT 1` and then, with the raw SQL set
to `SELEC 1`, fails: the template of the first input is gone. -/
theorem C40_error_clears_results_witness :
    ((Public.NewExtractor "SELECT 1").Extract parseSelectOne reuseLast
        (fun _ => [])).1.TemplatizedSQL = some ["SELECT ?"] ∧
    ((((Public.NewExtractor "SELECT 1").Extract parseSelectOne reuseLast
        (fun _ => [])).1.SetRawSQL "SELEC 1").Extract parseSelectOne reuseLast
        (fun _ => [])).2 ≠ none ∧
    ((((Public.NewExtractor "SELECT 1").Extract parseSelectOne reuseLast
        (fun _ => [])).1.SetRawSQL "SELEC 1").Extract parseSelectOne reuseLast
        (fun _ => [])).1.TemplatizedSQL = none ∧
    ((((Public.NewExtractor "SELECT 1").Extract parseSelectOne reuseLast
        (fun _ => [])).1.SetRawSQL "SELEC 1").Extract parseSelectOne reuseLast
        (fun _ => [])).1.RawSQL = "SELEC 1" :=
  ⟨by decide, by decide,
    (C40_error_clears_results parseSelectOne reuseLast (fun _ => [])
      (((Public.NewExtractor "SELECT 1").Extract parseSelectOne reuseLast
        (fun _ => [])).1.SetRawSQL "SELEC 1") (by decide)).1,
    (C40_error_clears_results parseSelectOne reuseLast (fun _ => [])
      (((Public.NewExtractor "SELECT 1").Extract parseSelectOne reuseLast
        (fun _ => [])).1.SetRawSQL "SELEC 1") (by decide)).2.2.2.2⟩

/-! ### Tables of a node -/

theorem setOpType_tableInfos (v : ExtractVisitor) (k : SQLOpType) :
    (v.setOpType k).tableInfos = v.tableInfos := by
  unfold ExtractVisitor.setOpType
  split <;> rfl

theorem foldl_sep_tableInfos (sep : String) (fs : List Visit) (hS : ListShifts fs)
    (hF : ListFramed fs) :
    ∀ w : ExtractVisitor,
      (fs.foldl (fun acc g => g (acc.WriteString sep)) w).tableInfos
        = w.tableInfos ++ (fs.map (fun f => collected f w.inAggrFunc)).flatten := by
  induction fs with
  | nil => intro w; simp
  | cons f fs ih =>
    intro w
    have hf := hS f (List.mem_cons_self _ _)
    have hff := hF f (List.mem_cons_self _ _)
    simp only [List.foldl_cons, List.map_cons, List.flatten_cons]
    rw [ih (fun g hg => hS g (List.mem_cons_of_mem _ hg))
      (fun g hg => hF g (List.mem_cons_of_mem _ hg)), shifts_tableInfos hf,
      (hff _).inAggrFunc, List.append_assoc]
    rfl

/-- A list of visits separated by `sep` collects the tables of the visits in list
order. -/
theorem forEachSep_tableInfos (sep : String) (fs : List Visit) (hS : ListShifts fs)
    (hF : ListFramed fs) (v : ExtractVisitor) :
    (forEachSep sep fs v).tableInfos
      = v.tableInfos ++ (fs.map (fun f => collected f v.inAggrFunc)).flatten := by
  cases fs with
  | nil => simp [forEachSep]
  | cons f fs =>
    have hf := hS f (List.mem_cons_self _ _)
    have hff := hF f (List.mem_cons_self _ _)
    simp only [forEachSep, List.map_cons, List.flatten_cons]
    rw [foldl_sep_tableInfos sep fs (fun g hg => hS g (List.mem_cons_of_mem _ hg))
      (fun g hg => hF g (List.mem_cons_of_mem _ hg)), shifts_tableInfos hf,
      (hff _).inAggrFunc, List.append_assoc]

theorem forEachSep_acceptList_tableInfos (sep : String) (ns : List Node)
    (v : ExtractVisitor) :
    (forEachSep sep (acceptList ns) v).tableInfos
      = v.tableInfos ++ (ns.map (fun n => tables n v.inAggrFunc)).flatten := by
  rw [forEachSep_tableInfos sep _ (acceptList_shifts ns) (acceptList_framed ns),
    acceptList_eq_map, List.map_map]
  rfl

/-- The text and the table reference of a table-name node. -/
theorem tableName_text_tables (Schema Name : String) (flag : Bool) :
    text (.TableName Schema Name) flag
      = (if Schema ≠ "" then templateTable Schema ++ "." else "") ++ templateTable Name ∧
    tables (.TableName Schema Name) flag
      = [⟨templateTable Schema, templateTable Name, Schema, Name⟩] := by
  constructor
  · show (Accept (.TableName Schema Name) (blankVisitor flag)).builder = _
    simp only [Accept, handleTableName]
    by_cases hs : Schema = "" <;>
      simp [hs, ExtractVisitor.WriteString, blankVisitor, String.append_assoc]
  · show (Accept (.TableName Schema Name) (blankVisitor flag)).tableInfos = _
    simp only [Accept, handleTableName]
    by_cases hs : Schema = ""
    · subst hs
      simp [blankVisitor, NewTableInfo, templateTable]
    · simp [hs, blankVisitor, NewTableInfo]

theorem flatten_map_single {α β : Type} (f : α → β) (l : List α) :
    (l.map (fun x => [f x])).flatten = l.map f := by
  induction l with
  | nil => rfl
  | cons x l ih => simp [ih]

/-- C35 as stated fails: for `SHOW COLUMNS FROM t WHERE Field IN (SELECT name FROM u)`
the table list is not empty; it holds the table `u` of the sub-query, and not the named
table `t`. -/
theorem C35_show_columns_where_subquery :
    (extractOneStmt NewExtractor none stmtShowColumnsWhere).2.tableInfos
      = some [⟨"", "u", "", "u"⟩] ∧
    (extractOneStmt NewExtractor none stmtShowColumnsWhere).2.tableInfos ≠ some [] := by
  decide

/-- C35 as amended: for SHOW CREATE TABLE, SHOW COLUMNS and SHOW INDEX the named table
is written with its schema and name as they are, and it is not added to the table list.
The list is empty for SHOW CREATE TABLE and SHOW INDEX, and for SHOW COLUMNS it holds
the tables of the LIKE pattern and of the WHERE condition and nothing else. -/
theorem C35_show_named_table (schema name DBName : String) (IfNotExists Full : Bool)
    (Pattern Where Limit : Option Node) (flag : Bool) :
    text (.ShowStmt .ShowCreateTable (some (schema, name)) DBName IfNotExists Full Pattern
        Where Limit) flag = "SHOW CREATE TABLE " ++ rawTableName schema name ∧
    tables (.ShowStmt .ShowCreateTable (some (schema, name)) DBName IfNotExists Full Pattern
        Where Limit) flag = [] ∧
    text (.ShowStmt .ShowIndex (some (schema, name)) DBName IfNotExists Full Pattern
        Where Limit) flag = "SHOW INDEX FROM " ++ rawTableName schema name ∧
    tables (.ShowStmt .ShowIndex (some (schema, name)) DBName IfNotExists Full Pattern
        Where Limit) flag = [] ∧
    text (.ShowStmt .ShowColumns (some (schema, name)) DBName IfNotExists Full Pattern
        Where Limit) flag
      = "SHOW COLUMNS FROM " ++ rawTableName schema name ++
        (match Pattern with
          | some p => " LIKE " ++ (match p.asValueExpr with
            | some _ => "?"
            | none => text p flag)
          | none => "") ++
        (match Where with
          | some w => " WHERE " ++ text w flag
          | none => "") ∧
    tables (.ShowStmt .ShowColumns (some (schema, name)) DBName IfNotExists Full Pattern
        Where Limit) flag
      = (match Pattern with
          | some p => (match p.asValueExpr with
            | some _ => []
            | none => tables p flag)
          | none => []) ++
        (match Where with
          | some w => tables w flag
          | none => []) ∧
    text (.ShowStmt .ShowCreateTable (some ("", "tbUserTask_6")) "" false false none none
        none) false = "SHOW CREATE TABLE tbUserTask_6" ∧
    templateTable "tbUserTask_6" = "tbUserTask_?" := by
  refine ⟨?_, ?_, ?_, ?_, ?_, ?_, by decide, by decide⟩
  · show (Accept (.ShowStmt .ShowCreateTable _ _ _ _ _ _ _) (blankVisitor flag)).builder = _
    rcases Pattern with _ | p <;> rcases Where with _ | w <;> rcases Limit with _ | l <;>
      simp only [Accept, handleShowStmt, appendTableName, rawTableName] <;>
      by_cases hs : schema = "" <;>
      simp [hs, setOpType_builder, ExtractVisitor.WriteString, blankVisitor,
        String.append_assoc]
  · show (Accept (.ShowStmt .ShowCreateTable _ _ _ _ _ _ _) (blankVisitor flag)).tableInfos = _
    rcases Pattern with _ | p <;> rcases Where with _ | w <;> rcases Limit with _ | l <;>
      simp only [Accept, handleShowStmt, appendTableName] <;>
      by_cases hs : schema = "" <;>
      simp [hs, setOpType_tableInfos, ExtractVisitor.WriteString, blankVisitor]
  · show (Accept (.ShowStmt .ShowIndex _ _ _ _ _ _ _) (blankVisitor flag)).builder = _
    rcases Pattern with _ | p <;> rcases Where with _ | w <;> rcases Limit with _ | l <;>
      simp only [Accept, handleShowStmt, appendTableName, rawTableName] <;>
      by_cases hs : schema = "" <;>
      simp [hs, setOpType_builder, ExtractVisitor.WriteString, blankVisitor,
        String.append_assoc]
  · show (Accept (.ShowStmt .ShowIndex _ _ _ _ _ _ _) (blankVisitor flag)).tableInfos = _
    rcases Pattern with _ | p <;> rcases Where with _ | w <;> rcases Limit with _ | l <;>
      simp only [Accept, handleShowStmt, appendTableName] <;>
      by_cases hs : schema = "" <;>
      simp [hs, setOpType_tableInfos, ExtractVisitor.WriteString, blankVisitor]
  · show (Accept (.ShowStmt .ShowColumns _ _ _ _ _ _ _) (blankVisitor flag)).builder = _
    rcases Pattern with _ | p <;> rcases Where with _ | w <;> rcases Limit with _ | l <;>
      simp only [Accept, handleShowStmt, appendTableName, appendPatternAndWhere,
        patternVisit, exprClause, rawTableName] <;>
      by_cases hs : schema = "" <;>
      (try cases p.asValueExpr) <;>
      simp only [hs, ne_eq, not_true_eq_false, not_false_eq_true, if_true, if_false,
        setOpType_builder, setOpType_inAggrFunc, accept_builder, accept_inAggrFunc,
        ExtractVisitor.WriteString, ExtractVisitor.appendParam, blankVisitor,
        String.append_assoc, String.empty_append, String.append_empty] <;>
      rw [← String.append_assoc "SHOW "] <;> rfl
  · show (Accept (.ShowStmt .ShowColumns _ _ _ _ _ _ _) (blankVisitor flag)).tableInfos = _
    rcases Pattern with _ | p <;> rcases Where with _ | w <;> rcases Limit with _ | l <;>
      simp only [Accept, handleShowStmt, appendTableName, appendPatternAndWhere,
        patternVisit, exprClause] <;>
      by_cases hs : schema = "" <;>
      (try cases p.asValueExpr) <;>
      simp [hs, setOpType_tableInfos, setOpType_inAggrFunc, accept_tableInfos,
        accept_inAggrFunc, ExtractVisitor.WriteString, ExtractVisitor.appendParam,
        blankVisitor]

/-- What extractOneStmt returns as table list on a visitor that comes from the pool
with no table collected: the tables of the statement, deduplicated. -/
theorem extractOneStmt_tableInfos (e : Extractor) (choice : Option Nat) (stmt : Node)
    (pv : PooledVisitor) (hget : (e.poolGet choice).1 = .visitor pv)
    (htables : pv.tableInfos = []) :
    (extractOneStmt e choice stmt).2.tableInfos
      = some (keepFirstSeen tableKey [] (tables stmt pv.inAggrFunc)) := by
  simp only [extractOneStmt, hget, Leave]
  rw [accept_tableInfos, UniqBy_eq_keepFirstSeen]
  simp [htables]

/-- C36: for a DELETE with a target list the template text is `DELETE `, the texts of
the targets joined with `, `, ` FROM ` and the text of the table references, followed by
the WHERE, ORDER BY and LIMIT clauses; the collected tables are one reference for every
target name, in the written order, followed by the tables of the table references and
of the other clauses; and the table list extractOneStmt returns starts with the target
references, deduplicated, ahead of every other table. -/
theorem C36_delete_targets (targets : List (String × String))
    (TableRefs : Option (Option Node)) (Where : Option Node) (Order : Option (List Node))
    (Limit : Option Node) (flag : Bool) (e : Extractor) (choice : Option Nat)
    (pv : PooledVisitor) (hget : (e.poolGet choice).1 = .visitor pv)
    (htables : pv.tableInfos = []) :
    text (.DeleteStmt (some (targets.map (fun p => .TableName p.1 p.2))) TableRefs Where
        Order Limit) flag
      = "DELETE " ++ ", ".intercalate (targets.map (fun p => text (.TableName p.1 p.2) flag))
        ++ " FROM " ++
        (match TableRefs with
          | some (some refs) => text refs flag
          | _ => "") ++
        (match Where with
          | some w => " WHERE " ++ text w flag
          | none => "") ++
        (match Order with
          | some items => " ORDER BY " ++ ", ".intercalate (items.map (fun n => text n flag))
          | none => "") ++
        (match Limit with
          | some l => text l flag
          | none => "") ∧
    tables (.DeleteStmt (some (targets.map (fun p => .TableName p.1 p.2))) TableRefs Where
        Order Limit) flag
      = targets.map (fun p => ⟨templateTable p.1, templateTable p.2, p.1, p.2⟩) ++
        tables (.DeleteStmt none TableRefs Where Order Limit) flag ∧
    tables (.DeleteStmt none TableRefs Where Order Limit) flag
      = (match TableRefs with
          | some (some refs) => tables refs flag
          | _ => []) ++
        (match Where with
          | some w => tables w flag
          | none => []) ++
        (match Order with
          | some items => (items.map (fun n => tables n flag)).flatten
          | none => []) ++
        (match Limit with
          | some l => tables l flag
          | none => []) ∧
    (extractOneStmt e choice (.DeleteStmt (some (targets.map (fun p => .TableName p.1 p.2)))
        TableRefs Where Order Limit)).2.tableInfos
      = some (keepFirstSeen tableKey []
            (targets.map (fun p => ⟨templateTable p.1, templateTable p.2, p.1, p.2⟩)) ++
          keepFirstSeen tableKey
            (targets.map (fun p => ⟨templateTable p.1, templateTable p.2, p.1, p.2⟩))
            (tables (.DeleteStmt none TableRefs Where Order Limit) pv.inAggrFunc)) := by
  have htargets : ∀ g : Bool,
      ((targets.map (fun p => Node.TableName p.1 p.2)).map (fun n => tables n g)).flatten
        = targets.map (fun p => ⟨templateTable p.1, templateTable p.2, p.1, p.2⟩) := by
    intro g
    rw [List.map_map]
    have hfun : ((fun n => tables n g) ∘ fun p : String × String => Node.TableName p.1 p.2)
        = fun p => [⟨templateTable p.1, templateTable p.2, p.1, p.2⟩] :=
      funext fun p => (tableName_text_tables p.1 p.2 g).2
    rw [hfun]
    exact flatten_map_single _ targets
  have hrest : ∀ g : Bool, tables (.DeleteStmt none TableRefs Where Order Limit) g
      = (match TableRefs with
          | some (some refs) => tables refs g
          | _ => []) ++
        (match Where with
          | some w => tables w g
          | none => []) ++
        (match Order with
          | some items => (items.map (fun n => tables n g)).flatten
          | none => []) ++
        (match Limit with
          | some l => tables l g
          | none => []) := by
    intro g
    show (Accept (.DeleteStmt none TableRefs Where Order Limit) (blankVisitor g)).tableInfos = _
    rcases TableRefs with _ | _ | j <;> rcases Where with _ | w <;>
      rcases Order with _ | o <;> rcases Limit with _ | l <;>
      simp only [Accept, handleDeleteStmt, tableRefsVisit, exprClause, listClause, visitOpt,
        forEachSep_acceptList_tableInfos, forEachSep_acceptList_inAggrFunc,
        accept_tableInfos, accept_inAggrFunc, setOpType_tableInfos, setOpType_inAggrFunc,
        ExtractVisitor.WriteString] <;>
      simp [blankVisitor]
  have htab : ∀ g : Bool,
      tables (.DeleteStmt (some (targets.map (fun p => .TableName p.1 p.2))) TableRefs Where
          Order Limit) g
        = targets.map (fun p => ⟨templateTable p.1, templateTable p.2, p.1, p.2⟩) ++
          tables (.DeleteStmt none TableRefs Where Order Limit) g := by
    intro g
    rw [hrest g, ← htargets g]
    show (Accept (.DeleteStmt (some _) TableRefs Where Order Limit)
      (blankVisitor g)).tableInfos = _
    rcases TableRefs with _ | _ | j <;> rcases Where with _ | w <;>
      rcases Order with _ | o <;> rcases Limit with _ | l <;>
      simp only [Accept, handleDeleteStmt, tableRefsVisit, exprClause, listClause, visitOpt,
        forEachSep_acceptList_tableInfos, forEachSep_acceptList_inAggrFunc,
        accept_tableInfos, accept_inAggrFunc, setOpType_tableInfos, setOpType_inAggrFunc,
        ExtractVisitor.WriteString] <;>
      simp [blankVisitor]
  refine ⟨?_, htab flag, hrest flag, ?_⟩
  · show (Accept (.DeleteStmt (some _) TableRefs Where Order Limit)
      (blankVisitor flag)).builder = _
    rcases TableRefs with _ | _ | j <;> rcases Where with _ | w <;>
      rcases Order with _ | o <;> rcases Limit with _ | l <;>
      simp only [Accept, handleDeleteStmt, tableRefsVisit, exprClause, listClause, visitOpt,
        forEachSep_acceptList_builder, forEachSep_acceptList_inAggrFunc,
        accept_builder, accept_inAggrFunc, setOpType_builder, setOpType_inAggrFunc,
        ExtractVisitor.WriteString, List.map_map, Function.comp_def, blankVisitor,
        String.append_assoc, String.empty_append, String.append_empty] <;>
      rfl
  · rw [extractOneStmt_tableInfos e choice _ pv hget htables, htab, keepFirstSeen_append]
    simp

/-- C36 at `DELETE u, r FROM users u INNER JOIN roles r ON u.id = r.user_id WHERE
u.id = 1` on a new extractor: the template and the table list `u`, `r`, `users`,
`roles`. -/
theorem C36_delete_targets_witness :
    (NewExtractor.poolGet none).1 = .visitor newPooledVisitor ∧
    newPooledVisitor.tableInfos = [] ∧
    text stmtDeleteTargets false
      = "DELETE u, r FROM users AS u CROSS JOIN roles AS r ON u.id eq r.user_id" ++
        " WHERE u.id eq ?" ∧
    (extractOneStmt NewExtractor none stmtDeleteTargets).2.tableInfos
      = some [⟨"", "u", "", "u"⟩, ⟨"", "r", "", "r"⟩, ⟨"", "users", "", "users"⟩,
          ⟨"", "roles", "", "roles"⟩] :=
  have h := C36_delete_targets [("", "u"), ("", "r")]
    (some (some (.Join (some (.TableSource (.TableName "" "users") "u"))
      (some (.TableSource (.TableName "" "roles") "r")) .CrossJoin
      (some (.OnCondition (.BinaryOperationExpr .EQ (.ColumnNameExpr ⟨"", "u", "id"⟩)
        (.ColumnNameExpr ⟨"", "r", "user_id"⟩)))))))
    (some (.BinaryOperationExpr .EQ (.ColumnNameExpr ⟨"", "u", "id"⟩)
      (.ValueExpr (.int64 1))))
    none none false NewExtractor none newPooledVisitor (by decide) (by decide)
  ⟨by decide, by decide, h.1.trans (by decide), h.2.2.2.trans (by decide)⟩

/-! ### Slices in the heap -/

theorem Heap.valid_iff (h : Heap) (s : Slice) :
    h.valid s = true ↔
      s.arr < h.length ∧ (h.getD s.arr []).length = s.cap ∧ s.len ≤ s.cap := by
  simp [Heap.valid, and_assoc]

theorem take_succ_set {α : Type} (x : α) :
    ∀ (l : List α) (n : Nat), n < l.length → (l.set n x).take (n + 1) = l.take n ++ [x] := by
  intro l
  induction l with
  | nil => intro n hn; simp at hn
  | cons a l ih =>
    intro n hn
    cases n with
    | zero => simp
    | succ n =>
      have := ih n (by simpa using hn)
      simp [List.set, this]

theorem getD_set_length (h : Heap) (i j : Nat) (b : List Value)
    (hb : b.length = (h.getD i []).length) :
    ((h.set i b).getD j []).length = (h.getD j []).length := by
  by_cases hij : i = j
  · subst hij
    by_cases hi : i < h.length
    · simp [List.getD_eq_getElem?_getD, List.getElem?_set, hi, hb] at *
    · rw [List.set_eq_of_length_le (by omega)]
  · simp [List.getD_eq_getElem?_getD, List.getElem?_set, hij]

theorem Heap.valid_grow (h : Heap) (more : List (List Value)) (t : Slice)
    (ht : h.valid t = true) : Heap.valid (h ++ more) t = true := by
  rw [Heap.valid_iff] at ht ⊢
  obtain ⟨h1, h2, h3⟩ := ht
  refine ⟨by simp; omega, ?_, h3⟩
  rw [List.getD_eq_getElem?_getD, List.getElem?_append_left h1,
    ← List.getD_eq_getElem?_getD]
  exact h2

/-- One append: the slice returned fits the heap and shows the elements of the slice
appended to followed by the new element; every slice that fitted the heap still does. -/
theorem Heap.append_spec (h : Heap) (s : Slice) (x : Value) (hs : h.valid s = true) :
    (h.append s x).1.valid (h.append s x).2 = true ∧
    (h.append s x).1.read (h.append s x).2 = h.read s ++ [x] ∧
    ∀ t, h.valid t = true → (h.append s x).1.valid t = true := by
  have hs0 := (Heap.valid_iff h s).1 hs
  obtain ⟨h1, h2, h3⟩ := hs0
  by_cases hlt : s.len < s.cap
  · have hlen : ((h.getD s.arr []).set s.len x).length = (h.getD s.arr []).length := by simp
    refine ⟨?_, ?_, ?_⟩
    · rw [Heap.valid_iff]
      simp only [Heap.append, hlt, if_true]
      refine ⟨by simpa using h1, ?_, by omega⟩
      rw [getD_set_length h _ _ _ hlen]; exact h2
    · simp only [Heap.append, hlt, if_true, Heap.read]
      have : (h.set s.arr ((h.getD s.arr []).set s.len x)).getD s.arr []
          = (h.getD s.arr []).set s.len x := by
        simp [List.getD_eq_getElem?_getD, List.getElem?_set, h1]
      rw [this, take_succ_set x _ _ (by omega)]
    · intro t ht
      rw [Heap.valid_iff] at ht ⊢
      simp only [Heap.append, hlt, if_true]
      refine ⟨by simpa using ht.1, ?_, ht.2.2⟩
      rw [getD_set_length h _ _ _ hlen]; exact ht.2.1
  · have hread : (h.read s).length = s.len := by
      simp only [Heap.read, List.length_take]; omega
    refine ⟨?_, ?_, ?_⟩
    · rw [Heap.valid_iff]
      simp only [Heap.append, hlt, if_false]
      refine ⟨by simp, ?_, ?_⟩
      · simp [List.getD_eq_getElem?_getD, hread]
        split <;> omega
      · split <;> omega
    · simp only [Heap.append, hlt, if_false]
      show ((h ++ [_]).getD h.length []).take (s.len + 1) = _
      simp only [List.getD_eq_getElem?_getD, List.getElem?_append_right (Nat.le_refl _),
        Nat.sub_self, List.getElem?_cons_zero, Option.getD_some]
      rw [List.take_append_of_le_length (by simp [hread])]
      rw [List.take_of_length_le (by simp [hread])]
    · intro t ht
      simp only [Heap.append, hlt, if_false]
      exact Heap.valid_grow h _ t ht

/-- A run of appends: the slice returned fits the heap and shows the elements of the
slice appended to followed by the new elements; every slice that fitted still does. -/
theorem Heap.appendAll_spec (xs : List Value) :
    ∀ (h : Heap) (s : Slice), h.valid s = true →
      (h.appendAll s xs).1.valid (h.appendAll s xs).2 = true ∧
      (h.appendAll s xs).1.read (h.appendAll s xs).2 = h.read s ++ xs ∧
      ∀ t, h.valid t = true → (h.appendAll s xs).1.valid t = true := by
  induction xs with
  | nil => intro h s hs; simp [Heap.appendAll, hs]
  | cons x xs ih =>
    intro h s hs
    obtain ⟨a1, a2, a3⟩ := Heap.append_spec h s x hs
    obtain ⟨b1, b2, b3⟩ := ih _ _ a1
    simp only [Heap.appendAll]
    refine ⟨b1, ?_, fun t ht => b3 t (a3 t ht)⟩
    rw [b2, a2, List.append_assoc]; rfl

/-! ### The pool between statements -/

theorem Extractor.clean_iff (e : Extractor) :
    e.clean = true ↔ ∀ item ∈ e.pool, PoolItem.clean e.heap item = true := by
  simp [Extractor.clean, List.all_eq_true]

theorem PoolItem.clean_visitor (h : Heap) (item : PoolItem) (hc : item.clean h = true) :
    ∃ pv, item = .visitor pv ∧ pv.isReset = true ∧ h.valid pv.params = true := by
  cases item with
  | visitor pv => exact ⟨pv, rfl, by simpa [PoolItem.clean] using hc⟩
  | foreign _ => simp [PoolItem.clean] at hc

theorem PoolItem.clean_mono (h k : Heap) (hv : ∀ t, h.valid t = true → k.valid t = true)
    (item : PoolItem) (hc : item.clean h = true) : item.clean k = true := by
  obtain ⟨pv, rfl, hr, hp⟩ := PoolItem.clean_visitor h item hc
  simp [PoolItem.clean, hr, hv _ hp]

/-- The fields of a reset visitor. -/
theorem isReset_eq (pv : PooledVisitor) (hr : pv.isReset = true) :
    pv = ⟨"", ⟨pv.params.arr, 0, pv.params.cap⟩, false, [], .SQLOperationUnknown⟩ := by
  obtain ⟨b, ⟨a, l, c⟩, f, t, o⟩ := pv
  simp only [PooledVisitor.isReset, Bool.and_eq_true, decide_eq_true_eq, Bool.not_eq_true']
    at hr
  obtain ⟨⟨⟨⟨h1, h2⟩, h3⟩, h4⟩, h5⟩ := hr
  subst h1 h2 h3 h4 h5
  rfl

/-- Whatever the pool of a clean extractor hands out is a reset visitor whose slice
fits the heap, and the extractor stays clean. -/
theorem poolGet_clean (e : Extractor) (choice : Option Nat) (h : e.clean = true) :
    ∃ pv, (e.poolGet choice).1 = .visitor pv ∧ pv.isReset = true ∧
      (e.poolGet choice).2.heap.valid pv.params = true ∧ (e.poolGet choice).2.clean = true := by
  have hnew : ∃ pv, e.poolNew.1 = .visitor pv ∧ pv.isReset = true ∧
      e.poolNew.2.heap.valid pv.params = true ∧ e.poolNew.2.clean = true := by
    refine ⟨⟨"", ⟨e.heap.length, 0, paramsMaxCount⟩, false, [], .SQLOperationUnknown⟩,
      rfl, by simp [PooledVisitor.isReset], ?_, ?_⟩
    · rw [Heap.valid_iff]
      simp [Extractor.poolNew, Heap.make, List.getD_eq_getElem?_getD]
    · rw [Extractor.clean_iff] at h ⊢
      intro item hi
      exact PoolItem.clean_mono e.heap _ (fun t ht => Heap.valid_grow e.heap _ t ht) item
        (h item hi)
  cases choice with
  | none => exact hnew
  | some i =>
    cases hi : e.pool.get? i with
    | none =>
      simp only [Extractor.poolGet, hi]
      exact hnew
    | some item =>
      rw [Extractor.clean_iff] at h
      obtain ⟨pv, rfl, hr, hp⟩ := PoolItem.clean_visitor e.heap item (h item (List.get?_mem hi))
      simp only [Extractor.poolGet, hi]
      refine ⟨pv, rfl, hr, hp, ?_⟩
      rw [Extractor.clean_iff]
      intro item hitem
      exact h item ((List.eraseIdx_sublist e.pool i).subset hitem)

/-- One statement on a clean extractor: the results are those of the statement on a
blank visitor, the visitor put back is reset, and the extractor stays clean. -/
theorem extractOneStmt_clean (e : Extractor) (choice : Option Nat) (stmt : Node)
    (h : e.clean = true) :
    (∃ pv rest, (extractOneStmt e choice stmt).1.pool = .visitor pv :: rest ∧
      pv.isReset = true ∧ (extractOneStmt e choice stmt).1.heap.read pv.params = []) ∧
    (extractOneStmt e choice stmt).1.clean = true ∧
    stmtResults (extractOneStmt e choice stmt)
      = (text stmt false, some (UniqBy (tables stmt false) tableKey),
          some (parameters stmt false), (Accept stmt (blankVisitor false)).opType, none) := by
  obtain ⟨pv, hget, hr, hp, hc⟩ := poolGet_clean e choice h
  have hpv := isReset_eq pv hr
  generalize pv.params.arr = a at hpv
  generalize pv.params.cap = c at hpv
  subst hpv
  obtain ⟨a1, a2, a3⟩ := Heap.appendAll_spec (Accept stmt (blankVisitor false)).params
    (e.poolGet choice).2.heap ⟨a, 0, c⟩ hp
  have hread0 : (e.poolGet choice).2.heap.read ⟨a, 0, c⟩ = [] := by simp [Heap.read]
  rw [hread0, List.nil_append] at a2
  rw [Extractor.clean_iff] at hc
  have hout : extractOneStmt e choice stmt
      = (({ (e.poolGet choice).2 with
            heap := ((e.poolGet choice).2.heap.appendAll ⟨a, 0, c⟩
              (Accept stmt (blankVisitor false)).params).1 }).poolPut
          (.visitor ⟨"", { ((e.poolGet choice).2.heap.appendAll ⟨a, 0, c⟩
              (Accept stmt (blankVisitor false)).params).2 with len := 0 }, false, [],
            .SQLOperationUnknown⟩),
         ⟨(Accept stmt (blankVisitor false)).builder,
          some (UniqBy (Accept stmt (blankVisitor false)).tableInfos tableKey),
          some ((e.poolGet choice).2.heap.appendAll ⟨a, 0, c⟩
              (Accept stmt (blankVisitor false)).params).2,
          (Accept stmt (blankVisitor false)).opType, none⟩) := by
    simp only [extractOneStmt, hget, hread0, Leave, List.length_nil, List.drop_zero]
    rfl
  rw [hout]
  refine ⟨⟨_, _, rfl, by simp [PooledVisitor.isReset], by simp [Heap.read]⟩, ?_, ?_⟩
  · rw [Extractor.clean_iff]
    intro item hitem
    rcases List.mem_cons.1 hitem with rfl | hitem
    · have hb := (Heap.valid_iff _ _).1 a1
      simp only [PoolItem.clean, Bool.and_eq_true]
      refine ⟨by simp [PooledVisitor.isReset], ?_⟩
      rw [Heap.valid_iff]
      exact ⟨hb.1, hb.2.1, Nat.zero_le _⟩
    · exact PoolItem.clean_mono _ _ a3 item (hc item hitem)
  · simp only [stmtResults, stmtParams, Extractor.poolPut, Option.map_some', a2]
    rfl

/-- The loop of Extract on a clean extractor: it ends without error, templates, tables
and operation kinds are those of the statements on a blank visitor, and the extractor
it leaves is clean. -/
theorem extractLoop_clean (sched : Nat → Option Nat) (stmts : List Node) :
    ∀ (idx : Nat) (e : Extractor) (ts : List String) (tis : List (List TableInfo))
      (ps : List Slice) (ops : List SQLOpType), e.clean = true →
      (extractLoop sched idx stmts e ts tis ps ops).2.templates
        = some (ts ++ stmts.map (fun s => text s false)) ∧
      (extractLoop sched idx stmts e ts tis ps ops).2.tableInfos
        = some (tis ++ stmts.map (fun s => UniqBy (tables s false) tableKey)) ∧
      (extractLoop sched idx stmts e ts tis ps ops).2.opTypes
        = some (ops ++ stmts.map (fun s => (Accept s (blankVisitor false)).opType)) ∧
      (extractLoop sched idx stmts e ts tis ps ops).2.err = none ∧
      (extractLoop sched idx stmts e ts tis ps ops).1.clean = true := by
  induction stmts with
  | nil => intro idx e ts tis ps ops h; simp [extractLoop, h]
  | cons stmt rest ih =>
    intro idx e ts tis ps ops h
    obtain ⟨_, hc, hres⟩ := extractOneStmt_clean e (sched idx) stmt h
    simp only [stmtResults, Prod.mk.injEq] at hres
    obtain ⟨h1, h2, _, h4, h5⟩ := hres
    simp only [extractLoop, h5, h1, h2, h4, Option.getD_some]
    have := ih (idx + 1) (extractOneStmt e (sched idx) stmt).1 (ts ++ [text stmt false])
      (tis ++ [UniqBy (tables stmt false) tableKey])
      (ps ++ [(extractOneStmt e (sched idx) stmt).2.params.getD ⟨0, 0, 0⟩])
      (ops ++ [(Accept stmt (blankVisitor false)).opType]) hc
    simpa [List.append_assoc] using this

/-- Templates, tables, operation kinds and error of Extract are the same on every clean
extractor and for every selection the pool makes, and Extract leaves the extractor
clean. -/
theorem Extract_clean (Parse : String → List Node × Option GoError)
    (sched sched' : Nat → Option Nat) (e e' : Extractor) (sql : String)
    (h : e.clean = true) (h' : e'.clean = true) :
    (Extract Parse sched e sql).2.templates = (Extract Parse sched' e' sql).2.templates ∧
    (Extract Parse sched e sql).2.tableInfos = (Extract Parse sched' e' sql).2.tableInfos ∧
    (Extract Parse sched e sql).2.opTypes = (Extract Parse sched' e' sql).2.opTypes ∧
    (Extract Parse sched e sql).2.err = (Extract Parse sched' e' sql).2.err ∧
    (Extract Parse sched e sql).1.clean = true := by
  by_cases hs : sql = ""
  · simp [Extract, hs, h]
  · cases hp : (Parse sql).2 with
    | some err =>
      simp [Extract, hs, hp]
      exact h
    | none =>
      by_cases hn : (Parse sql).1.length = 0
      · simp [Extract, hs, hp, hn]
        exact h
      · simp only [Extract, hs, hp, hn, if_false]
        obtain ⟨a1, a2, a3, a4, a5⟩ :=
          extractLoop_clean sched (Parse sql).1 0 (e.afterParse sql) [] [] [] [] h
        obtain ⟨b1, b2, b3, b4, _⟩ :=
          extractLoop_clean sched' (Parse sql).1 0 (e'.afterParse sql) [] [] [] [] h'
        exact ⟨a1.trans b1.symm, a2.trans b2.symm, a3.trans b3.symm, a4.trans b4.symm, a5⟩

/-- The parameter lists Extract hands back for an input of one statement are the
parameters of that statement, on every clean extractor. -/
theorem Extract_one_params (Parse : String → List Node × Option GoError)
    (sched : Nat → Option Nat) (e : Extractor) (sql : String) (stmt : Node)
    (h : e.clean = true) (hs : sql ≠ "") (hp : Parse sql = ([stmt], none)) :
    paramsOf (Extract Parse sched e sql) = some [parameters stmt false] := by
  obtain ⟨_, _, hres⟩ := extractOneStmt_clean (e.afterParse sql) (sched 0) stmt h
  simp only [stmtResults, Prod.mk.injEq] at hres
  obtain ⟨_, _, h3, _, h5⟩ := hres
  simp only [Extract, hs, hp, if_false, List.length_singleton, Nat.succ_ne_zero, extractLoop,
    h5, paramsOf, List.nil_append, Option.map_some', List.map_cons, List.map_nil]
  cases hq : (extractOneStmt (e.afterParse sql) (sched 0) stmt).2.params with
  | none => simp [stmtParams, hq] at h3
  | some s =>
    simp only [stmtParams, hq, Option.map_some', Option.some.injEq] at h3
    simp [h3]

/-- The reset between statements: on an extractor whose pool holds reset visitors,
extractOneStmt puts back a visitor with empty builder, empty parameter list, empty table list, flag false and
operation kind unknown, and leaves such an extractor again; its results for a
statement are the same on a new extractor, on any other such extractor, whichever
visitor the pool hands out, and when the statement is extracted a second time; and
templates, tables, operation kinds and error of Extract, and for an input of one
statement also the parameter lists, are the same on every such extractor. -/
theorem reset_between_statements (e e' : Extractor) (choice choice' : Option Nat)
    (stmt : Node) (Parse : String → List Node × Option GoError)
    (sched sched' : Nat → Option Nat) (sql : String)
    (h : e.clean = true) (h' : e'.clean = true) :
    (∃ pv rest, (extractOneStmt e choice stmt).1.pool = .visitor pv :: rest ∧
      pv.builder = "" ∧ pv.params.len = 0 ∧
      (extractOneStmt e choice stmt).1.heap.read pv.params = [] ∧
      pv.tableInfos = [] ∧ pv.inAggrFunc = false ∧ pv.opType = .SQLOperationUnknown) ∧
    (extractOneStmt e choice stmt).1.clean = true ∧
    stmtResults (extractOneStmt e choice stmt)
      = stmtResults (extractOneStmt NewExtractor none stmt) ∧
    stmtResults (extractOneStmt e choice stmt)
      = stmtResults (extractOneStmt e' choice' stmt) ∧
    stmtResults (extractOneStmt (extractOneStmt e choice stmt).1 choice' stmt)
      = stmtResults (extractOneStmt e choice stmt) ∧
    (Extract Parse sched e sql).2.templates = (Extract Parse sched' e' sql).2.templates ∧
    (Extract Parse sched e sql).2.tableInfos = (Extract Parse sched' e' sql).2.tableInfos ∧
    (Extract Parse sched e sql).2.opTypes = (Extract Parse sched' e' sql).2.opTypes ∧
    (Extract Parse sched e sql).2.err = (Extract Parse sched' e' sql).2.err ∧
    (Extract Parse sched e sql).1.clean = true ∧
    (∀ s, sql ≠ "" → Parse sql = ([s], none) →
      paramsOf (Extract Parse sched e sql) = paramsOf (Extract Parse sched' e' sql)) := by
  obtain ⟨⟨pv, rest, hpool, hr, hread⟩, hc, hres⟩ := extractOneStmt_clean e choice stmt h
  have hnew := (extractOneStmt_clean NewExtractor none stmt (by decide)).2.2
  have hother := (extractOneStmt_clean e' choice' stmt h').2.2
  have hagain := (extractOneStmt_clean (extractOneStmt e choice stmt).1 choice' stmt hc).2.2
  obtain ⟨x1, x2, x3, x4, x5⟩ := Extract_clean Parse sched sched' e e' sql h h'
  have hfields := isReset_eq pv hr
  refine ⟨⟨pv, rest, hpool, ?_, ?_, hread, ?_, ?_, ?_⟩, hc, hres.trans hnew.symm,
    hres.trans hother.symm, hagain.trans hres.symm, x1, x2, x3, x4, x5, ?_⟩
  · rw [hfields]
  · rw [hfields]
  · rw [hfields]
  · rw [hfields]
  · rw [hfields]
  · intro s hs hp
    rw [Extract_one_params Parse sched e sql s h hs hp,
      Extract_one_params Parse sched' e' sql s h' hs hp]

/-- The reset between statements at the extractor that has extracted `INSERT INTO users
(name, age) VALUES ('Alice', 25)`: the DELETE statement gives on the reused visitor what
it gives on a new extractor. -/
theorem reset_between_statements_at_delete :
    (extractOneStmt NewExtractor none stmtInsertAlice).1.clean = true ∧
    NewExtractor.clean = true ∧
    stmtResults (extractOneStmt (extractOneStmt NewExtractor none stmtInsertAlice).1 (some 0)
        stmtDeleteTargets)
      = stmtResults (extractOneStmt NewExtractor none stmtDeleteTargets) :=
  ⟨by decide, by decide,
    (reset_between_statements (extractOneStmt NewExtractor none stmtInsertAlice).1
      NewExtractor (some 0) none stmtDeleteTargets parseSelectOne (fun _ => some 0)
      (fun _ => none) "SELECT 1" (by decide) (by decide)).2.2.1⟩

/-- C31, the code at the failing input: `SELECT 1; SELECT 2` extracted twice on a new
extractor.  When the pool hands the second statement the visitor the first one put
back, the parameter lists Extract returns read 2 and 2; when the pool makes a new
visitor, they read 1 and 2.  Templates, tables and operation kinds are the same in both
runs, the visitors put back are reset in both, and the first statement on its own has
the parameter 1. -/
theorem C31_same_input_different_parameters :
    NewExtractor.clean = true ∧
    paramsOf (Extract (parseTo [selectLiteral 1, selectLiteral 2]) reuseLast NewExtractor
      "SELECT 1; SELECT 2") = some [[.int64 2], [.int64 2]] ∧
    paramsOf (Extract (parseTo [selectLiteral 1, selectLiteral 2]) alwaysNew NewExtractor
      "SELECT 1; SELECT 2") = some [[.int64 1], [.int64 2]] ∧
    paramsOf (Extract (parseTo [selectLiteral 1, selectLiteral 2]) reuseLast NewExtractor
        "SELECT 1; SELECT 2")
      ≠ paramsOf (Extract (parseTo [selectLiteral 1, selectLiteral 2]) alwaysNew
        NewExtractor "SELECT 1; SELECT 2") ∧
    (Extract (parseTo [selectLiteral 1, selectLiteral 2]) reuseLast NewExtractor
        "SELECT 1; SELECT 2").2.templates
      = (Extract (parseTo [selectLiteral 1, selectLiteral 2]) alwaysNew NewExtractor
        "SELECT 1; SELECT 2").2.templates ∧
    (Extract (parseTo [selectLiteral 1, selectLiteral 2]) reuseLast NewExtractor
      "SELECT 1; SELECT 2").1.clean = true ∧
    (Extract (parseTo [selectLiteral 1, selectLiteral 2]) alwaysNew NewExtractor
      "SELECT 1; SELECT 2").1.clean = true ∧
    stmtParams (extractOneStmt NewExtractor none (selectLiteral 1)) = some [.int64 1] := by
  decide

end SqlExtractor
